import Mathlib

/-!
# Gemlink masternode consensus subsystem: upgrade gate, scoring, lifecycle

A shallow embedding of

* `src/consensus/params.h`, `src/consensus/upgrades.cpp` (the upgrade gate),
* `src/masternode.h`, `src/masternode.cpp` (block-hash lookup, score, lifecycle `Check`,
  pings and broadcasts),
* `src/masternode-payments.cpp` (the payment-vote ledger, payout validation, the minimum
  protocol version, the snapshot file, the outputs of the coinbase transaction).

Conventions of the embedding.

* A failing `assert` aborts the process: functions that contain one return `Option`,
  and `none` stands for the abort.
* `int` and `int64_t` values are `Int`. Signed overflow is undefined behaviour in C++ and
  is not modelled; defined conversions (the narrowing of `int64_t` to `int`, arithmetic of
  `arith_uint256` modulo `2^256`) are modelled explicitly.
* A file is the list of its bytes, or absent; bytes are numbers.
* The array `Params::vUpgrades` is a list; `MAX_NETWORK_UPGRADES` is its length (the
  enumeration in `params.h` and the table in `upgrades.cpp` differ in length, the
  functions below only depend on the array bound).
-/

set_option autoImplicit false

/-! ## consensus/params.h -/

namespace Consensus

/-- Record `Consensus::NetworkUpgrade` (without `hashActivationBlock`). -/
structure NetworkUpgrade where
  nProtocolVersion : Int
  nActivationHeight : Int
deriving DecidableEq, Repr

/-- Constant `NetworkUpgrade::ALWAYS_ACTIVE`. -/
def NetworkUpgrade.ALWAYS_ACTIVE : Int := 0

/-- Constant `NetworkUpgrade::NO_ACTIVATION_HEIGHT`. -/
def NetworkUpgrade.NO_ACTIVATION_HEIGHT : Int := -1

/-- Record `Consensus::Params`, restricted to the upgrade table. -/
structure Params where
  vUpgrades : List NetworkUpgrade
deriving DecidableEq, Repr

/-- Array bound of `vUpgrades`. -/
def MAX_NETWORK_UPGRADES (params : Params) : Nat := params.vUpgrades.length

/-- Enumerator `BASE_SPROUT` of `Consensus::UpgradeIndex`. -/
def BASE_SPROUT : Nat := 0
/-- Enumerator `UPGRADE_TESTDUMMY`. -/
def UPGRADE_TESTDUMMY : Nat := 1
/-- Enumerator `UPGRADE_OVERWINTER`. -/
def UPGRADE_OVERWINTER : Nat := 2
/-- Enumerator `UPGRADE_SAPLING`. -/
def UPGRADE_SAPLING : Nat := 3
/-- Enumerator `UPGRADE_DIFA`. -/
def UPGRADE_DIFA : Nat := 4
/-- Enumerator `UPGRADE_ALFHEIMR`. -/
def UPGRADE_ALFHEIMR : Nat := 5
/-- Enumerator `UPGRADE_KNOWHERE`. -/
def UPGRADE_KNOWHERE : Nat := 6
/-- Enumerator `UPGRADE_WAKANDA`. -/
def UPGRADE_WAKANDA : Nat := 7
/-- Enumerator `UPGRADE_ATLANTIS`. -/
def UPGRADE_ATLANTIS : Nat := 8
/-- Enumerator `UPGRADE_MORAG`. -/
def UPGRADE_MORAG : Nat := 9
/-- Enumerator `UPGRADE_XANDAR`. -/
def UPGRADE_XANDAR : Nat := 10
/-- Enumerator `UPGRADE_LATVERIA`. -/
def UPGRADE_LATVERIA : Nat := 11
/-- Enumerator `UPGRADE_KRAKOA` (used by chainparams.cpp, listed after Latveria in
`NetworkUpgradeInfo`). -/
def UPGRADE_KRAKOA : Nat := 12
/-- Enumerator `UPGRADE_LATVERION` (used by chainparams.cpp, last row of
`NetworkUpgradeInfo`). -/
def UPGRADE_LATVERION : Nat := 13

end Consensus

/-! ## consensus/upgrades.cpp -/

/-- Enumeration `UpgradeState`. -/
inductive UpgradeState where
  | UPGRADE_DISABLED
  | UPGRADE_PENDING
  | UPGRADE_ACTIVE
deriving DecidableEq, Repr

/-- Function `NetworkUpgradeState`: `none` when one of its two assertions fails. -/
def NetworkUpgradeState (nHeight : Int) (params : Consensus.Params) (idx : Nat) :
    Option UpgradeState :=
  -- assert(nHeight >= 0);
  if nHeight < 0 then none
  else
    -- assert(idx >= Consensus::BASE_SPROUT && idx < Consensus::MAX_NETWORK_UPGRADES);
    match params.vUpgrades[idx]? with
    | none => none
    | some u =>
      let nActivationHeight := u.nActivationHeight
      if nActivationHeight = Consensus.NetworkUpgrade.NO_ACTIVATION_HEIGHT then
        some UpgradeState.UPGRADE_DISABLED
      else if nHeight ≥ nActivationHeight then
        some UpgradeState.UPGRADE_ACTIVE
      else
        some UpgradeState.UPGRADE_PENDING

/-- Function `NetworkUpgradeActive`. -/
def NetworkUpgradeActive (nHeight : Int) (params : Consensus.Params) (idx : Nat) :
    Option Bool :=
  (NetworkUpgradeState nHeight params idx).map
    (fun s => decide (s = UpgradeState.UPGRADE_ACTIVE))

/-- Loop of `CurrentEpoch`; the argument is `idxInt + 1`, so `0` is the loop exit
(`idxInt = -1`) followed by the base case. -/
def CurrentEpoch.loop (nHeight : Int) (params : Consensus.Params) : Nat → Option Nat
  | 0 => some Consensus.BASE_SPROUT
  | idxInt + 1 =>
    match NetworkUpgradeActive nHeight params idxInt with
    | none => none
    | some true => some idxInt
    | some false => CurrentEpoch.loop nHeight params idxInt

/-- Function `CurrentEpoch`. -/
def CurrentEpoch (nHeight : Int) (params : Consensus.Params) : Option Nat :=
  CurrentEpoch.loop nHeight params (Consensus.MAX_NETWORK_UPGRADES params)

/-- First statement of `CMasternodeBroadcast::Create` (masternode.cpp) and the same
statement of `CMasternodePayments::ProcessBlock` (masternode-payments.cpp):
`fNewSigs = NetworkUpgradeActive(chainActive.Height() - 20, ..., UPGRADE_MORAG)`. -/
def Create_fNewSigs (chainActiveHeight : Int) (params : Consensus.Params) : Option Bool :=
  NetworkUpgradeActive (chainActiveHeight - 20) params Consensus.UPGRADE_MORAG

/-! ## Properties of the upgrade table used in the statements -/

/-- Activation height of stage `idx`, when `idx` is a stage of the table. -/
def activationHeight (params : Consensus.Params) (idx : Nat) : Option Int :=
  (params.vUpgrades[idx]?).map (fun u => u.nActivationHeight)

/-- Sprout is always active: stage 0 exists and has height `ALWAYS_ACTIVE`. -/
def SproutAlwaysActive (params : Consensus.Params) : Prop :=
  activationHeight params Consensus.BASE_SPROUT = some Consensus.NetworkUpgrade.ALWAYS_ACTIVE

instance (params : Consensus.Params) : Decidable (SproutAlwaysActive params) := by
  unfold SproutAlwaysActive; infer_instance

/-- The activation heights of the stages that are not the sentinel are non-decreasing
in the stage index. -/
def MonotoneActivation (params : Consensus.Params) : Prop :=
  ∀ i j : Fin params.vUpgrades.length, i ≤ j →
    (params.vUpgrades.get i).nActivationHeight ≠ Consensus.NetworkUpgrade.NO_ACTIVATION_HEIGHT →
    (params.vUpgrades.get j).nActivationHeight ≠ Consensus.NetworkUpgrade.NO_ACTIVATION_HEIGHT →
    (params.vUpgrades.get i).nActivationHeight ≤ (params.vUpgrades.get j).nActivationHeight

instance (params : Consensus.Params) : Decidable (MonotoneActivation params) := by
  unfold MonotoneActivation; infer_instance

/-- Stage `idx` has a height that is not the sentinel and is at most `nHeight`. -/
def ReachedAt (nHeight : Int) (params : Consensus.Params) (idx : Nat) : Prop :=
  ∃ a, activationHeight params idx = some a ∧
    a ≠ Consensus.NetworkUpgrade.NO_ACTIVATION_HEIGHT ∧ a ≤ nHeight

/-- A small table used in the examples: Sprout at 0, a disabled stage, then 5 and 10. -/
def sampleParams : Consensus.Params :=
  { vUpgrades := [⟨170002, 0⟩, ⟨170002, -1⟩, ⟨170003, 5⟩, ⟨170007, 10⟩] }

/-- Upgrade table of `CMainParams` (chainparams.cpp), in the order of `UpgradeIndex`. -/
def mainParams : Consensus.Params :=
  { vUpgrades :=
      [ ⟨170006, Consensus.NetworkUpgrade.ALWAYS_ACTIVE⟩,
        ⟨170006, Consensus.NetworkUpgrade.NO_ACTIVATION_HEIGHT⟩,
        ⟨170007, 520000⟩, ⟨170008, 520000⟩, ⟨170008, 765000⟩, ⟨170008, 850000⟩,
        ⟨170009, 916000⟩, ⟨170010, 1545000⟩, ⟨170010, 1760000⟩, ⟨170011, 2167200⟩,
        ⟨170012, 2844000⟩, ⟨170012, 3125000⟩, ⟨170012, 3270500⟩, ⟨170012, 3730000⟩ ] }

/-! ## masternode.h / masternode.cpp: block hashes and score -/

/-- Macro `MASTERNODE_MIN_MNP_SECONDS`. -/
def MASTERNODE_MIN_MNP_SECONDS : Int := 10 * 60
/-- Macro `MASTERNODE_EXPIRATION_SECONDS`. -/
def MASTERNODE_EXPIRATION_SECONDS : Int := 120 * 60
/-- Macro `MASTERNODE_REMOVAL_SECONDS`. -/
def MASTERNODE_REMOVAL_SECONDS : Int := 130 * 60
/-- Macro `MASTERNODE_CHECK_SECONDS`. -/
def MASTERNODE_CHECK_SECONDS : Int := 5

/-- Block index node (`CBlockIndex`): its height and its block hash. A chain is the list
of nodes met from the tip by following `pprev`; the tip is the head of the list and the
empty list is the null pointer. -/
structure CBlockIndex where
  nHeight : Int
  hashBlock : Nat
deriving DecidableEq, Repr

/-- Global `mapCacheBlockHashes` (`std::map<int64_t, uint256>`). -/
abbrev BlockHashCache := Int → Option Nat

/-- The empty map. -/
def BlockHashCache.empty : BlockHashCache := fun _ => none

/-- Assignment `mapCacheBlockHashes[k] = v`. -/
def BlockHashCache.insert (m : BlockHashCache) (k : Int) (v : Nat) : BlockHashCache :=
  fun k' => if k' = k then some v else m k'

/-- Loop of `GetBlockHash`: `BlockReading` is the head of the list, `n` the counter.
The result is the hash assigned to `hash` when the loop returns true, `none` when the loop
is left (condition false, or `break` on a null `pprev`). -/
def GetBlockHash.loop (nBlocksAgo : Int) : List CBlockIndex → Int → Option Nat
  | [], _ => none
  | BlockReading :: pprev, n =>
    if BlockReading.nHeight > 0 then
      if n ≥ nBlocksAgo then some BlockReading.hashBlock
      else GetBlockHash.loop nBlocksAgo pprev (n + 1)
    else none

/-- Function `GetBlockHash(hash, nBlockHeight)`. The first component is `some h` when the
function returns true having set `hash = h`, and `none` when it returns false; the second
component is `mapCacheBlockHashes` after the call. `chain` is the chain from
`GetChainTip()`. -/
def GetBlockHash (chain : List CBlockIndex) (cache : BlockHashCache) (nBlockHeight : Int) :
    Option Nat × BlockHashCache :=
  match chain with
  | [] => (none, cache)
  | tipIndex :: _ =>
    if tipIndex.nHeight = 0 then (none, cache)
    else
      let nBlockHeight := if nBlockHeight = 0 then tipIndex.nHeight else nBlockHeight
      match cache nBlockHeight with
      | some hash => (some hash, cache)
      | none =>
        let nBlocksAgo : Int :=
          if nBlockHeight > 0 then (tipIndex.nHeight + 1) - nBlockHeight else 0
        if nBlocksAgo < 0 then (none, cache)
        else
          match GetBlockHash.loop nBlocksAgo chain 0 with
          | some hash => (some hash, cache.insert nBlockHeight hash)
          | none => (none, cache)

/-- Record `COutPoint`: transaction id (a 256-bit number) and output index (32 bits). -/
structure COutPoint where
  hash : Nat
  n : Nat
deriving DecidableEq, Repr

/-- Method `COutPoint::IsNull` (primitives/transaction.h): null hash and index `-1`. -/
def COutPoint.IsNull (o : COutPoint) : Bool := o.hash == 0 && o.n == 2 ^ 32 - 1

/-- Record `CTxIn`, restricted to the outpoint it spends. -/
structure CTxIn where
  prevout : COutPoint
deriving DecidableEq, Repr

/-- Conversion of an `int64_t` to `int` (the argument of `CalculateScore` is handed to
`GetBlockHash`, whose parameter is an `int`). -/
def toInt32 (x : Int) : Int := (x + 2 ^ 31) % 2 ^ 32 - 2 ^ 31

/-- Digest of a `CHashWriter` into which the given 256-bit words were written, as an
`arith_uint256`. The hash function itself is a parameter. -/
def hashWords (Hash : List Nat → Nat) (ws : List Nat) : Nat := Hash ws % 2 ^ 256

/-- The tail of `CMasternode::CalculateScore`, from the block hash on. -/
def scoreOfHash (Hash : List Nat → Nat) (vin : CTxIn) (hash : Nat) : Nat :=
  -- uint256 aux = ArithToUint256(UintToArith256(vin.prevout.hash) + vin.prevout.n);
  let aux := (vin.prevout.hash + vin.prevout.n) % 2 ^ 256
  let hash2 := hashWords Hash [hash]
  let hash3 := hashWords Hash [hash, aux]
  -- return (hash3 > hash2 ? hash3 - hash2 : hash2 - hash3);  (arith_uint256 arithmetic)
  if hash3 > hash2 then (hash3 + 2 ^ 256 - hash2) % 2 ^ 256
  else (hash2 + 2 ^ 256 - hash3) % 2 ^ 256

/-- Method `CMasternode::CalculateScore(nBlockHeight)` of an entry with collateral input
`vin`: the score and `mapCacheBlockHashes` after the call. -/
def CalculateScore (Hash : List Nat → Nat) (chain : List CBlockIndex) (cache : BlockHashCache)
    (vin : CTxIn) (nBlockHeight : Int) : Nat × BlockHashCache :=
  match chain with
  | [] => (0, cache)
  | _ :: _ =>
    match GetBlockHash chain cache (toInt32 nBlockHeight) with
    | (none, cache') => (0, cache')
    | (some hash, cache') => (scoreOfHash Hash vin hash, cache')

/-- A main chain with tip height `T`: the tip has height `T`, every `pprev` has the
height of its successor minus one, and the last node is the genesis block at height 0 (the
empty chain has tip height `-1`). -/
def IsMainChain : List CBlockIndex → Int → Prop
  | [], T => T = -1
  | tip :: pprev, T => tip.nHeight = T ∧ IsMainChain pprev (T - 1)

instance IsMainChain.decide : (chain : List CBlockIndex) → (T : Int) →
    Decidable (IsMainChain chain T)
  | [], T => by unfold IsMainChain; infer_instance
  | tip :: pprev, T => by
    unfold IsMainChain
    exact @instDecidableAnd _ _ _ (IsMainChain.decide pprev (T - 1))

/-- The hash of the first node of height `h` met from the tip (in a main chain: of the
block of height `h`). -/
def hashAtHeight (chain : List CBlockIndex) (h : Int) : Option Nat :=
  (chain.find? (fun b => b.nHeight == h)).map (fun b => b.hashBlock)

/-- A toy digest for the examples (not collision resistant): a positional sum. -/
def sampleHash (ws : List Nat) : Nat := ws.foldl (fun acc w => 3 * acc + w + 1) 0

/-- Example chain A: heights 3, 2, 1, 0. -/
def chainA : List CBlockIndex := [⟨3, 1003⟩, ⟨2, 1002⟩, ⟨1, 1001⟩, ⟨0, 1000⟩]

/-- Example chain B: chain A after a reorganisation that replaced the blocks above
height 1. -/
def chainB : List CBlockIndex := [⟨3, 2003⟩, ⟨2, 2002⟩, ⟨1, 1001⟩, ⟨0, 1000⟩]

/-! ## masternode.h / masternode.cpp: the entry and its lifecycle check -/

/-- Record `CMasternodePing`. -/
structure CMasternodePing where
  vin : CTxIn
  blockHash : Nat
  sigTime : Int
  vchSig : List Nat
  nMessVersion : Int
deriving DecidableEq, Repr

/-- Method `CMasternodePing::IsNull`. -/
def CMasternodePing.IsNull (p : CMasternodePing) : Bool :=
  p.blockHash == 0 || p.vin.prevout.IsNull

/-- Values of `CMasternode::activeState`: the enumeration `CMasternode::state` of
masternode.h, and the two states `MASTERNODE_RE_ENABLED` and `MASTERNODE_UNLOCKING` that
masternode.cpp uses. -/
inductive MasternodeState where
  | MASTERNODE_PRE_ENABLED
  | MASTERNODE_ENABLED
  | MASTERNODE_EXPIRED
  | MASTERNODE_REMOVE
  | MASTERNODE_WATCHDOG_EXPIRED
  | MASTERNODE_POSE_BAN
  | MASTERNODE_VIN_SPENT
  | MASTERNODE_POS_ERROR
  | MASTERNODE_MISSING
  | MASTERNODE_RE_ENABLED
  | MASTERNODE_UNLOCKING
deriving DecidableEq, Repr

/-- Record `CMasternode` (keys, address and signature are kept as abstract numbers). -/
structure CMasternode where
  lastTimeChecked : Int
  vin : CTxIn
  addr : Nat
  pubKeyCollateralAddress : Nat
  pubKeyMasternode : Nat
  vchSig : List Nat
  activeState : MasternodeState
  sigTime : Int
  unitTest : Bool
  allowFreeTx : Bool
  protocolVersion : Int
  nLastDsq : Int
  nScanningErrorCount : Int
  nLastScanningErrorBlockHeight : Int
  lastPing : CMasternodePing
  nMessVersion : Int
deriving DecidableEq, Repr

/-- Record `CChainParams`, restricted to what the lifecycle check reads: the consensus
parameters, the two collateral amounts, and the values returned by `GetMnLockTime()` and
`GetMnStartUnlockTime()`. -/
structure CChainParams where
  consensus : Consensus.Params
  masternodeCollateral : Int
  masternodeCollateralNew : Int
  mnLockTime : Int
  mnStartUnlockTime : Int

/-- Method `CChainParams::GetMasternodeCollateral` (chainparams.cpp); the member
`consensus.NetworkUpgradeActive(height, idx)` is the gate function applied to the
consensus parameters. -/
def CChainParams.GetMasternodeCollateral (p : CChainParams) (height : Int) : Option Int :=
  (NetworkUpgradeActive height p.consensus Consensus.UPGRADE_MORAG).map
    (fun active => if !active then p.masternodeCollateral else p.masternodeCollateralNew)

/-- What `CMasternode::Check` reads from the rest of the node: the shutdown flag, the two
clocks, `chainActive.Height()`, the chain parameters, whether `TRY_LOCK(cs_main, lockMain)`
obtains the lock, and the verdict of `AcceptableInputs` on the test transaction that spends
`vin` into one output for the collateral key; that output has the value
`collateral * COIN - 0.01 * COIN`, so the verdict is given as a function of the input, the
key and the collateral amount. -/
structure CheckEnv where
  ShutdownRequested : Bool
  GetTime : Int
  GetAdjustedTime : Int
  chainActiveHeight : Int
  Params : CChainParams
  lockMain : Bool
  AcceptableInputs : CTxIn → Nat → Int → Bool

/-- Method `CMasternode::IsPingedWithin(seconds, now)`; `now = -1` is the default
argument. -/
def CMasternode.IsPingedWithin (env : CheckEnv) (mn : CMasternode) (seconds : Int)
    (now : Int) : Bool :=
  let now := if now = -1 then env.GetAdjustedTime else now
  if mn.lastPing.IsNull then false else decide (now - mn.lastPing.sigTime < seconds)

/-- Method `CMasternode::GetExpirationTime`. -/
def CMasternode.GetExpirationTime (env : CheckEnv) : Option Int :=
  (NetworkUpgradeActive (env.chainActiveHeight + 1) env.Params.consensus
      Consensus.UPGRADE_XANDAR).map
    (fun active =>
      if active then MASTERNODE_EXPIRATION_SECONDS + env.Params.mnLockTime
      else MASTERNODE_EXPIRATION_SECONDS)

/-- Method `CMasternode::GetRemovalTime`. -/
def CMasternode.GetRemovalTime (env : CheckEnv) : Option Int :=
  (NetworkUpgradeActive (env.chainActiveHeight + 1) env.Params.consensus
      Consensus.UPGRADE_XANDAR).map
    (fun active =>
      if active then MASTERNODE_REMOVAL_SECONDS + env.Params.mnLockTime
      else MASTERNODE_REMOVAL_SECONDS)

/-- The part of `CMasternode::Check` after the warm-up rule: the collateral test (skipped
for unit-test entries), then the UNLOCKING and ENABLED rules. -/
def CMasternode.CheckCollateral (env : CheckEnv) (mn : CMasternode) (isXandarActive : Bool) :
    Option CMasternode :=
  let finish (mn : CMasternode) : CMasternode :=
    if isXandarActive && !CMasternode.IsPingedWithin env mn env.Params.mnStartUnlockTime (-1)
        && decide (mn.activeState ≠ MasternodeState.MASTERNODE_UNLOCKING) then
      { mn with activeState := MasternodeState.MASTERNODE_UNLOCKING }
    else if mn.activeState = MasternodeState.MASTERNODE_UNLOCKING then mn
    else { mn with activeState := MasternodeState.MASTERNODE_ENABLED }
  if !mn.unitTest then
    -- CTxOut vout = CTxOut(GetMasternodeCollateral(Height + 1) * COIN - 0.01 * COIN, ...)
    match env.Params.GetMasternodeCollateral (env.chainActiveHeight + 1) with
    | none => none
    | some collateral =>
      -- if (NetworkUpgradeActive(Height + 1, ..., UPGRADE_MORAG)) vout = the same output
      match NetworkUpgradeActive (env.chainActiveHeight + 1) env.Params.consensus
          Consensus.UPGRADE_MORAG with
      | none => none
      | some _ =>
        if !env.lockMain then some mn
        else if !env.AcceptableInputs mn.vin mn.pubKeyCollateralAddress collateral then
          some { mn with activeState := MasternodeState.MASTERNODE_VIN_SPENT }
        else some (finish mn)
  else some (finish mn)

/-- Method `CMasternode::Check(forceCheck)`; `none` when an assertion of the upgrade gate
fails. -/
def CMasternode.Check (env : CheckEnv) (mn : CMasternode) (forceCheck : Bool) :
    Option CMasternode :=
  if env.ShutdownRequested then some mn
  else if !forceCheck && decide (env.GetTime - mn.lastTimeChecked < MASTERNODE_CHECK_SECONDS) then
    some mn
  else
    let mn := { mn with lastTimeChecked := env.GetTime }
    -- once spent, stop doing the checks
    if mn.activeState = MasternodeState.MASTERNODE_VIN_SPENT then some mn
    else
      match CMasternode.GetRemovalTime env with
      | none => none
      | some removalTime =>
        if !CMasternode.IsPingedWithin env mn removalTime (-1) then
          some { mn with activeState := MasternodeState.MASTERNODE_REMOVE }
        else
          match CMasternode.GetExpirationTime env with
          | none => none
          | some expirationTime =>
            if !CMasternode.IsPingedWithin env mn expirationTime (-1) then
              some { mn with activeState := MasternodeState.MASTERNODE_EXPIRED }
            else
              match NetworkUpgradeActive (env.chainActiveHeight + 1) env.Params.consensus
                  Consensus.UPGRADE_XANDAR with
              | none => none
              | some isXandarActive =>
                if mn.lastPing.sigTime - mn.sigTime < MASTERNODE_MIN_MNP_SECONDS then
                  if isXandarActive == false ||
                      (isXandarActive == true &&
                        decide (mn.activeState ≠ MasternodeState.MASTERNODE_RE_ENABLED)) then
                    some { mn with activeState := MasternodeState.MASTERNODE_PRE_ENABLED }
                  else some mn
                else CMasternode.CheckCollateral env mn isXandarActive

/-- The environment is one in which the upgrade gate can be consulted by `Check`:
`chainActive.Height()` is at least `-1` (the height of an empty chain) and the table has
the stages up to `UPGRADE_XANDAR`. -/
def CheckEnv.WellFormed (env : CheckEnv) : Prop :=
  -1 ≤ env.chainActiveHeight ∧
    Consensus.UPGRADE_XANDAR < Consensus.MAX_NETWORK_UPGRADES env.Params.consensus

instance (env : CheckEnv) : Decidable env.WellFormed := by
  unfold CheckEnv.WellFormed; infer_instance

/-- Example parameters: the main-network table, collaterals 10000 and 20000, a lock time
of 14 days and an unlock window of one day. -/
def sampleChainParams : CChainParams :=
  { consensus := mainParams, masternodeCollateral := 10000, masternodeCollateralNew := 20000,
    mnLockTime := 14 * 24 * 60 * 60, mnStartUnlockTime := 24 * 60 * 60 }

/-- Example environment: tip at height 3000000 (XANDAR active), clock at 5000000, the chain
lock available, and the collateral judged by the given verdict. -/
def sampleEnv (now : Int) (collateralOk : Bool) : CheckEnv :=
  { ShutdownRequested := false, GetTime := now, GetAdjustedTime := now,
    chainActiveHeight := 3000000, Params := sampleChainParams, lockMain := true,
    AcceptableInputs := fun _ _ _ => collateralOk }

/-- Example environment before XANDAR: tip at height 2500000. -/
def sampleEnvOld (now : Int) (collateralOk : Bool) : CheckEnv :=
  { sampleEnv now collateralOk with chainActiveHeight := 2500000 }

/-- Example ping signed at the given time. -/
def samplePing (sigTime : Int) : CMasternodePing :=
  { vin := ⟨⟨77, 1⟩⟩, blockHash := 4242, sigTime := sigTime, vchSig := [], nMessVersion := 1 }

/-- Example entry: registered at `sigTime`, last pinged at `pingTime`, in the given
state. -/
def sampleEntry (st : MasternodeState) (sigTime pingTime : Int) : CMasternode :=
  { lastTimeChecked := 0, vin := ⟨⟨77, 1⟩⟩, addr := 1, pubKeyCollateralAddress := 2,
    pubKeyMasternode := 3, vchSig := [], activeState := st, sigTime := sigTime,
    unitTest := false, allowFreeTx := true, protocolVersion := 170012, nLastDsq := 0,
    nScanningErrorCount := 0, nLastScanningErrorBlockHeight := 0,
    lastPing := samplePing pingTime, nMessVersion := 1 }

/-! ## masternode.h / masternode.cpp: pings and broadcasts against the registry -/

/-- Macro `MASTERNODE_MIN_MNB_SECONDS`. -/
def MASTERNODE_MIN_MNB_SECONDS : Int := 5 * 60

/-- Enumeration `CBaseChainParams::Network`, the value of `NetworkIdFromCommandLine()`. -/
inductive Network where
  | MAIN
  | TESTNET
  | REGTEST
deriving DecidableEq, Repr

/-- Value of `Params().GetDefaultPort()` on each network (`nDefaultPort` in
chainparams.cpp). -/
def GetDefaultPort : Network → Nat
  | Network.MAIN => 16113
  | Network.TESTNET => 26113
  | Network.REGTEST => 26114

/-- Method `CService::GetPort`. An address is kept as the number formed by its serialized
bytes, which end with the 16-bit port. -/
def CService.GetPort (addr : Nat) : Nat := addr % 2 ^ 16

/-- Method `CMasternodeBroadcast::CheckDefaultPort` (its result; the error text is not
kept). -/
def CMasternodeBroadcast.CheckDefaultPort (net : Network) (service : Nat) : Bool :=
  if CService.GetPort service ≠ GetDefaultPort net then false else true

/-- A broadcast has the fields of an entry (`CMasternodeBroadcast : public CMasternode`). -/
abbrev CMasternodeBroadcast := CMasternode

/-- Method `CMasternode::IsEnabled`. -/
def CMasternode.IsEnabled (mn : CMasternode) : Bool :=
  decide (mn.activeState = MasternodeState.MASTERNODE_ENABLED)

/-- Method `CMasternode::IsUnlocking`. -/
def CMasternode.IsUnlocking (mn : CMasternode) : Bool :=
  decide (mn.activeState = MasternodeState.MASTERNODE_UNLOCKING)

/-- Method `CMasternode::IsReEnabled`. -/
def CMasternode.IsReEnabled (mn : CMasternode) : Bool :=
  decide (mn.activeState = MasternodeState.MASTERNODE_RE_ENABLED)

/-- Method `CMasternode::IsAvailableState`. -/
def CMasternode.IsAvailableState (mn : CMasternode) : Bool :=
  decide (mn.activeState = MasternodeState.MASTERNODE_ENABLED) ||
    decide (mn.activeState = MasternodeState.MASTERNODE_PRE_ENABLED)

/-- Modelled from the spec: the registry `mnodeman` (masternodeman is not among the
sources) is the map of known entries keyed by CollateralRef, the outpoint of the entry's
collateral input. -/
abbrev Registry := COutPoint → Option CMasternode

/-- The registry without entries. -/
def Registry.empty : Registry := fun _ => none

/-- Assignment through the pointer to the entry stored under `k`. -/
def Registry.set (r : Registry) (k : COutPoint) (mn : CMasternode) : Registry :=
  fun k' => if k' = k then some mn else r k'

/-- Modelled from the spec: `mnodeman.Find(vin)` yields the entry whose CollateralRef is
the outpoint of `vin`, when there is one. -/
def CMasternodeMan.Find (r : Registry) (vin : CTxIn) : Option CMasternode := r vin.prevout

/-- What the ping and broadcast checks read from the rest of the node, besides what
`Check` reads: the network, the value of
`masternodePayments.GetMinMasternodePaymentsProto()`, the verdicts of the signature checks
of a broadcast and of a ping (the latter may depend on the registry, where the key is
looked up), the block index `mapBlockIndex` by block hash, and `chainActive.Contains`. -/
structure RegistryEnv extends CheckEnv where
  NetworkIdFromCommandLine : Network
  GetMinMasternodePaymentsProto : Int
  BroadcastCheckSignature : CMasternode → Bool
  PingCheckSignature : (COutPoint → Option CMasternode) → CMasternodePing → Bool
  mapBlockIndex : Nat → Option CBlockIndex
  chainActiveContains : CBlockIndex → Bool

/-- Method `CMasternode::IsBroadcastedWithin`. -/
def CMasternode.IsBroadcastedWithin (env : RegistryEnv) (mn : CMasternode) (seconds : Int) :
    Bool :=
  decide (env.GetAdjustedTime - mn.sigTime < seconds)

/-- Method `CMasternodePing::CheckAndUpdate(nDos, fRequireEnabled, fCheckSigTimeOnly)`:
the returned flag, `nDos` after the call and the registry after the call (relaying and the
maps of seen messages are not kept); `none` when the `Check` it runs aborts. -/
def CMasternodePing.CheckAndUpdate (env : RegistryEnv) (r : Registry)
    (ping : CMasternodePing) (nDos : Int) (fRequireEnabled fCheckSigTimeOnly : Bool) :
    Option (Bool × Int × Registry) :=
  if ping.sigTime > env.GetAdjustedTime + 60 * 60 then some (false, 30, r)
  else if ping.sigTime ≤ env.GetAdjustedTime - 60 * 60 then some (false, 30, r)
  else
    -- see if we have this Masternode
    let pmn := CMasternodeMan.Find r ping.vin
    let isMasternodeFound := pmn.isSome
    let isSignatureValid := isMasternodeFound && env.PingCheckSignature r ping
    if fCheckSigTimeOnly then
      if isMasternodeFound && !isSignatureValid then some (false, 33, r)
      else some (true, nDos, r)
    else
      match pmn with
      | none => some (false, nDos, r)
      | some mn =>
        if mn.protocolVersion ≥ env.GetMinMasternodePaymentsProto then
          if fRequireEnabled && !mn.IsAvailableState then some (false, nDos, r)
          else if !CMasternode.IsPingedWithin env.toCheckEnv mn
              (MASTERNODE_MIN_MNP_SECONDS - 60) ping.sigTime then
            if !isSignatureValid then some (false, 33, r)
            else
              match env.mapBlockIndex ping.blockHash with
              | none => some (false, nDos, r)
              | some pindex =>
                if !env.chainActiveContains pindex ||
                    decide (env.chainActiveHeight - pindex.nHeight > 24) then
                  some (false, nDos, r)
                else
                  -- pmn->lastPing = *this; pmn->Check(true);
                  match CMasternode.Check env.toCheckEnv { mn with lastPing := ping } true with
                  | none => none
                  | some mn' =>
                    if !mn'.IsEnabled then some (false, nDos, r.set ping.vin.prevout mn')
                    else some (true, nDos, r.set ping.vin.prevout mn')
          else some (false, nDos, r)
        else some (false, nDos, r)

/-- Method `CMasternode::UpdateFromNewBroadcast(mnb)` of the entry stored under `k`: the
returned flag and the registry after the call; `none` when there is no such entry or the
upgrade gate aborts. -/
def CMasternode.UpdateFromNewBroadcast (env : RegistryEnv) (r : Registry) (k : COutPoint)
    (mnb : CMasternodeBroadcast) : Option (Bool × Registry) :=
  match r k with
  | none => none
  | some self =>
    if mnb.sigTime > self.sigTime then
      let self1 : CMasternode :=
        { self with pubKeyMasternode := mnb.pubKeyMasternode,
                    pubKeyCollateralAddress := mnb.pubKeyCollateralAddress,
                    sigTime := mnb.sigTime, vchSig := mnb.vchSig,
                    protocolVersion := mnb.protocolVersion, addr := mnb.addr,
                    lastTimeChecked := 0 }
      match NetworkUpgradeActive (env.chainActiveHeight + 1) env.Params.consensus
          Consensus.UPGRADE_XANDAR with
      | none => none
      | some isXandarActive =>
        let self2 : CMasternode :=
          if isXandarActive && (self1.IsEnabled || self1.IsUnlocking || self1.IsReEnabled) then
            { self1 with activeState := MasternodeState.MASTERNODE_RE_ENABLED }
          else self1
        let r2 := r.set k self2
        if mnb.lastPing.IsNull then some (true, r2.set k { self2 with lastPing := mnb.lastPing })
        else
          match CMasternodePing.CheckAndUpdate env r2 mnb.lastPing 0 false false with
          | none => none
          | some (false, _, r3) => some (true, r3)
          | some (true, _, r3) =>
            match r3 k with
            | none => none
            | some self3 => some (true, r3.set k { self3 with lastPing := mnb.lastPing })
    else some (false, r)

/-- The port test of `CMasternodeBroadcast::CheckAndUpdate`: true when the broadcast is
refused because of its port. -/
def CMasternodeBroadcast.portRefused (net : Network) (addr : Nat) : Bool :=
  if net = Network.MAIN then decide (CService.GetPort addr ≠ 16113)
  else decide (CService.GetPort addr = 16113)

/-- Method `CMasternodeBroadcast::CheckAndUpdate(nDos)`: the returned flag, `nDos` after
the call and the registry after the call; `none` when the upgrade gate aborts. -/
def CMasternodeBroadcast.CheckAndUpdate (env : RegistryEnv) (r : Registry)
    (mnb : CMasternodeBroadcast) (nDos : Int) : Option (Bool × Int × Registry) :=
  -- make sure signature isn't in the future (past is OK)
  if mnb.sigTime > env.GetAdjustedTime + 60 * 60 then some (false, 30, r)
  else if mnb.protocolVersion < env.GetMinMasternodePaymentsProto then some (false, nDos, r)
  else if !env.BroadcastCheckSignature mnb then some (false, 100, r)
  else if CMasternodeBroadcast.portRefused env.NetworkIdFromCommandLine mnb.addr then
    some (false, nDos, r)
  else
    match CMasternodeMan.Find r mnb.vin with
    -- no such masternode, nothing to update
    | none => some (true, nDos, r)
    | some pmn =>
      match NetworkUpgradeActive (env.chainActiveHeight + 1) env.Params.consensus
          Consensus.UPGRADE_MORAG with
      | none => none
      | some isMorag =>
        -- incorrect ping or its sigTime
        let pingTest : Option (Bool × Int) :=
          if isMorag then
            if pmn.lastPing.IsNull then some (pmn.IsEnabled, nDos)
            else
              match CMasternodePing.CheckAndUpdate env r pmn.lastPing nDos false true with
              | none => none
              | some (ok, nDos', _) => some (!ok && pmn.IsEnabled, nDos')
          else some (false, nDos)
        match pingTest with
        | none => none
        | some (true, nDos) => some (false, nDos, r)
        | some (false, nDos) =>
          if pmn.sigTime ≥ mnb.sigTime then some (false, nDos, r)
          -- masternode is not enabled yet/already, nothing to update
          else if !pmn.IsEnabled && !pmn.IsUnlocking && !pmn.IsReEnabled then
            some (true, nDos, r)
          else if pmn.pubKeyCollateralAddress = mnb.pubKeyCollateralAddress ∧
              CMasternode.IsBroadcastedWithin env pmn MASTERNODE_MIN_MNB_SECONDS = false then
            match CMasternode.UpdateFromNewBroadcast env r mnb.vin.prevout mnb with
            | none => none
            | some (false, r1) => some (true, nDos, r1)
            | some (true, r1) =>
              -- pmn->Check();
              match r1 mnb.vin.prevout with
              | none => none
              | some pmn1 =>
                match CMasternode.Check env.toCheckEnv pmn1 false with
                | none => none
                | some pmn2 => some (true, nDos, r1.set mnb.vin.prevout pmn2)
          else some (true, nDos, r)

/-- Example environment of the registry functions on a network: the example environment of
`Check` at the given time, every signature valid, every block hash known at height
2999990 on the main chain. -/
def sampleRegistryEnv (net : Network) (now : Int) : RegistryEnv :=
  { toCheckEnv := sampleEnv now true, NetworkIdFromCommandLine := net,
    GetMinMasternodePaymentsProto := 170011, BroadcastCheckSignature := fun _ => true,
    PingCheckSignature := fun _ _ => true,
    mapBlockIndex := fun h => some ⟨2999990, h⟩, chainActiveContains := fun _ => true }

/-- Example broadcast for the collateral of the example entry: signed at `sigTime`, with an
embedded ping signed at `pingTime`, announcing the given address. -/
def sampleBroadcast (sigTime pingTime : Int) (addr : Nat) : CMasternodeBroadcast :=
  { sampleEntry MasternodeState.MASTERNODE_ENABLED sigTime pingTime with
      addr := addr, pubKeyMasternode := 3 + addr }

/-- Example registry holding one entry, the example entry in the given state. -/
def sampleRegistry (st : MasternodeState) (sigTime pingTime : Int) : Registry :=
  Registry.empty.set ⟨77, 1⟩ (sampleEntry st sigTime pingTime)

/-- The entry holds the fields that a broadcast overwrites: signature time, both public
keys, signature, protocol version and address are those of `mnb`. -/
def CMasternode.HoldsFieldsOf (mn mnb : CMasternode) : Prop :=
  mn.sigTime = mnb.sigTime ∧ mn.pubKeyMasternode = mnb.pubKeyMasternode ∧
    mn.pubKeyCollateralAddress = mnb.pubKeyCollateralAddress ∧ mn.vchSig = mnb.vchSig ∧
    mn.protocolVersion = mnb.protocolVersion ∧ mn.addr = mnb.addr

instance (mn mnb : CMasternode) : Decidable (mn.HoldsFieldsOf mnb) := by
  unfold CMasternode.HoldsFieldsOf; infer_instance

/-- Processing of a sequence of received broadcasts by `CheckAndUpdate`, each with
`nDos = 0`: the registry after the last one. -/
def processBroadcasts (env : RegistryEnv) : Registry → List CMasternodeBroadcast →
    Option Registry
  | r, [] => some r
  | r, mnb :: rest =>
    match CMasternodeBroadcast.CheckAndUpdate env r mnb 0 with
    | none => none
    | some (_, _, r') => processBroadcasts env r' rest

/-! ## masternode-payments.cpp: the payment-vote ledger -/

/-- Record `CMasternodePaymentWinner`, a payment vote; scripts are kept as numbers. -/
structure CMasternodePaymentWinner where
  vinMasternode : CTxIn
  nBlockHeight : Int
  payee : Nat
  vchSig : List Nat
  nMessVersion : Int
deriving DecidableEq, Repr

/-- Method `CMasternodePaymentWinner::GetHash`: the digest of the payee script, the
height (as the 32 bits that are serialized) and the voter's outpoint. -/
def CMasternodePaymentWinner.GetHash (Hash : List Nat → Nat) (w : CMasternodePaymentWinner) :
    Nat :=
  hashWords Hash [w.payee, (w.nBlockHeight % 2 ^ 32).toNat, w.vinMasternode.prevout.hash,
    w.vinMasternode.prevout.n]

/-- Modelled from the spec: macro `MNPAYMENTS_SIGNATURES_REQUIRED` of
masternode-payments.h, which is not among the sources; the spec gives
`SIGNATURES_REQUIRED = 6`. -/
def MNPAYMENTS_SIGNATURES_REQUIRED : Int := 6

/-- Record `CMasternodePayee`, a candidate payee and its vote count, as
`IsTransactionValid` uses it. -/
structure CMasternodePayee where
  scriptPubKey : Nat
  nVotes : Int
deriving DecidableEq, Repr

/-- Record `CMasternodeBlockPayees`, the tally of one height, as `IsTransactionValid` and
`AddWinningMasternode` use it. -/
structure CMasternodeBlockPayees where
  nBlockHeight : Int
  vecPayments : List CMasternodePayee
deriving DecidableEq, Repr

/-- Modelled from the spec: `AddPayee` on the candidates of a tally (masternode-payments.h
is not among the sources): "incrementing the matching candidate's count (or creating a new
candidate entry)". -/
def AddPayee.loop (payeeIn : Nat) (nIncrement : Int) : List CMasternodePayee →
    List CMasternodePayee
  | [] => [⟨payeeIn, nIncrement⟩]
  | payee :: rest =>
    if payee.scriptPubKey = payeeIn then { payee with nVotes := payee.nVotes + nIncrement } :: rest
    else payee :: AddPayee.loop payeeIn nIncrement rest

/-- Modelled from the spec: method `CMasternodeBlockPayees::AddPayee(payeeIn, nIncrement)`,
see `AddPayee.loop`. -/
def CMasternodeBlockPayees.AddPayee (b : CMasternodeBlockPayees) (payeeIn : Nat)
    (nIncrement : Int) : CMasternodeBlockPayees :=
  { b with vecPayments := AddPayee.loop payeeIn nIncrement b.vecPayments }

/-- Record `CMasternodePayments`, the ledger: `mapMasternodePayeeVotes` as the list of its
(identity hash, vote) pairs, the most recently inserted first, and `mapMasternodeBlocks`
as a partial function of the height. -/
structure CMasternodePayments where
  mapMasternodePayeeVotes : List (Nat × CMasternodePaymentWinner)
  mapMasternodeBlocks : Int → Option CMasternodeBlockPayees

/-- The empty ledger. -/
def CMasternodePayments.empty : CMasternodePayments :=
  { mapMasternodePayeeVotes := [], mapMasternodeBlocks := fun _ => none }

/-- Expression `mapMasternodePayeeVotes.count(hash)` as a truth value. -/
def CMasternodePayments.hasVote (L : CMasternodePayments) (hash : Nat) : Bool :=
  L.mapMasternodePayeeVotes.any (fun kv => kv.1 == hash)

/-- Method `CMasternodePayments::AddWinningMasternode(winnerIn)`: the returned flag, the
ledger and `mapCacheBlockHashes` after the call. -/
def CMasternodePayments.AddWinningMasternode (Hash : List Nat → Nat)
    (chain : List CBlockIndex) (L : CMasternodePayments) (cache : BlockHashCache)
    (winnerIn : CMasternodePaymentWinner) : Bool × CMasternodePayments × BlockHashCache :=
  match GetBlockHash chain cache (winnerIn.nBlockHeight - 100) with
  | (none, cache') => (false, L, cache')
  | (some _, cache') =>
    if L.hasVote (winnerIn.GetHash Hash) then (false, L, cache')
    else
      let votes := (winnerIn.GetHash Hash, winnerIn) :: L.mapMasternodePayeeVotes
      let blockPayees : CMasternodeBlockPayees :=
        match L.mapMasternodeBlocks winnerIn.nBlockHeight with
        | none => ⟨winnerIn.nBlockHeight, []⟩
        | some b => b
      let blocks : Int → Option CMasternodeBlockPayees := fun h =>
        if h = winnerIn.nBlockHeight then some (blockPayees.AddPayee winnerIn.payee 1)
        else L.mapMasternodeBlocks h
      (true, { mapMasternodePayeeVotes := votes, mapMasternodeBlocks := blocks }, cache')

/-- Record `CTxOut`: value and script. -/
structure CTxOut where
  nValue : Int
  scriptPubKey : Nat
deriving DecidableEq, Repr

/-- Record `CTransaction`, restricted to its outputs. -/
structure CTransaction where
  vout : List CTxOut
deriving DecidableEq, Repr

/-- First loop of `CMasternodeBlockPayees::IsTransactionValid`: `nMaxSignatures`. -/
def IsTransactionValid.nMaxSignatures (vecPayments : List CMasternodePayee) : Int :=
  vecPayments.foldl
    (fun nMaxSignatures payee =>
      if payee.nVotes ≥ nMaxSignatures ∧ payee.nVotes ≥ MNPAYMENTS_SIGNATURES_REQUIRED then
        payee.nVotes
      else nMaxSignatures) 0

/-- Inner loop of `CMasternodeBlockPayees::IsTransactionValid`: `found` for one payee. -/
def IsTransactionValid.found (requiredMasternodePayment : Int) (txNew : CTransaction)
    (payee : CMasternodePayee) : Bool :=
  txNew.vout.foldl
    (fun found out =>
      if payee.scriptPubKey = out.scriptPubKey then
        if out.nValue ≥ requiredMasternodePayment then true else found
      else found) false

/-- Second loop of `CMasternodeBlockPayees::IsTransactionValid`. -/
def IsTransactionValid.loop (requiredMasternodePayment : Int) (txNew : CTransaction) :
    List CMasternodePayee → Bool
  | [] => false
  | payee :: rest =>
    if payee.nVotes ≥ MNPAYMENTS_SIGNATURES_REQUIRED ∧
        IsTransactionValid.found requiredMasternodePayment txNew payee = true then true
    else IsTransactionValid.loop requiredMasternodePayment txNew rest

/-- Method `CMasternodeBlockPayees::IsTransactionValid(chainparams, txNew)`;
`requiredMasternodePayment` gives `GetMasternodePayment(nBlockHeight,
GetBlockSubsidy(nBlockHeight, ...))` for each height. -/
def CMasternodeBlockPayees.IsTransactionValid (requiredMasternodePayment : Int → Int)
    (b : CMasternodeBlockPayees) (txNew : CTransaction) : Bool :=
  -- if we don't have at least 6 signatures on a payee, approve whichever is the longest chain
  if IsTransactionValid.nMaxSignatures b.vecPayments < MNPAYMENTS_SIGNATURES_REQUIRED then true
  else IsTransactionValid.loop (requiredMasternodePayment b.nBlockHeight) txNew b.vecPayments

/-- Method `CMasternodePayments::IsTransactionValid(chainparams, txNew, nBlockHeight)`. -/
def CMasternodePayments.IsTransactionValid (requiredMasternodePayment : Int → Int)
    (L : CMasternodePayments) (txNew : CTransaction) (nBlockHeight : Int) : Bool :=
  match L.mapMasternodeBlocks nBlockHeight with
  | some b => b.IsTransactionValid requiredMasternodePayment txNew
  | none => true

/-- Conversion `int(n * 1.25)` of a count: the product is exact in double precision and
the conversion truncates. -/
def timesOneAndQuarter (n : Int) : Int := Int.tdiv (5 * n) 4

/-- Loop of `CMasternodePayments::CleanPaymentList` over the votes: the votes kept and
`mapMasternodeBlocks` after the erasures (`mapSeenSyncMNW` is not kept). The age
`nHeight - winner.nBlockHeight` is an `int` subtraction in the source, whose overflow is
not modelled: the loop is exact for votes whose age fits an `int`. -/
def CleanPaymentList.loop (nHeight nLimit : Int) :
    List (Nat × CMasternodePaymentWinner) → (Int → Option CMasternodeBlockPayees) →
      List (Nat × CMasternodePaymentWinner) × (Int → Option CMasternodeBlockPayees)
  | [], blocks => ([], blocks)
  | (hash, winner) :: rest, blocks =>
    if nHeight - winner.nBlockHeight > nLimit then
      CleanPaymentList.loop nHeight nLimit rest
        (fun h => if h = winner.nBlockHeight then none else blocks h)
    else
      ((hash, winner) :: (CleanPaymentList.loop nHeight nLimit rest blocks).1,
        (CleanPaymentList.loop nHeight nLimit rest blocks).2)

/-- Method `CMasternodePayments::CleanPaymentList`; `lockMain` tells whether
`TRY_LOCK(cs_main, locked)` obtains the lock, `chain` is the chain from the tip and
`mnodemanSize` is `mnodeman.size()`. -/
def CMasternodePayments.CleanPaymentList (lockMain : Bool) (chain : List CBlockIndex)
    (mnodemanSize : Int) (L : CMasternodePayments) : CMasternodePayments :=
  if !lockMain then L
  else
    match chain with
    | [] => L
    | tip :: _ =>
      let nHeight := tip.nHeight
      -- keep up to five cycles for historical sake
      let nLimit := max (timesOneAndQuarter mnodemanSize) 1000
      let res :=
        CleanPaymentList.loop nHeight nLimit L.mapMasternodePayeeVotes L.mapMasternodeBlocks
      { mapMasternodePayeeVotes := res.1, mapMasternodeBlocks := res.2 }

/-- What the handling of a received vote reads from the rest of the node: the sync state,
`fLiteMode`, the version of the sending peer, `ActiveProtocol()`, whether the chain lock is
obtained, the chain from the tip, `mnodeman.CountEnabled()`, the registry, the rank
function `mnodeman.GetMasternodeRank`, the macro `MNPAYMENTS_SIGNATURES_TOTAL`, and the
verdict of the signature check of a vote. -/
structure VoteEnv where
  IsBlockchainSynced : Bool
  fLiteMode : Bool
  pfromVersion : Int
  ActiveProtocol : Int
  lockMain : Bool
  chain : List CBlockIndex
  CountEnabled : Int
  registry : COutPoint → Option CMasternode
  GetMasternodeRank : CTxIn → Int → Int → Int
  MNPAYMENTS_SIGNATURES_TOTAL : Int
  WinnerCheckSignature : CMasternodePaymentWinner → Bool

/-- Method `CMasternodePaymentWinner::IsValid` (its result; the error text and the request
sent to the peer are not kept). -/
def CMasternodePaymentWinner.IsValid (env : VoteEnv) (w : CMasternodePaymentWinner) : Bool :=
  match CMasternodeMan.Find env.registry w.vinMasternode with
  | none => false
  | some pmn =>
    if pmn.protocolVersion < env.ActiveProtocol then false
    else
      let n := env.GetMasternodeRank w.vinMasternode (w.nBlockHeight - 100) env.ActiveProtocol
      if n > env.MNPAYMENTS_SIGNATURES_TOTAL then false
      else true

/-- Modelled from the spec: `CanVote(voter, height)` (masternode-payments.h is not among the
sources): "the voting masternode has not already voted for this height", read on the votes
the ledger records. -/
def CMasternodePayments.CanVote (L : CMasternodePayments) (outMasternode : COutPoint)
    (nBlockHeight : Int) : Bool :=
  !L.mapMasternodePayeeVotes.any
    (fun kv => decide (kv.2.vinMasternode.prevout = outMasternode) &&
      decide (kv.2.nBlockHeight = nBlockHeight))

/-- The branch of `CMasternodePayments::ProcessMessageMasternodePayments` for the command
`mnw`, from the checks at the head of the function on: the ledger and
`mapCacheBlockHashes` after the message is handled (relaying, the sync bookkeeping and the
peer's misbehaviour score are not kept). -/
def CMasternodePayments.ProcessMessage_mnw (Hash : List Nat → Nat) (env : VoteEnv)
    (L : CMasternodePayments) (cache : BlockHashCache) (winner : CMasternodePaymentWinner) :
    CMasternodePayments × BlockHashCache :=
  if !env.IsBlockchainSynced then (L, cache)
  else if env.fLiteMode then (L, cache)
  else if env.pfromVersion < env.ActiveProtocol then (L, cache)
  else if !env.lockMain then (L, cache)
  else
    match env.chain with
    | [] => (L, cache)
    | tip :: _ =>
      let nHeight := tip.nHeight
      if L.hasVote (winner.GetHash Hash) then (L, cache)
      else
        let nCount := timesOneAndQuarter env.CountEnabled
        let nFirstBlock := nHeight - nCount
        if winner.nBlockHeight < nFirstBlock ∨ winner.nBlockHeight > nHeight + 20 then
          (L, cache)
        else if !winner.IsValid env then (L, cache)
        else if !L.CanVote winner.vinMasternode.prevout winner.nBlockHeight then (L, cache)
        else if !env.WinnerCheckSignature winner then (L, cache)
        else
          let res := L.AddWinningMasternode Hash env.chain cache winner
          (res.2.1, res.2.2)

/-! ## Quantities of the ledger used in the statements -/

/-- Sum of the vote counts of all candidates in the tally of height `h` (0 when there is no
tally). -/
def CMasternodePayments.tallySum (L : CMasternodePayments) (h : Int) : Int :=
  match L.mapMasternodeBlocks h with
  | none => 0
  | some b => (b.vecPayments.map (fun p => p.nVotes)).sum

/-- The recorded votes for height `h`. -/
def CMasternodePayments.votesAt (L : CMasternodePayments) (h : Int) :
    List CMasternodePaymentWinner :=
  (L.mapMasternodePayeeVotes.map (fun kv => kv.2)).filter (fun w => decide (w.nBlockHeight = h))

/-- Number of distinct voter CollateralRefs with a recorded vote for height `h`. -/
def CMasternodePayments.distinctVoters (L : CMasternodePayments) (h : Int) : Nat :=
  ((L.votesAt h).map (fun w => w.vinMasternode.prevout)).dedup.length

/-- An operation on the ledger: a call of `AddWinningMasternode` (with the chain at that
moment) or a call of `CleanPaymentList` (with the lock verdict, the chain and the registry
size at that moment). -/
inductive LedgerOp where
  | add (chain : List CBlockIndex) (winner : CMasternodePaymentWinner)
  | clean (lockMain : Bool) (chain : List CBlockIndex) (mnodemanSize : Int)

/-- One operation applied to the ledger and the block-hash cache. -/
def LedgerOp.apply (Hash : List Nat → Nat) (s : CMasternodePayments × BlockHashCache) :
    LedgerOp → CMasternodePayments × BlockHashCache
  | LedgerOp.add chain winner => (s.1.AddWinningMasternode Hash chain s.2 winner).2
  | LedgerOp.clean lockMain chain mnodemanSize =>
    (s.1.CleanPaymentList lockMain chain mnodemanSize, s.2)

/-- A sequence of operations applied to the empty ledger. -/
def runLedgerOps (Hash : List Nat → Nat) (cache : BlockHashCache) (ops : List LedgerOp) :
    CMasternodePayments × BlockHashCache :=
  ops.foldl (LedgerOp.apply Hash) (CMasternodePayments.empty, cache)

/-- The votes of a list added to a ledger one after the other by `AddWinningMasternode`. -/
def addVotes (Hash : List Nat → Nat) (chain : List CBlockIndex)
    (s : CMasternodePayments × BlockHashCache) (votes : List CMasternodePaymentWinner) :
    CMasternodePayments × BlockHashCache :=
  votes.foldl (fun s w => (s.1.AddWinningMasternode Hash chain s.2 w).2) s

/-- The candidates of height `h` that have at least `MNPAYMENTS_SIGNATURES_REQUIRED`
votes. -/
def CMasternodePayments.IsQuorumCandidate (L : CMasternodePayments) (h : Int)
    (p : CMasternodePayee) : Prop :=
  ∃ b, L.mapMasternodeBlocks h = some b ∧ p ∈ b.vecPayments ∧
    p.nVotes ≥ MNPAYMENTS_SIGNATURES_REQUIRED

/-- Example vote of the voter with outpoint `(77, 1)` for a height and a payee. -/
def sampleVote (nBlockHeight : Int) (payee : Nat) : CMasternodePaymentWinner :=
  { vinMasternode := ⟨⟨77, 1⟩⟩, nBlockHeight := nBlockHeight, payee := payee, vchSig := [],
    nMessVersion := 1 }

/-- Example environment of the vote handling: tip of chain A (height 3), eight enabled
masternodes, the example registry, every rank 1 and every signature valid. -/
def sampleVoteEnv : VoteEnv :=
  { IsBlockchainSynced := true, fLiteMode := false, pfromVersion := 170012,
    ActiveProtocol := 170011, lockMain := true, chain := chainA, CountEnabled := 8,
    registry := sampleRegistry MasternodeState.MASTERNODE_ENABLED 0 0,
    GetMasternodeRank := fun _ _ _ => 1, MNPAYMENTS_SIGNATURES_TOTAL := 10,
    WinnerCheckSignature := fun _ => true }

/-- The tally sum equals the number of recorded votes, at every height. -/
def LedgerBalanced (L : CMasternodePayments) : Prop :=
  ∀ h, L.tallySum h = ((L.votesAt h).length : Int)

/-- The tally of height `h` as `AddWinningMasternode` takes it up: the stored one, or a
fresh one for that height. -/
def CMasternodePayments.tallyAt (L : CMasternodePayments) (h : Int) : CMasternodeBlockPayees :=
  match L.mapMasternodeBlocks h with
  | none => ⟨h, []⟩
  | some b => b

/-- Vote count of the first candidate with script `s`, if there is one. -/
def votesFor (vec : List CMasternodePayee) (s : Nat) : Option Int :=
  (vec.find? (fun p => p.scriptPubKey == s)).map (fun p => p.nVotes)

/-- What the ledger shows of one height: which identity hashes are recorded, whether the
height has a tally, the height written in the tally and the vote count of every script. -/
structure LedgerView where
  recorded : Nat → Bool
  present : Bool
  height : Int
  votes : Nat → Option Int

/-- The view of height `h` of a ledger. -/
def CMasternodePayments.view (L : CMasternodePayments) (h : Int) : LedgerView :=
  { recorded := L.hasVote, present := (L.mapMasternodeBlocks h).isSome,
    height := (L.tallyAt h).nBlockHeight, votes := votesFor (L.tallyAt h).vecPayments }

/-- The effect on a view of adding a vote for its height; `ok` tells whether `GetBlockHash`
succeeds. -/
def LedgerView.add (Hash : List Nat → Nat) (ok : Bool) (v : LedgerView)
    (w : CMasternodePaymentWinner) : LedgerView :=
  if ok && !v.recorded (w.GetHash Hash) then
    { recorded := fun k => (w.GetHash Hash == k) || v.recorded k, present := true,
      height := v.height,
      votes := fun s => if s = w.payee then some ((v.votes s).getD 0 + 1) else v.votes s }
  else v

/-- Example vote of the voter with outpoint `(77, n)` for a height and a payee. -/
def sampleVoteOf (n : Nat) (nBlockHeight : Int) (payee : Nat) : CMasternodePaymentWinner :=
  { vinMasternode := ⟨⟨77, n⟩⟩, nBlockHeight := nBlockHeight, payee := payee, vchSig := [],
    nMessVersion := 1 }

/-- Example votes for height 5: one voter names the payee 901 and six name 900. -/
def sampleVotes : List CMasternodePaymentWinner :=
  [sampleVoteOf 6 5 901, sampleVoteOf 0 5 900, sampleVoteOf 1 5 900, sampleVoteOf 2 5 900,
    sampleVoteOf 3 5 900, sampleVoteOf 4 5 900, sampleVoteOf 5 5 900]

/-- Example transaction: one output of value 10 to the script 900. -/
def sampleTx : CTransaction := ⟨[⟨10, 900⟩]⟩

/-- Every recorded vote has a tally for its height. -/
def VotesHaveTallies (L : CMasternodePayments) : Prop :=
  ∀ kv ∈ L.mapMasternodePayeeVotes, (L.mapMasternodeBlocks kv.2.nBlockHeight).isSome = true

/-- Example tally of height 5: the payee 900 has six votes, the payee 901 has one. -/
def sampleTally : CMasternodeBlockPayees := ⟨5, [⟨900, 6⟩, ⟨901, 1⟩]⟩

/-- Example ledger: the example votes for height 5 added to the empty ledger on chain A. -/
def sampleLedger : CMasternodePayments :=
  (addVotes sampleHash chainA (CMasternodePayments.empty, BlockHashCache.empty) sampleVotes).1

/-- The two counts of the registry `mnodeman` that masternode-payments.cpp reads
(masternodeman is not among the sources, both are parameters): `mnodeman.size()`, the
number of entries, which `CleanPaymentList` reads, and `mnodeman.CountEnabled()`, the
number of enabled entries, which the handler of `mnw` reads. -/
structure MnodemanCounts where
  size : Int
  CountEnabled : Int
deriving DecidableEq, Repr

/-- `CMasternodePayments::CleanPaymentList` in a node whose registry has the given counts. -/
def CMasternodePayments.CleanPaymentListWith (lockMain : Bool) (chain : List CBlockIndex)
    (mnodeman : MnodemanCounts) (L : CMasternodePayments) : CMasternodePayments :=
  L.CleanPaymentList lockMain chain mnodeman.size

/-- Example counts of the registry: 2000 entries, 100 of them enabled. -/
def sampleCounts : MnodemanCounts := { size := 2000, CountEnabled := 100 }

/-- Method `CMasternodePaymentWinner::IsValid`, its output `strError`: whether the error
text is set when the method returns (the handler of `mnw` logs a rejection only then). -/
def CMasternodePaymentWinner.IsValid.strErrorSet (env : VoteEnv)
    (w : CMasternodePaymentWinner) : Bool :=
  match CMasternodeMan.Find env.registry w.vinMasternode with
  | none => true
  | some pmn =>
    if pmn.protocolVersion < env.ActiveProtocol then true
    else
      let n := env.GetMasternodeRank w.vinMasternode (w.nBlockHeight - 100) env.ActiveProtocol
      if n > env.MNPAYMENTS_SIGNATURES_TOTAL then
        -- It's common to have masternodes mistakenly think they are in the top 10
        if n > env.MNPAYMENTS_SIGNATURES_TOTAL * 2 then true else false
      else false

/-- The example environment of the vote handling in which every voter has the given
rank. -/
def sampleVoteEnvRank (n : Int) : VoteEnv :=
  { sampleVoteEnv with GetMasternodeRank := fun _ _ _ => n }

/-! ## masternode-payments.cpp: the minimum protocol version -/

/-- The three enforcement versions `MIN_PEER_PROTO_VERSION_ENFORCEMENT`,
`MIN_PEER_PROTO_VERSION_ENFORCEMENT_XANDAR` and `MIN_PEER_PROTO_VERSION_ENFORCEMENT_MORAG`
of version.h, which is not among the sources: parameters. -/
structure PeerProtoVersions where
  MIN_PEER_PROTO_VERSION_ENFORCEMENT : Int
  MIN_PEER_PROTO_VERSION_ENFORCEMENT_XANDAR : Int
  MIN_PEER_PROTO_VERSION_ENFORCEMENT_MORAG : Int
deriving DecidableEq, Repr

/-- Method `CMasternodePayments::GetMinMasternodePaymentsProto`; `locked` tells whether
`TRY_LOCK(cs_main, locked)` obtains the lock and `chain` is the active chain from the tip.
`none` when the upgrade gate aborts. -/
def CMasternodePayments.GetMinMasternodePaymentsProto (v : PeerProtoVersions) (locked : Bool)
    (chain : List CBlockIndex) (params : Consensus.Params) : Option Int :=
  if !locked then some v.MIN_PEER_PROTO_VERSION_ENFORCEMENT
  else
    match chain with
    | [] => some v.MIN_PEER_PROTO_VERSION_ENFORCEMENT
    | tip :: _ =>
      let nHeight := tip.nHeight
      match NetworkUpgradeActive nHeight params Consensus.UPGRADE_MORAG with
      | none => none
      | some true => some v.MIN_PEER_PROTO_VERSION_ENFORCEMENT_MORAG
      | some false =>
        match NetworkUpgradeActive nHeight params Consensus.UPGRADE_XANDAR with
        | none => none
        | some true => some v.MIN_PEER_PROTO_VERSION_ENFORCEMENT_XANDAR
        | some false => some v.MIN_PEER_PROTO_VERSION_ENFORCEMENT

/-- XANDAR activates no earlier than MORAG: when both stages are in the table and XANDAR
has an activation height, MORAG has one too and it is not the greater one. -/
def XandarNotBeforeMorag (params : Consensus.Params) : Prop :=
  match activationHeight params Consensus.UPGRADE_MORAG,
      activationHeight params Consensus.UPGRADE_XANDAR with
  | some aM, some aX =>
    aX ≠ Consensus.NetworkUpgrade.NO_ACTIVATION_HEIGHT →
      aM ≠ Consensus.NetworkUpgrade.NO_ACTIVATION_HEIGHT ∧ aM ≤ aX
  | _, _ => True

instance (params : Consensus.Params) : Decidable (XandarNotBeforeMorag params) := by
  unfold XandarNotBeforeMorag; split <;> infer_instance

/-- Example enforcement versions. -/
def sampleVersions : PeerProtoVersions :=
  { MIN_PEER_PROTO_VERSION_ENFORCEMENT := 170009,
    MIN_PEER_PROTO_VERSION_ENFORCEMENT_XANDAR := 170012,
    MIN_PEER_PROTO_VERSION_ENFORCEMENT_MORAG := 170011 }

/-! ## masternode-payments.cpp: the snapshot file `mnpayments.dat` -/

/-- Enumeration `CMasternodePaymentDB::ReadResult`. -/
inductive CMasternodePaymentDB.ReadResult where
  | Ok
  | FileError
  | HashReadError
  | IncorrectHash
  | IncorrectMagicMessage
  | IncorrectMagicNumber
  | IncorrectFormat
deriving DecidableEq, Repr

/-- Member `strMagicMessage`, as the constructor of `CMasternodePaymentDB` sets it. -/
def CMasternodePaymentDB.strMagicMessage : String := "MasternodePayments"

/-- Value of `Params().MessageStart()` on each network (`pchMessageStart` in
chainparams.cpp): four bytes. -/
def MessageStart : Network → List Nat
  | Network.MAIN => [0x24, 0xc8, 0x27, 0x64]
  | Network.TESTNET => [0xfa, 0x1a, 0xf9, 0xbf]
  | Network.REGTEST => [0xaa, 0xe8, 0x3f, 0x5f]

/-- What the snapshot functions read from the rest of the node. Bytes are numbers, a file
is the list of its bytes. `Hash` is `Hash(begin, end)`, giving the 32 bytes of the
`uint256`. The stream operators of serialize.h, which is not among the sources, are
parameters: a writer gives the bytes it appends, a reader takes the unread bytes and gives
the value read and the bytes left, or `none` when it throws. `fopenWrite` tells whether
`fopen(path, "wb")` succeeds; `lockMain`, `chain` and `mnodemanSize` are what
`CleanPaymentList` reads. -/
structure SnapshotEnv where
  network : Network
  Hash : List Nat → List Nat
  writeString : String → List Nat
  readString : List Nat → Option (String × List Nat)
  writeLedger : CMasternodePayments → List Nat
  readLedger : List Nat → Option (CMasternodePayments × List Nat)
  fopenWrite : Bool
  lockMain : Bool
  chain : List CBlockIndex
  mnodemanSize : Int

/-- Modelled from the spec: method `CMasternodePayments::Clear` (masternode-payments.h is
not among the sources): after a failed load "the ledger is simply treated as empty". -/
def CMasternodePayments.Clear (_ : CMasternodePayments) : CMasternodePayments :=
  CMasternodePayments.empty

/-- The stream `ssObj` that `CMasternodePaymentDB::Write` builds: the magic message, the
network magic, the ledger, and the hash of the bytes up to that point. -/
def CMasternodePaymentDB.Write.ssObj (env : SnapshotEnv) (objToSave : CMasternodePayments) :
    List Nat :=
  -- ssObj << strMagicMessage; ssObj << FLATDATA(Params().MessageStart()); ssObj << objToSave;
  let ssObj := env.writeString CMasternodePaymentDB.strMagicMessage ++
    MessageStart env.network ++ env.writeLedger objToSave
  -- uint256 hash = Hash(ssObj.begin(), ssObj.end()); ssObj << hash;
  ssObj ++ env.Hash ssObj

/-- Method `CMasternodePaymentDB::Write`: the returned flag and the file afterwards (`none`
is a file that cannot be opened for reading). I/O errors after the file is opened are not
modelled. -/
def CMasternodePaymentDB.Write (env : SnapshotEnv) (file : Option (List Nat))
    (objToSave : CMasternodePayments) : Bool × Option (List Nat) :=
  if !env.fopenWrite then (false, file)
  else (true, some (CMasternodePaymentDB.Write.ssObj env objToSave))

/-- Method `CMasternodePaymentDB::Read(objToLoad, fDryRun)`: the result and `objToLoad`
after the call. The file size is held in an `int`. -/
def CMasternodePaymentDB.Read (env : SnapshotEnv) (file : Option (List Nat))
    (objToLoad : CMasternodePayments) (fDryRun : Bool) :
    CMasternodePaymentDB.ReadResult × CMasternodePayments :=
  match file with
  | none => (CMasternodePaymentDB.ReadResult.FileError, objToLoad)
  | some bytes =>
    -- use file size to size memory buffer
    let fileSize : Int := toInt32 bytes.length
    let dataSize : Int := fileSize - 32
    -- Don't try to resize to a negative number if file is small
    let dataSize : Int := if dataSize < 0 then 0 else dataSize
    -- read data and checksum from file
    let vchData := bytes.take dataSize.toNat
    let afterData := bytes.drop dataSize.toNat
    if afterData.length < 32 then (CMasternodePaymentDB.ReadResult.HashReadError, objToLoad)
    else
      let hashIn := afterData.take 32
      -- verify stored checksum matches input data
      let hashTmp := env.Hash vchData
      if hashIn ≠ hashTmp then (CMasternodePaymentDB.ReadResult.IncorrectHash, objToLoad)
      else
        match env.readString vchData with
        | none => (CMasternodePaymentDB.ReadResult.IncorrectFormat, objToLoad.Clear)
        | some (strMagicMessageTmp, ssObj1) =>
          -- ... verify the message matches predefined one
          if CMasternodePaymentDB.strMagicMessage ≠ strMagicMessageTmp then
            (CMasternodePaymentDB.ReadResult.IncorrectMagicMessage, objToLoad)
          else if ssObj1.length < 4 then
            (CMasternodePaymentDB.ReadResult.IncorrectFormat, objToLoad.Clear)
          else
            let pchMsgTmp := ssObj1.take 4
            -- ... verify the network matches ours
            if pchMsgTmp ≠ MessageStart env.network then
              (CMasternodePaymentDB.ReadResult.IncorrectMagicNumber, objToLoad)
            else
              -- de-serialize data into CMasternodePayments object
              match env.readLedger (ssObj1.drop 4) with
              | none => (CMasternodePaymentDB.ReadResult.IncorrectFormat, objToLoad.Clear)
              | some (loaded, _) =>
                if !fDryRun then
                  (CMasternodePaymentDB.ReadResult.Ok,
                    loaded.CleanPaymentList env.lockMain env.chain env.mnodemanSize)
                else (CMasternodePaymentDB.ReadResult.Ok, loaded)

/-- Example digest of bytes: the 32 little-endian bytes of the toy digest. -/
def sampleDigest (d : List Nat) : List Nat :=
  (List.range 32).map (fun i => sampleHash d / 256 ^ i % 256)

/-- Example writer of strings: the length, then the code of each character. -/
def sampleWriteString (s : String) : List Nat := s.length :: s.toList.map Char.toNat

/-- Example reader of strings, for `sampleWriteString`. -/
def sampleReadString : List Nat → Option (String × List Nat)
  | [] => none
  | n :: rest =>
    if rest.length < n then none
    else some (String.mk ((rest.take n).map Char.ofNat), rest.drop n)

/-- Example writer of ledgers, a stand-in that tells two ledgers apart: one byte holding
the number of recorded votes. -/
def sampleWriteLedger (L : CMasternodePayments) : List Nat :=
  [L.mapMasternodePayeeVotes.length]

/-- Example reader of ledgers, for `sampleWriteLedger` on the empty ledger and the example
ledger. -/
def sampleReadLedger : List Nat → Option (CMasternodePayments × List Nat)
  | 0 :: rest => some (CMasternodePayments.empty, rest)
  | 7 :: rest => some (sampleLedger, rest)
  | _ => none

/-- Example environment of the snapshot functions: main network, the file can be opened,
the chain lock is obtained, eight masternodes and a tip at the given height. -/
def sampleSnapshotEnv (tipHeight : Int) : SnapshotEnv :=
  { network := Network.MAIN, Hash := sampleDigest, writeString := sampleWriteString,
    readString := sampleReadString, writeLedger := sampleWriteLedger,
    readLedger := sampleReadLedger, fopenWrite := true, lockMain := true,
    chain := [⟨tipHeight, 7⟩], mnodemanSize := 8 }

/-- The bytes of the example snapshot before the checksum: the magic message, the network
magic of the main network and the example ledger, written by the example writers. -/
def sampleSnapshotData : List Nat :=
  sampleWriteString CMasternodePaymentDB.strMagicMessage ++ MessageStart Network.MAIN ++
    sampleWriteLedger sampleLedger

/-- The checksum of the example snapshot with its first byte altered. -/
def sampleBadChecksum : List Nat :=
  (sampleDigest sampleSnapshotData).set 0 ((sampleDigest sampleSnapshotData).headD 0 + 1)

/-! ## masternode-payments.cpp: the outputs of the coinbase transaction -/

/-- What `CMasternodePayments::FillBlockPayee` reads from the rest of the node: the
consensus parameters with the two subsidy intervals, the amounts `GetBlockSubsidy(nHeight)`,
`GetMasternodePayment(nHeight, blockValue)`, `GetDevelopersPayment(nHeight, blockValue)`
and `GetPremineAmountAtHeight(nHeight)` (main.cpp is not among the sources), the reward
scripts of the chain parameters by height (their address tables and the decoding of
addresses are not kept), the entry returned by `mnodeman.GetCurrentMasterNode(1)`, and the
script for a collateral key. Two more parameters: `GetPayee` is
`CMasternodeBlockPayees::GetPayee(payee)` of masternode-payments.h, which is not among the
sources: for a tally and the value of `payee` before the call, the returned flag and
`payee` after the call; `foundersRewardDouble` is the amount `blockValue * 7.5 / 100`,
which the source computes in double precision and converts to `CAmount`, as a function of
`blockValue` (floating-point arithmetic is not modelled). -/
structure RewardEnv where
  consensus : Consensus.Params
  nSubsidySlowStartInterval : Int
  nSubsidyHalvingInterval : Int
  GetBlockSubsidy : Int → Int
  GetMasternodePayment : Int → Int → Int
  GetDevelopersPayment : Int → Int → Int
  GetPremineAmountAtHeight : Int → Int
  GetFoundersRewardScriptAtHeight : Int → Nat
  GetTreasuryRewardScriptAtHeight : Int → Nat
  GetDevelopersRewardScriptAtHeight : Int → Nat
  GetCurrentMasterNode : Option CMasternode
  GetScriptForDestination : Nat → Nat
  GetPayee : CMasternodeBlockPayees → Nat → Bool × Nat
  foundersRewardDouble : Int → Int

/-- Method `Consensus::Params::SubsidySlowStartShift`. -/
def RewardEnv.SubsidySlowStartShift (env : RewardEnv) : Int :=
  Int.tdiv env.nSubsidySlowStartInterval 2

/-- Method `Consensus::Params::GetLastFoundersRewardBlockHeight`. -/
def RewardEnv.GetLastFoundersRewardBlockHeight (env : RewardEnv) : Int :=
  env.nSubsidyHalvingInterval + env.SubsidySlowStartShift - 1

/-- Method `Consensus::Params::GetLastDevelopersRewardBlockHeight`. -/
def RewardEnv.GetLastDevelopersRewardBlockHeight (_ : RewardEnv) : Int := 99999999

/-- Method `Consensus::Params::GetLastTreasuryRewardBlockHeight`; `none` when the table has
no stage `UPGRADE_MORAG`. -/
def RewardEnv.GetLastTreasuryRewardBlockHeight (env : RewardEnv) : Option Int :=
  (activationHeight env.consensus Consensus.UPGRADE_MORAG).map (fun a => a - 1)

/-- The empty script `CScript()`. -/
def CScript.empty : Nat := 0

/-- Method `CMasternodePayments::GetBlockPayee(nBlockHeight, payee)`: the returned flag and
`payee` after the call. When the height has a tally the result is that of `GetPayee` on
it, otherwise false with `payee` as it was. -/
def CMasternodePayments.GetBlockPayee
    (GetPayee : CMasternodeBlockPayees → Nat → Bool × Nat) (L : CMasternodePayments)
    (nBlockHeight : Int) (payee : Nat) : Bool × Nat :=
  match L.mapMasternodeBlocks nBlockHeight with
  | some blockPayees => GetPayee blockPayees payee
  | none => (false, payee)

/-- The statements `txNew.vout[0].nValue -= amount` and
`txNew.vout.push_back(CTxOut(amount, script))`, in either order, on the outputs of a
transaction given as output 0 and the outputs after it. -/
def FillBlockPayee.pay (s : CTxOut × List CTxOut) (amount : Int) (script : Nat) :
    CTxOut × List CTxOut :=
  ({ s.1 with nValue := s.1.nValue - amount }, s.2 ++ [⟨amount, script⟩])

/-- The amount `vFoundersReward` of `FillBlockPayee`. Between the activation of OVERWINTER
and that of KNOWHERE it is `blockValue * 7.5 / 100`, a double-precision computation, taken
from the environment. -/
def FillBlockPayee.vFoundersReward (env : RewardEnv) (nHeight blockValue : Int) : Option Int :=
  match activationHeight env.consensus Consensus.UPGRADE_OVERWINTER with
  | none => none
  | some aOverwinter =>
    if nHeight < aOverwinter then some (Int.tdiv blockValue 20)
    else
      match activationHeight env.consensus Consensus.UPGRADE_KNOWHERE with
      | none => none
      | some aKnowhere =>
        if nHeight < aKnowhere then some (env.foundersRewardDouble blockValue)
        else
          match activationHeight env.consensus Consensus.UPGRADE_MORAG with
          | none => none
          | some aMorag =>
            if nHeight < aMorag then some (Int.tdiv (blockValue * 15) 100) else some 0

/-- The founders block of `FillBlockPayee`. -/
def FillBlockPayee.founders (env : RewardEnv) (nHeight blockValue : Int)
    (s : CTxOut × List CTxOut) : Option (CTxOut × List CTxOut) :=
  if nHeight > 0 ∧ nHeight ≤ env.GetLastFoundersRewardBlockHeight then
    match NetworkUpgradeActive nHeight env.consensus Consensus.UPGRADE_MORAG with
    | none => none
    | some true => some s
    | some false =>
      match FillBlockPayee.vFoundersReward env nHeight blockValue with
      | none => none
      | some vFoundersReward =>
        -- Take some reward away from us, and give it to the founders
        some (FillBlockPayee.pay s vFoundersReward
          (env.GetFoundersRewardScriptAtHeight nHeight))
  else some s

/-- The amount `vTreasuryReward` of `FillBlockPayee`; `aKnowhere` is the activation height
of `UPGRADE_KNOWHERE`. -/
def FillBlockPayee.vTreasuryReward (env : RewardEnv) (nHeight blockValue aKnowhere : Int) :
    Option Int :=
  let elseBranch : Option Int :=
    match NetworkUpgradeActive nHeight env.consensus Consensus.UPGRADE_MORAG with
    | none => none
    | some false => some (Int.tdiv (blockValue * 10) 100)
    | some true => some 0
  if nHeight ≥ aKnowhere then
    match NetworkUpgradeActive nHeight env.consensus Consensus.UPGRADE_ATLANTIS with
    | none => none
    | some false => some (Int.tdiv (blockValue * 5) 100)
    | some true => elseBranch
  else elseBranch

/-- The treasury block of `FillBlockPayee`. -/
def FillBlockPayee.treasury (env : RewardEnv) (nHeight blockValue : Int)
    (s : CTxOut × List CTxOut) : Option (CTxOut × List CTxOut) :=
  if nHeight > 0 then
    match env.GetLastTreasuryRewardBlockHeight with
    | none => none
    | some last =>
      if nHeight ≤ last then
        match activationHeight env.consensus Consensus.UPGRADE_KNOWHERE with
        | none => none
        | some aKnowhere =>
          match FillBlockPayee.vTreasuryReward env nHeight blockValue aKnowhere with
          | none => none
          | some vTreasuryReward =>
            if nHeight ≥ aKnowhere then
              some (FillBlockPayee.pay s vTreasuryReward
                (env.GetTreasuryRewardScriptAtHeight nHeight))
            else some s
      else some s
  else some s

/-- The developers block of `FillBlockPayee`. -/
def FillBlockPayee.developers (env : RewardEnv) (nHeight blockValue : Int)
    (s : CTxOut × List CTxOut) : Option (CTxOut × List CTxOut) :=
  match NetworkUpgradeActive nHeight env.consensus Consensus.UPGRADE_MORAG with
  | none => none
  | some false => some s
  | some true =>
    if nHeight ≤ env.GetLastDevelopersRewardBlockHeight then
      some (FillBlockPayee.pay s (env.GetDevelopersPayment nHeight blockValue)
        (env.GetDevelopersRewardScriptAtHeight nHeight))
    else some s

/-- The premine block of `FillBlockPayee`. -/
def FillBlockPayee.premine (env : RewardEnv) (nHeight : Int) (s : CTxOut × List CTxOut) :
    Option (CTxOut × List CTxOut) :=
  match activationHeight env.consensus Consensus.UPGRADE_MORAG with
  | none => none
  | some aMorag =>
    if nHeight = aMorag then
      some (FillBlockPayee.pay s (env.GetPremineAmountAtHeight nHeight)
        (env.GetDevelopersRewardScriptAtHeight nHeight))
    else some s

/-- Method `CMasternodePayments::FillBlockPayee(txNew, nFees, payee)`: the transaction and
`payee` after the call; `chain` is the active chain from the tip and `L` is the ledger
`masternodePayments`. `none` when the
transaction has no output 0, the upgrade gate aborts or the table lacks a stage that is
read. -/
def CMasternodePayments.FillBlockPayee (env : RewardEnv) (L : CMasternodePayments)
    (chain : List CBlockIndex) (txNew : CTransaction) (nFees : Int) (payee : Nat) :
    Option (CTransaction × Nat) :=
  match chain with
  | [] => some (txNew, payee)
  | pindexPrev :: _ =>
    let nHeight := pindexPrev.nHeight + 1
    let res := CMasternodePayments.GetBlockPayee env.GetPayee L nHeight payee
    let found : Nat × Bool :=
      if !res.1 then
        -- no masternode detected
        match env.GetCurrentMasterNode with
        | some winningNode =>
          (env.GetScriptForDestination winningNode.pubKeyCollateralAddress, true)
        | none => (CScript.empty, false)
      else (res.2, true)
    let payee := found.1
    let hasPayment := found.2
    let blockValue := env.GetBlockSubsidy nHeight
    let masternodePayment := env.GetMasternodePayment nHeight blockValue
    match txNew.vout with
    | [] => none
    | out0 :: rest =>
      -- txNew.vout[0].nValue = blockValue + nFees;
      let s0 : CTxOut × List CTxOut := ({ out0 with nValue := blockValue + nFees }, rest)
      match FillBlockPayee.founders env nHeight blockValue s0 with
      | none => none
      | some s1 =>
        match FillBlockPayee.treasury env nHeight blockValue s1 with
        | none => none
        | some s2 =>
          match FillBlockPayee.developers env nHeight blockValue s2 with
          | none => none
          | some s3 =>
            match FillBlockPayee.premine env nHeight s3 with
            | none => none
            | some s4 =>
              let s5 := if hasPayment then FillBlockPayee.pay s4 masternodePayment payee else s4
              some ({ vout := s5.1 :: s5.2 }, payee)

/-- Sum of the values of the outputs of a transaction. -/
def CTransaction.valueSum (tx : CTransaction) : Int := (tx.vout.map (fun o => o.nValue)).sum

/-- Example of `GetPayee`: the script of the first candidate with the most votes, and
true when the tally has a candidate. -/
def sampleGetPayee (blockPayees : CMasternodeBlockPayees) (payee : Nat) : Bool × Nat :=
  let best : Int × Nat :=
    blockPayees.vecPayments.foldl
      (fun acc p => if p.nVotes > acc.1 then (p.nVotes, p.scriptPubKey) else acc) (-1, payee)
  (decide (best.1 > -1), best.2)

/-- Example environment of `FillBlockPayee`: the main-network table, a subsidy of 2000, a
masternode share of a quarter, a developers share of a tenth, a premine of 500, the
example entry as the current masternode, the example of `GetPayee`, and 7.5 percent as the
truncated quotient of `15 * blockValue` by 200. -/
def sampleRewardEnv : RewardEnv :=
  { consensus := mainParams, nSubsidySlowStartInterval := 8000,
    nSubsidyHalvingInterval := 2102400,
    GetBlockSubsidy := fun _ => 2000, GetMasternodePayment := fun _ v => v / 4,
    GetDevelopersPayment := fun _ v => v / 10, GetPremineAmountAtHeight := fun _ => 500,
    GetFoundersRewardScriptAtHeight := fun _ => 11,
    GetTreasuryRewardScriptAtHeight := fun _ => 12,
    GetDevelopersRewardScriptAtHeight := fun _ => 13,
    GetCurrentMasterNode := some (sampleEntry MasternodeState.MASTERNODE_ENABLED 0 0),
    GetScriptForDestination := fun k => 900 + k,
    GetPayee := sampleGetPayee,
    foundersRewardDouble := fun v => Int.tdiv (v * 15) 200 }

/-- Example ledger with a tally for height 2167200 in which the payee 555 has seven votes
and the payee 556 has two. -/
def sampleScheduleLedger : CMasternodePayments :=
  { mapMasternodePayeeVotes := [],
    mapMasternodeBlocks := fun h =>
      if h = 2167200 then some ⟨2167200, [⟨556, 2⟩, ⟨555, 7⟩]⟩ else none }

/-- Sum of the values of output 0 and the outputs after it. -/
def FillBlockPayee.total (s : CTxOut × List CTxOut) : Int :=
  s.1.nValue + (s.2.map (fun o => o.nValue)).sum

/-! ## Upgrade gate: lemmas -/

theorem NetworkUpgradeState_some_iff (nHeight : Int) (params : Consensus.Params) (idx : Nat) :
    (NetworkUpgradeState nHeight params idx).isSome = true ↔
      0 ≤ nHeight ∧ idx < Consensus.MAX_NETWORK_UPGRADES params := by
  unfold NetworkUpgradeState Consensus.MAX_NETWORK_UPGRADES
  by_cases hn : nHeight < 0
  · simp [hn]
  · have hn' : 0 ≤ nHeight := by omega
    by_cases hi : idx < params.vUpgrades.length
    · simp only [hn, if_false, List.getElem?_eq_getElem hi]
      simp only [hn', hi, and_self, iff_true]
      split_ifs <;> rfl
    · have : params.vUpgrades[idx]? = none := List.getElem?_eq_none (by omega)
      simp [hn, this, hi]

theorem NetworkUpgradeActive_eq (nHeight : Int) (params : Consensus.Params) (idx : Nat)
    (u : Consensus.NetworkUpgrade) (hn : 0 ≤ nHeight) (hu : params.vUpgrades[idx]? = some u) :
    NetworkUpgradeActive nHeight params idx =
      some (decide (u.nActivationHeight ≠ Consensus.NetworkUpgrade.NO_ACTIVATION_HEIGHT ∧
        u.nActivationHeight ≤ nHeight)) := by
  have hn' : ¬ nHeight < 0 := by omega
  unfold NetworkUpgradeActive NetworkUpgradeState
  simp only [hn', if_false, hu]
  by_cases h1 : u.nActivationHeight = Consensus.NetworkUpgrade.NO_ACTIVATION_HEIGHT
  · simp [h1]
  · by_cases h2 : u.nActivationHeight ≤ nHeight
    · simp [h1, h2]
    · simp [h1, h2]

theorem NetworkUpgradeActive_true_iff (nHeight : Int) (params : Consensus.Params) (idx : Nat)
    (hn : 0 ≤ nHeight) :
    NetworkUpgradeActive nHeight params idx = some true ↔ ReachedAt nHeight params idx := by
  unfold ReachedAt activationHeight
  cases hu : params.vUpgrades[idx]? with
  | none =>
    have : NetworkUpgradeActive nHeight params idx = none := by
      unfold NetworkUpgradeActive NetworkUpgradeState
      simp [hu]
    simp [this]
  | some u =>
    rw [NetworkUpgradeActive_eq nHeight params idx u hn hu]
    simp

theorem NetworkUpgradeActive_false_iff (nHeight : Int) (params : Consensus.Params) (idx : Nat)
    (hn : 0 ≤ nHeight) (hi : idx < Consensus.MAX_NETWORK_UPGRADES params) :
    NetworkUpgradeActive nHeight params idx = some false ↔ ¬ ReachedAt nHeight params idx := by
  unfold Consensus.MAX_NETWORK_UPGRADES at hi
  have hu : params.vUpgrades[idx]? = some (params.vUpgrades[idx]) := List.getElem?_eq_getElem hi
  unfold ReachedAt activationHeight
  rw [NetworkUpgradeActive_eq nHeight params idx _ hn hu, hu]
  simp

theorem ReachedAt_lt_length (nHeight : Int) (params : Consensus.Params) (idx : Nat)
    (h : ReachedAt nHeight params idx) : idx < Consensus.MAX_NETWORK_UPGRADES params := by
  obtain ⟨a, ha, _⟩ := h
  unfold activationHeight at ha
  unfold Consensus.MAX_NETWORK_UPGRADES
  by_contra hlt
  have : params.vUpgrades[idx]? = none := List.getElem?_eq_none (by omega)
  simp [this] at ha

/-- The loop of `CurrentEpoch` started below the array bound returns the highest reached
stage below its start, or `BASE_SPROUT` when there is none. -/
theorem CurrentEpoch_loop_spec (nHeight : Int) (params : Consensus.Params) (hn : 0 ≤ nHeight) :
    ∀ k, k ≤ Consensus.MAX_NETWORK_UPGRADES params →
      ∃ e, CurrentEpoch.loop nHeight params k = some e ∧
        ((e < k ∧ ReachedAt nHeight params e ∧
            ∀ j, e < j → j < k → ¬ ReachedAt nHeight params j) ∨
          (e = Consensus.BASE_SPROUT ∧ ∀ j, j < k → ¬ ReachedAt nHeight params j)) := by
  intro k
  induction k with
  | zero =>
    intro _
    exact ⟨Consensus.BASE_SPROUT, rfl, Or.inr ⟨rfl, fun j hj => absurd hj (Nat.not_lt_zero j)⟩⟩
  | succ k ih =>
    intro hk
    have hk' : k < Consensus.MAX_NETWORK_UPGRADES params := hk
    by_cases hr : ReachedAt nHeight params k
    · have ht := (NetworkUpgradeActive_true_iff nHeight params k hn).mpr hr
      refine ⟨k, ?_, Or.inl ⟨Nat.lt_succ_self k, hr, ?_⟩⟩
      · simp [CurrentEpoch.loop, ht]
      · intro j h1 h2; omega
    · have hf := (NetworkUpgradeActive_false_iff nHeight params k hn hk').mpr hr
      obtain ⟨e, he, hcase⟩ := ih (Nat.le_of_lt hk')
      refine ⟨e, ?_, ?_⟩
      · simp [CurrentEpoch.loop, hf, he]
      · rcases hcase with ⟨h1, h2, h3⟩ | ⟨h1, h2⟩
        · refine Or.inl ⟨Nat.lt_succ_of_lt h1, h2, ?_⟩
          intro j hj1 hj2
          by_cases hjk : j = k
          · subst hjk; exact hr
          · exact h3 j hj1 (by omega)
        · refine Or.inr ⟨h1, ?_⟩
          intro j hj
          by_cases hjk : j = k
          · subst hjk; exact hr
          · exact h2 j (by omega)

/-! ## Upgrade gate: claims -/

/-- C2: for every height `h ≥ 0` and every upgrade table, `CurrentEpoch` returns a
stage `e`; when some stage has an activation height that is not the sentinel and is at most
`h`, `e` is the highest such stage; when there is none, `e` is `BASE_SPROUT`; and `e` is a
valid index of the (non-empty) table. -/
theorem CurrentEpoch_highest_reached (nHeight : Int) (params : Consensus.Params)
    (hn : 0 ≤ nHeight) (hN : 0 < Consensus.MAX_NETWORK_UPGRADES params) :
    ∃ e, CurrentEpoch nHeight params = some e ∧
      ((∃ i, ReachedAt nHeight params i) →
        ReachedAt nHeight params e ∧ ∀ j, ReachedAt nHeight params j → j ≤ e) ∧
      ((¬ ∃ i, ReachedAt nHeight params i) → e = Consensus.BASE_SPROUT) ∧
      e < Consensus.MAX_NETWORK_UPGRADES params := by
  obtain ⟨e, he, hcase⟩ :=
    CurrentEpoch_loop_spec nHeight params hn (Consensus.MAX_NETWORK_UPGRADES params) (le_refl _)
  refine ⟨e, he, ?_, ?_, ?_⟩
  · rintro ⟨i, hi⟩
    rcases hcase with ⟨_, h2, h3⟩ | ⟨_, h2⟩
    · refine ⟨h2, ?_⟩
      intro j hj
      by_contra hlt
      exact h3 j (by omega) (ReachedAt_lt_length nHeight params j hj) hj
    · exact absurd hi (h2 i (ReachedAt_lt_length nHeight params i hi))
  · intro hnone
    rcases hcase with ⟨_, h2, _⟩ | ⟨h1, _⟩
    · exact absurd ⟨e, h2⟩ hnone
    · exact h1
  · rcases hcase with ⟨h1, _, _⟩ | ⟨h1, _⟩
    · exact h1
    · rw [h1]; exact hN

/-- Witness of C2 on the small table at height 7: the epoch is stage 2. -/
theorem CurrentEpoch_highest_reached_witness :
    ∃ e, CurrentEpoch 7 sampleParams = some e ∧
      ((∃ i, ReachedAt 7 sampleParams i) →
        ReachedAt 7 sampleParams e ∧ ∀ j, ReachedAt 7 sampleParams j → j ≤ e) ∧
      ((¬ ∃ i, ReachedAt 7 sampleParams i) → e = Consensus.BASE_SPROUT) ∧
      e < Consensus.MAX_NETWORK_UPGRADES sampleParams :=
  CurrentEpoch_highest_reached 7 sampleParams (by decide) (by decide)

/-- C1: for every height `h ≥ 0`, every table in which Sprout is always active and the
heights that are not the sentinel are non-decreasing in the stage index, and every stage
`idx` of the table: when the height of `idx` is not the sentinel, `NetworkUpgradeActive`
is true iff `CurrentEpoch` is at least `idx`; when it is the sentinel,
`NetworkUpgradeActive` is false. -/
theorem NetworkUpgradeActive_iff_CurrentEpoch_ge (nHeight : Int) (params : Consensus.Params)
    (idx : Nat) (hn : 0 ≤ nHeight) (hS : SproutAlwaysActive params)
    (hM : MonotoneActivation params) (hi : idx < Consensus.MAX_NETWORK_UPGRADES params) :
    (activationHeight params idx ≠ some Consensus.NetworkUpgrade.NO_ACTIVATION_HEIGHT →
      ∃ e b, CurrentEpoch nHeight params = some e ∧
        NetworkUpgradeActive nHeight params idx = some b ∧ (b = true ↔ idx ≤ e)) ∧
    (activationHeight params idx = some Consensus.NetworkUpgrade.NO_ACTIVATION_HEIGHT →
      NetworkUpgradeActive nHeight params idx = some false) := by
  have hlen : idx < params.vUpgrades.length := hi
  have hu : params.vUpgrades[idx]? = some (params.vUpgrades[idx]) := List.getElem?_eq_getElem hlen
  have hN : 0 < Consensus.MAX_NETWORK_UPGRADES params := by omega
  have hact := NetworkUpgradeActive_eq nHeight params idx _ hn hu
  constructor
  · intro hns
    have hns' : (params.vUpgrades[idx]).nActivationHeight ≠
        Consensus.NetworkUpgrade.NO_ACTIVATION_HEIGHT := by
      intro hc
      apply hns
      simp [activationHeight, hu, hc]
    -- Sprout is reached at every height
    have h0 : ReachedAt nHeight params 0 := by
      refine ⟨Consensus.NetworkUpgrade.ALWAYS_ACTIVE, hS, by decide, ?_⟩
      simpa [Consensus.NetworkUpgrade.ALWAYS_ACTIVE] using hn
    -- so the loop stops at a reached stage, the highest one
    obtain ⟨e, he, hcase⟩ := CurrentEpoch_loop_spec nHeight params hn
      (Consensus.MAX_NETWORK_UPGRADES params) (le_refl _)
    have he' : CurrentEpoch nHeight params = some e := he
    obtain ⟨helt, hre, hmax'⟩ : e < Consensus.MAX_NETWORK_UPGRADES params ∧
        ReachedAt nHeight params e ∧
        ∀ j, e < j → j < Consensus.MAX_NETWORK_UPGRADES params → ¬ ReachedAt nHeight params j := by
      rcases hcase with h | ⟨_, h2⟩
      · exact h
      · exact absurd h0 (h2 0 hN)
    have hmax : ∀ j, ReachedAt nHeight params j → j ≤ e := by
      intro j hj
      by_contra hlt
      exact hmax' j (by omega) (ReachedAt_lt_length nHeight params j hj) hj
    refine ⟨e, _, he', hact, ?_⟩
    rw [decide_eq_true_iff]
    constructor
    · rintro ⟨h1, h2⟩
      apply hmax
      exact ⟨_, by simp [activationHeight, hu], h1, h2⟩
    · intro hle
      refine ⟨hns', ?_⟩
      obtain ⟨a, ha, ha1, ha2⟩ := hre
      have helen : e < params.vUpgrades.length := helt
      have hue : params.vUpgrades[e]? = some (params.vUpgrades[e]) :=
        List.getElem?_eq_getElem helen
      simp only [activationHeight, hue, Option.map_some', Option.some.injEq] at ha
      have hmono := hM ⟨idx, hlen⟩ ⟨e, helen⟩ hle hns' (by simpa [ha] using ha1)
      simp only [List.get_eq_getElem] at hmono
      omega
  · intro hs
    rw [hact]
    simp only [activationHeight, hu, Option.map_some', Option.some.injEq] at hs
    simp [hs]

/-- Witness of C1 on the small table at height 7, for stage 2 (activation height 5). -/
theorem NetworkUpgradeActive_iff_CurrentEpoch_ge_witness :
    (activationHeight sampleParams 2 ≠ some Consensus.NetworkUpgrade.NO_ACTIVATION_HEIGHT →
      ∃ e b, CurrentEpoch 7 sampleParams = some e ∧
        NetworkUpgradeActive 7 sampleParams 2 = some b ∧ (b = true ↔ 2 ≤ e)) ∧
    (activationHeight sampleParams 2 = some Consensus.NetworkUpgrade.NO_ACTIVATION_HEIGHT →
      NetworkUpgradeActive 7 sampleParams 2 = some false) :=
  NetworkUpgradeActive_iff_CurrentEpoch_ge 7 sampleParams 2 (by decide) (by decide)
    (by decide) (by decide)

/-- At every height `h ≥ 0` and for every valid stage index the two functions return a
result. -/
theorem NetworkUpgradeState_total_nonneg (nHeight : Int) (params : Consensus.Params)
    (idx : Nat) (hn : 0 ≤ nHeight) (hi : idx < Consensus.MAX_NETWORK_UPGRADES params) :
    (NetworkUpgradeState nHeight params idx).isSome = true ∧
      (NetworkUpgradeActive nHeight params idx).isSome = true := by
  have h := (NetworkUpgradeState_some_iff nHeight params idx).mpr ⟨hn, hi⟩
  refine ⟨h, ?_⟩
  unfold NetworkUpgradeActive
  simpa using h

/-- C3, the failing input: on a chain of height 5, `CMasternodeBroadcast::Create` (and
`CMasternodePayments::ProcessBlock`) hands the height `5 - 20 = -15` to
`NetworkUpgradeActive` with the valid index `UPGRADE_MORAG`; the assertion
`nHeight >= 0` of `NetworkUpgradeState` fails, so neither function returns a result. -/
theorem NetworkUpgradeState_negative_height_aborts :
    Consensus.UPGRADE_MORAG < Consensus.MAX_NETWORK_UPGRADES mainParams ∧
      Create_fNewSigs 5 mainParams = none ∧
      NetworkUpgradeActive (-15) mainParams Consensus.UPGRADE_MORAG = none ∧
      NetworkUpgradeState (-15) mainParams Consensus.UPGRADE_MORAG = none := by
  decide

/-! ## Block hashes and score: lemmas -/

theorem hashWords_lt (Hash : List Nat → Nat) (ws : List Nat) : hashWords Hash ws < 2 ^ 256 :=
  Nat.mod_lt _ (by norm_num)

/-- The score is the distance of the two digests. -/
theorem scoreOfHash_eq (Hash : List Nat → Nat) (vin : CTxIn) (hash : Nat) :
    scoreOfHash Hash vin hash =
      max (hashWords Hash [hash])
          (hashWords Hash [hash, (vin.prevout.hash + vin.prevout.n) % 2 ^ 256]) -
        min (hashWords Hash [hash])
          (hashWords Hash [hash, (vin.prevout.hash + vin.prevout.n) % 2 ^ 256]) := by
  have ha := hashWords_lt Hash [hash]
  have hb := hashWords_lt Hash [hash, (vin.prevout.hash + vin.prevout.n) % 2 ^ 256]
  simp only [scoreOfHash]
  generalize hashWords Hash [hash] = a at *
  generalize hashWords Hash [hash, (vin.prevout.hash + vin.prevout.n) % 2 ^ 256] = b at *
  norm_num at ha hb ⊢
  split_ifs with h
  · rw [max_eq_right (le_of_lt h), min_eq_left (le_of_lt h)]
    omega
  · have h' : b ≤ a := by omega
    rw [max_eq_left h', min_eq_right h']
    omega

/-- On a main chain with tip height `t`, the loop of `GetBlockHash` entered with counter
`n` returns the hash of the block `nBlocksAgo - n` steps further down, when that block is
above the genesis block. -/
theorem GetBlockHash_loop_main (nBlocksAgo : Int) :
    ∀ (chain : List CBlockIndex) (t n : Int), IsMainChain chain t → n ≤ nBlocksAgo →
      nBlocksAgo - n < t →
      ∃ H, GetBlockHash.loop nBlocksAgo chain n = some H ∧
        hashAtHeight chain (t - (nBlocksAgo - n)) = some H := by
  intro chain
  induction chain with
  | nil =>
    intro t n hc h1 h2
    simp only [IsMainChain] at hc
    omega
  | cons b rest ih =>
    intro t n hc h1 h2
    obtain ⟨hb, hrest⟩ := hc
    have hpos : b.nHeight > 0 := by omega
    by_cases hn : n ≥ nBlocksAgo
    · have hEq : n = nBlocksAgo := by omega
      refine ⟨b.hashBlock, ?_, ?_⟩
      · simp [GetBlockHash.loop, hpos, hn]
      · have : t - (nBlocksAgo - n) = b.nHeight := by omega
        simp [hashAtHeight, this]
    · obtain ⟨H, hH1, hH2⟩ := ih (t - 1) (n + 1) hrest (by omega) (by omega)
      refine ⟨H, ?_, ?_⟩
      · simp [GetBlockHash.loop, hpos, hn, hH1]
      · have hne : ¬ b.nHeight = t - (nBlocksAgo - n) := by omega
        have htgt : t - 1 - (nBlocksAgo - (n + 1)) = t - (nBlocksAgo - n) := by omega
        rw [htgt] at hH2
        simpa [hashAtHeight, hne] using hH2

/-! ## Block hashes and score: claims -/

/-- C4: when a chain tip exists and `GetBlockHash` succeeds with block hash `H`,
`CalculateScore` returns `|a - b|` for `a = Hash(H)` and `b = Hash(H ‖ aux)` with
`aux = (txid + n) mod 2^256`: the result is `max a b - min a b` (no wrap-around), it is a
256-bit number, and it is `0` exactly when `a = b`. -/
theorem CalculateScore_abs_diff (Hash : List Nat → Nat) (chain : List CBlockIndex)
    (cache : BlockHashCache) (vin : CTxIn) (nBlockHeight : Int) (H : Nat)
    (htip : chain ≠ [])
    (hget : (GetBlockHash chain cache (toInt32 nBlockHeight)).1 = some H) :
    (CalculateScore Hash chain cache vin nBlockHeight).1 =
        max (hashWords Hash [H])
            (hashWords Hash [H, (vin.prevout.hash + vin.prevout.n) % 2 ^ 256]) -
          min (hashWords Hash [H])
            (hashWords Hash [H, (vin.prevout.hash + vin.prevout.n) % 2 ^ 256]) ∧
      (CalculateScore Hash chain cache vin nBlockHeight).1 < 2 ^ 256 ∧
      ((CalculateScore Hash chain cache vin nBlockHeight).1 = 0 ↔
        hashWords Hash [H] =
          hashWords Hash [H, (vin.prevout.hash + vin.prevout.n) % 2 ^ 256]) := by
  have hscore : (CalculateScore Hash chain cache vin nBlockHeight).1 = scoreOfHash Hash vin H := by
    cases chain with
    | nil => exact absurd rfl htip
    | cons tip rest =>
      simp only [CalculateScore]
      split
      · next h => rw [h] at hget; simp at hget
      · next h => rw [h] at hget; simp only [Option.some.injEq] at hget; rw [hget]
  rw [hscore, scoreOfHash_eq]
  have ha := hashWords_lt Hash [H]
  have hb := hashWords_lt Hash [H, (vin.prevout.hash + vin.prevout.n) % 2 ^ 256]
  generalize hashWords Hash [H] = a at *
  generalize hashWords Hash [H, (vin.prevout.hash + vin.prevout.n) % 2 ^ 256] = b at *
  refine ⟨rfl, ?_, ?_⟩
  · have : max a b - min a b ≤ max a b := Nat.sub_le _ _
    have : max a b < 2 ^ 256 := max_lt ha hb
    omega
  · rcases le_total a b with h | h
    · rw [max_eq_right h, min_eq_left h]; omega
    · rw [max_eq_left h, min_eq_right h]; omega

/-- Witness of C4: on chain A with an empty cache, height 3 and the toy digest. -/
theorem CalculateScore_abs_diff_witness :
    (CalculateScore sampleHash chainA BlockHashCache.empty ⟨⟨77, 1⟩⟩ 3).1 =
        max (hashWords sampleHash [1002])
            (hashWords sampleHash [1002, (77 + 1) % 2 ^ 256]) -
          min (hashWords sampleHash [1002])
            (hashWords sampleHash [1002, (77 + 1) % 2 ^ 256]) ∧
      (CalculateScore sampleHash chainA BlockHashCache.empty ⟨⟨77, 1⟩⟩ 3).1 < 2 ^ 256 ∧
      ((CalculateScore sampleHash chainA BlockHashCache.empty ⟨⟨77, 1⟩⟩ 3).1 = 0 ↔
        hashWords sampleHash [1002] = hashWords sampleHash [1002, (77 + 1) % 2 ^ 256]) :=
  CalculateScore_abs_diff sampleHash chainA BlockHashCache.empty ⟨⟨77, 1⟩⟩ 3 1002
    (by decide) (by decide)

/-- C5, the failing input: `GetBlockHash(hash, 3)` is called while chain A is the main
chain and leaves the hash of a block of chain A in `mapCacheBlockHashes`; nothing removes
it when the chain is reorganised to chain B. `CalculateScore(3)` against chain B then
derives the score from the block of chain A (whatever the hash function), whereas with an
empty cache it derives it from the block of chain B; with the toy digest the two scores
differ. -/
theorem CalculateScore_depends_on_stale_cache :
    IsMainChain chainA 3 ∧ IsMainChain chainB 3 ∧
      (GetBlockHash chainA BlockHashCache.empty 3).1 = some 1002 ∧
      (GetBlockHash chainB (GetBlockHash chainA BlockHashCache.empty 3).2 3).1 = some 1002 ∧
      (GetBlockHash chainB BlockHashCache.empty 3).1 = some 2002 ∧
      (∀ (Hash : List Nat → Nat) (vin : CTxIn),
        (CalculateScore Hash chainB (GetBlockHash chainA BlockHashCache.empty 3).2 vin 3).1 =
          scoreOfHash Hash vin 1002) ∧
      (∀ (Hash : List Nat → Nat) (vin : CTxIn),
        (CalculateScore Hash chainB BlockHashCache.empty vin 3).1 =
          scoreOfHash Hash vin 2002) ∧
      (CalculateScore sampleHash chainB (GetBlockHash chainA BlockHashCache.empty 3).2
          ⟨⟨77, 1⟩⟩ 3).1 ≠
        (CalculateScore sampleHash chainB BlockHashCache.empty ⟨⟨77, 1⟩⟩ 3).1 := by
  refine ⟨by decide, by decide, by decide, by decide, by decide, ?_, ?_, by decide⟩
  · intro Hash vin; rfl
  · intro Hash vin; rfl

/-- C6 fails as stated: on chain A (tip height 3) with an empty cache,
`GetBlockHash(hash, 3)` yields the hash of the block of height 2, not of height 3, and
`GetBlockHash(hash, 1)` returns false; the height `4 = T + 1` is accepted and yields the
hash of the tip. -/
theorem GetBlockHash_not_hash_at_height :
    IsMainChain chainA 3 ∧
      (GetBlockHash chainA BlockHashCache.empty 3).1 = some 1002 ∧
      hashAtHeight chainA 3 = some 1003 ∧
      hashAtHeight chainA 2 = some 1002 ∧
      ¬ ((GetBlockHash chainA BlockHashCache.empty 3).1 = hashAtHeight chainA 3) ∧
      (GetBlockHash chainA BlockHashCache.empty 1).1 = none ∧
      (GetBlockHash chainA BlockHashCache.empty 4).1 = some 1003 := by
  decide

/-- C6 as amended: for every main chain with tip height `T > 0`, an empty block-hash cache
and every height `h` with `1 < h ≤ T`, `GetBlockHash(hash, h)` succeeds and sets `hash` to
the hash of the main-chain block of height `h - 1`. -/
theorem GetBlockHash_returns_previous_block (chain : List CBlockIndex) (T h : Int)
    (hc : IsMainChain chain T) (hT : 0 < T) (h1 : 1 < h) (h2 : h ≤ T) :
    ∃ H, (GetBlockHash chain BlockHashCache.empty h).1 = some H ∧
      hashAtHeight chain (h - 1) = some H := by
  cases chain with
  | nil => simp only [IsMainChain] at hc; omega
  | cons tip rest =>
    have htip : tip.nHeight = T := hc.1
    obtain ⟨H, hH1, hH2⟩ :=
      GetBlockHash_loop_main (T + 1 - h) (tip :: rest) T 0 hc (by omega) (by omega)
    refine ⟨H, ?_, ?_⟩
    · have hT0 : ¬ T = 0 := by omega
      have hh0 : ¬ h = 0 := by omega
      have hh1 : h > 0 := by omega
      have hago : ¬ T + 1 - h < 0 := by omega
      simp [GetBlockHash, htip, hT0, hh0, hh1, hago, BlockHashCache.empty, hH1]
    · have : T - (T + 1 - h - 0) = h - 1 := by omega
      rw [this] at hH2
      exact hH2

/-- Witness of the amended C6 on chain A at height 3. -/
theorem GetBlockHash_returns_previous_block_witness :
    ∃ H, (GetBlockHash chainA BlockHashCache.empty 3).1 = some H ∧
      hashAtHeight chainA (3 - 1) = some H :=
  GetBlockHash_returns_previous_block chainA 3 3 (by decide) (by decide) (by decide) (by decide)

/-! ## Lifecycle check: lemmas -/

/-- In a well-formed environment the gate answers for every stage up to `UPGRADE_XANDAR`
at height `chainActive.Height() + 1`. -/
theorem gate_answers (env : CheckEnv) (hwf : env.WellFormed) (idx : Nat)
    (hidx : idx ≤ Consensus.UPGRADE_XANDAR) :
    ∃ b, NetworkUpgradeActive (env.chainActiveHeight + 1) env.Params.consensus idx = some b := by
  obtain ⟨h1, h2⟩ := hwf
  have h := (NetworkUpgradeState_total_nonneg (env.chainActiveHeight + 1) env.Params.consensus
    idx (by omega) (by omega)).2
  exact Option.isSome_iff_exists.mp h

/-- Method `IsPingedWithin` with the default clock, spelled out. -/
theorem IsPingedWithin_default (env : CheckEnv) (mn : CMasternode) (seconds : Int) :
    CMasternode.IsPingedWithin env mn seconds (-1) =
      (!mn.lastPing.IsNull && decide (env.GetAdjustedTime - mn.lastPing.sigTime < seconds)) := by
  unfold CMasternode.IsPingedWithin
  cases mn.lastPing.IsNull <;> simp

/-- A ping within a window is within every longer window. -/
theorem IsPingedWithin_mono (env : CheckEnv) (mn : CMasternode) (s t : Int) (hst : s ≤ t)
    (h : CMasternode.IsPingedWithin env mn s (-1) = true) :
    CMasternode.IsPingedWithin env mn t (-1) = true := by
  rw [IsPingedWithin_default] at h ⊢
  simp only [Bool.and_eq_true, Bool.not_eq_true', decide_eq_true_eq] at h ⊢
  exact ⟨h.1, by omega⟩

/-- Being pinged within a window: there is a ping and it is recent enough. -/
theorem IsPingedWithin_true_iff (env : CheckEnv) (mn : CMasternode) (seconds : Int) :
    CMasternode.IsPingedWithin env mn seconds (-1) = true ↔
      mn.lastPing.IsNull = false ∧ env.GetAdjustedTime - mn.lastPing.sigTime < seconds := by
  rw [IsPingedWithin_default]
  simp

/-- The check ignores the time of the previous check when it is forced. -/
theorem IsPingedWithin_lastTimeChecked (env : CheckEnv) (mn : CMasternode) (s t : Int) :
    CMasternode.IsPingedWithin env { mn with lastTimeChecked := t } s (-1) =
      CMasternode.IsPingedWithin env mn s (-1) := rfl

/-- The two windows, in a well-formed environment: both are defined and the removal window
is the longer one. -/
theorem windows_defined (env : CheckEnv) (hwf : env.WellFormed) :
    ∃ removalTime expirationTime,
      CMasternode.GetRemovalTime env = some removalTime ∧
      CMasternode.GetExpirationTime env = some expirationTime ∧
      expirationTime < removalTime := by
  obtain ⟨isX, hX⟩ := gate_answers env hwf Consensus.UPGRADE_XANDAR (le_refl _)
  cases isX with
  | true =>
    refine ⟨MASTERNODE_REMOVAL_SECONDS + env.Params.mnLockTime,
      MASTERNODE_EXPIRATION_SECONDS + env.Params.mnLockTime, ?_, ?_, ?_⟩
    · simp [CMasternode.GetRemovalTime, hX]
    · simp [CMasternode.GetExpirationTime, hX]
    · simp [MASTERNODE_REMOVAL_SECONDS, MASTERNODE_EXPIRATION_SECONDS]
  | false =>
    refine ⟨MASTERNODE_REMOVAL_SECONDS, MASTERNODE_EXPIRATION_SECONDS, ?_, ?_, ?_⟩
    · simp [CMasternode.GetRemovalTime, hX]
    · simp [CMasternode.GetExpirationTime, hX]
    · simp [MASTERNODE_REMOVAL_SECONDS, MASTERNODE_EXPIRATION_SECONDS]

/-! ## Lifecycle check: claims -/

/-- C7: for every entry whose state is not VIN_SPENT, a forced `Check` without shutdown
sets the state to REMOVE when the entry has no ping or `now - lastPing.sigTime` is at least
`GetRemovalTime()`, and otherwise to EXPIRED when `now - lastPing.sigTime` is at least
`GetExpirationTime()`; `GetRemovalTime() > GetExpirationTime()`; and in both cases nothing
else of the entry changes (no later rule is evaluated). -/
theorem Check_remove_then_expired (env : CheckEnv) (mn : CMasternode) (hwf : env.WellFormed)
    (hsd : env.ShutdownRequested = false)
    (hst : mn.activeState ≠ MasternodeState.MASTERNODE_VIN_SPENT) :
    ∃ removalTime expirationTime,
      CMasternode.GetRemovalTime env = some removalTime ∧
      CMasternode.GetExpirationTime env = some expirationTime ∧
      expirationTime < removalTime ∧
      ((mn.lastPing.IsNull = true ∨
          removalTime ≤ env.GetAdjustedTime - mn.lastPing.sigTime) →
        CMasternode.Check env mn true =
          some { mn with lastTimeChecked := env.GetTime,
                         activeState := MasternodeState.MASTERNODE_REMOVE }) ∧
      (¬ (mn.lastPing.IsNull = true ∨
            removalTime ≤ env.GetAdjustedTime - mn.lastPing.sigTime) →
        expirationTime ≤ env.GetAdjustedTime - mn.lastPing.sigTime →
        CMasternode.Check env mn true =
          some { mn with lastTimeChecked := env.GetTime,
                         activeState := MasternodeState.MASTERNODE_EXPIRED }) := by
  obtain ⟨removalTime, expirationTime, hrem, hexp, hlt⟩ := windows_defined env hwf
  refine ⟨removalTime, expirationTime, hrem, hexp, hlt, ?_, ?_⟩
  · intro hcond
    have hp : CMasternode.IsPingedWithin env mn removalTime (-1) = false := by
      rw [IsPingedWithin_default]
      rcases hcond with h | h
      · simp [h]
      · have : ¬ env.GetAdjustedTime - mn.lastPing.sigTime < removalTime := by omega
        simp [this]
    simp [CMasternode.Check, hsd, hst, hrem, IsPingedWithin_lastTimeChecked, hp]
  · intro hcond hge
    have hnull : mn.lastPing.IsNull = false := by
      cases h : mn.lastPing.IsNull
      · rfl
      · exact absurd (Or.inl h) hcond
    have hlt' : env.GetAdjustedTime - mn.lastPing.sigTime < removalTime := by
      by_contra hc
      exact hcond (Or.inr (by omega))
    have hp : CMasternode.IsPingedWithin env mn removalTime (-1) = true := by
      rw [IsPingedWithin_default]; simp [hnull, hlt']
    have hq : CMasternode.IsPingedWithin env mn expirationTime (-1) = false := by
      rw [IsPingedWithin_default]
      have : ¬ env.GetAdjustedTime - mn.lastPing.sigTime < expirationTime := by omega
      simp [this]
    simp [CMasternode.Check, hsd, hst, hrem, hexp, IsPingedWithin_lastTimeChecked, hp, hq]

/-- Witness of C7: an ENABLED entry in the example environment at time 5000000. -/
theorem Check_remove_then_expired_witness :
    ∃ removalTime expirationTime,
      CMasternode.GetRemovalTime (sampleEnv 5000000 true) = some removalTime ∧
      CMasternode.GetExpirationTime (sampleEnv 5000000 true) = some expirationTime ∧
      expirationTime < removalTime ∧
      (((sampleEntry MasternodeState.MASTERNODE_ENABLED 0 0).lastPing.IsNull = true ∨
          removalTime ≤ (sampleEnv 5000000 true).GetAdjustedTime -
            (sampleEntry MasternodeState.MASTERNODE_ENABLED 0 0).lastPing.sigTime) →
        CMasternode.Check (sampleEnv 5000000 true)
            (sampleEntry MasternodeState.MASTERNODE_ENABLED 0 0) true =
          some { sampleEntry MasternodeState.MASTERNODE_ENABLED 0 0 with
                   lastTimeChecked := (sampleEnv 5000000 true).GetTime,
                   activeState := MasternodeState.MASTERNODE_REMOVE }) ∧
      (¬ ((sampleEntry MasternodeState.MASTERNODE_ENABLED 0 0).lastPing.IsNull = true ∨
            removalTime ≤ (sampleEnv 5000000 true).GetAdjustedTime -
              (sampleEntry MasternodeState.MASTERNODE_ENABLED 0 0).lastPing.sigTime) →
        expirationTime ≤ (sampleEnv 5000000 true).GetAdjustedTime -
            (sampleEntry MasternodeState.MASTERNODE_ENABLED 0 0).lastPing.sigTime →
        CMasternode.Check (sampleEnv 5000000 true)
            (sampleEntry MasternodeState.MASTERNODE_ENABLED 0 0) true =
          some { sampleEntry MasternodeState.MASTERNODE_ENABLED 0 0 with
                   lastTimeChecked := (sampleEnv 5000000 true).GetTime,
                   activeState := MasternodeState.MASTERNODE_EXPIRED }) :=
  Check_remove_then_expired (sampleEnv 5000000 true)
    (sampleEntry MasternodeState.MASTERNODE_ENABLED 0 0) (by decide) (by decide) (by decide)

/-- C8 fails as stated: in the example environment (chain lock available, collateral not
acceptable) a forced `Check` of an entry that is not a unit-test entry sets REMOVE when the
last ping is older than the removal window, and PRE_ENABLED when the warm-up gap is not
reached; in neither case VIN_SPENT. -/
theorem Check_ping_rules_precede_collateral :
    (sampleEntry MasternodeState.MASTERNODE_ENABLED 0 0).unitTest = false ∧
      (sampleEnv 5000000 false).lockMain = true ∧
      (∀ vin key amount, (sampleEnv 5000000 false).AcceptableInputs vin key amount = false) ∧
      (CMasternode.Check (sampleEnv 5000000 false)
          (sampleEntry MasternodeState.MASTERNODE_ENABLED 0 0) true).map
        (fun m => m.activeState) = some MasternodeState.MASTERNODE_REMOVE ∧
      (CMasternode.Check (sampleEnv 5000000 false)
          (sampleEntry MasternodeState.MASTERNODE_ENABLED 4999000 4999100) true).map
        (fun m => m.activeState) = some MasternodeState.MASTERNODE_PRE_ENABLED ∧
      (CMasternode.Check (sampleEnv 5000000 false)
          (sampleEntry MasternodeState.MASTERNODE_ENABLED 0 0) true).map
        (fun m => m.activeState) ≠ some MasternodeState.MASTERNODE_VIN_SPENT := by
  refine ⟨by decide, by decide, fun _ _ _ => rfl, by decide, by decide, by decide⟩

/-- C8 as amended: for every entry that is not a unit-test entry and not already
VIN_SPENT, that has been pinged within the expiration window and whose warm-up gap
`lastPing.sigTime - sigTime` is at least `MASTERNODE_MIN_MNP_SECONDS`, when the collateral
is not acceptable and the chain-state lock is available, a forced `Check` sets the state to
VIN_SPENT and changes nothing else (the UNLOCKING and ENABLED rules are skipped). -/
theorem Check_vin_spent_after_ping_rules (env : CheckEnv) (mn : CMasternode)
    (expirationTime collateral : Int) (hwf : env.WellFormed)
    (hsd : env.ShutdownRequested = false) (hut : mn.unitTest = false)
    (hlock : env.lockMain = true)
    (hst : mn.activeState ≠ MasternodeState.MASTERNODE_VIN_SPENT)
    (hexp : CMasternode.GetExpirationTime env = some expirationTime)
    (hping : CMasternode.IsPingedWithin env mn expirationTime (-1) = true)
    (hgap : MASTERNODE_MIN_MNP_SECONDS ≤ mn.lastPing.sigTime - mn.sigTime)
    (hcol : env.Params.GetMasternodeCollateral (env.chainActiveHeight + 1) = some collateral)
    (hbad : env.AcceptableInputs mn.vin mn.pubKeyCollateralAddress collateral = false) :
    CMasternode.Check env mn true =
      some { mn with lastTimeChecked := env.GetTime,
                     activeState := MasternodeState.MASTERNODE_VIN_SPENT } := by
  obtain ⟨removalTime, expirationTime', hrem, hexp', hlt⟩ := windows_defined env hwf
  rw [hexp] at hexp'
  cases hexp'
  obtain ⟨isX, hX⟩ := gate_answers env hwf Consensus.UPGRADE_XANDAR (le_refl _)
  obtain ⟨isM, hM⟩ := gate_answers env hwf Consensus.UPGRADE_MORAG (by decide)
  obtain ⟨hnull, hrecent⟩ := (IsPingedWithin_true_iff env mn expirationTime).mp hping
  have hrecent' : env.GetAdjustedTime - mn.lastPing.sigTime < removalTime := by omega
  have hgap' : ¬ mn.lastPing.sigTime - mn.sigTime < MASTERNODE_MIN_MNP_SECONDS := by omega
  simp [CMasternode.Check, CMasternode.CheckCollateral, hsd, hst, hrem, hexp, hX, hM, hcol,
    IsPingedWithin_default, hnull, hrecent, hrecent', hgap', hut, hlock, hbad]

/-- Witness of the amended C8: an ENABLED entry registered long ago and pinged 900 s
ago. -/
theorem Check_vin_spent_after_ping_rules_witness :
    CMasternode.Check (sampleEnv 5000000 false)
        (sampleEntry MasternodeState.MASTERNODE_ENABLED 4000000 4999100) true =
      some { sampleEntry MasternodeState.MASTERNODE_ENABLED 4000000 4999100 with
               lastTimeChecked := (sampleEnv 5000000 false).GetTime,
               activeState := MasternodeState.MASTERNODE_VIN_SPENT } :=
  Check_vin_spent_after_ping_rules (sampleEnv 5000000 false)
    (sampleEntry MasternodeState.MASTERNODE_ENABLED 4000000 4999100) (7200 + 1209600) 20000
    (by decide) (by decide) (by decide) (by decide) (by decide) (by decide) (by decide)
    (by decide) (by decide) (by decide)

/-- C9: for every entry that is not VIN_SPENT and has been pinged within the expiration
window, if `lastPing.sigTime - sigTime < MASTERNODE_MIN_MNP_SECONDS` then a forced `Check`
sets the state to PRE_ENABLED, except when XANDAR is active at tip height + 1 and the state
is RE_ENABLED, in which case the state stays RE_ENABLED; in both cases nothing else is
changed by later rules. -/
theorem Check_warmup (env : CheckEnv) (mn : CMasternode) (expirationTime : Int)
    (hwf : env.WellFormed) (hsd : env.ShutdownRequested = false)
    (hst : mn.activeState ≠ MasternodeState.MASTERNODE_VIN_SPENT)
    (hexp : CMasternode.GetExpirationTime env = some expirationTime)
    (hping : CMasternode.IsPingedWithin env mn expirationTime (-1) = true)
    (hgap : mn.lastPing.sigTime - mn.sigTime < MASTERNODE_MIN_MNP_SECONDS) :
    ∃ isXandarActive,
      NetworkUpgradeActive (env.chainActiveHeight + 1) env.Params.consensus
          Consensus.UPGRADE_XANDAR = some isXandarActive ∧
      ((isXandarActive = true ∧
          mn.activeState = MasternodeState.MASTERNODE_RE_ENABLED) →
        CMasternode.Check env mn true = some { mn with lastTimeChecked := env.GetTime } ∧
          (CMasternode.Check env mn true).map (fun m => m.activeState) =
            some MasternodeState.MASTERNODE_RE_ENABLED) ∧
      (¬ (isXandarActive = true ∧
            mn.activeState = MasternodeState.MASTERNODE_RE_ENABLED) →
        CMasternode.Check env mn true =
          some { mn with lastTimeChecked := env.GetTime,
                         activeState := MasternodeState.MASTERNODE_PRE_ENABLED }) := by
  obtain ⟨removalTime, expirationTime', hrem, hexp', hlt⟩ := windows_defined env hwf
  rw [hexp] at hexp'
  cases hexp'
  obtain ⟨isX, hX⟩ := gate_answers env hwf Consensus.UPGRADE_XANDAR (le_refl _)
  obtain ⟨hnull, hrecent⟩ := (IsPingedWithin_true_iff env mn expirationTime).mp hping
  have hrecent' : env.GetAdjustedTime - mn.lastPing.sigTime < removalTime := by omega
  refine ⟨isX, hX, ?_, ?_⟩
  · rintro ⟨h1, h2⟩
    subst h1
    simp [CMasternode.Check, hsd, hst, hrem, hexp, hX, IsPingedWithin_default, hnull,
      hrecent, hrecent', hgap, h2]
  · intro hneg
    cases isX with
    | false =>
      simp [CMasternode.Check, hsd, hst, hrem, hexp, hX, IsPingedWithin_default, hnull,
        hrecent, hrecent', hgap]
    | true =>
      have h2 : mn.activeState ≠ MasternodeState.MASTERNODE_RE_ENABLED :=
        fun hc => hneg ⟨rfl, hc⟩
      simp [CMasternode.Check, hsd, hst, hrem, hexp, hX, IsPingedWithin_default, hnull,
        hrecent, hrecent', hgap, h2]

/-- Witness of C9: a RE_ENABLED entry registered 1000 s ago and pinged 900 s ago, while
XANDAR is active. -/
theorem Check_warmup_witness :
    ∃ isXandarActive,
      NetworkUpgradeActive ((sampleEnv 5000000 true).chainActiveHeight + 1)
          (sampleEnv 5000000 true).Params.consensus Consensus.UPGRADE_XANDAR =
        some isXandarActive ∧
      ((isXandarActive = true ∧
          (sampleEntry MasternodeState.MASTERNODE_RE_ENABLED 4999000 4999100).activeState =
            MasternodeState.MASTERNODE_RE_ENABLED) →
        CMasternode.Check (sampleEnv 5000000 true)
            (sampleEntry MasternodeState.MASTERNODE_RE_ENABLED 4999000 4999100) true =
          some { sampleEntry MasternodeState.MASTERNODE_RE_ENABLED 4999000 4999100 with
                   lastTimeChecked := (sampleEnv 5000000 true).GetTime } ∧
          (CMasternode.Check (sampleEnv 5000000 true)
              (sampleEntry MasternodeState.MASTERNODE_RE_ENABLED 4999000 4999100) true).map
            (fun m => m.activeState) = some MasternodeState.MASTERNODE_RE_ENABLED) ∧
      (¬ (isXandarActive = true ∧
            (sampleEntry MasternodeState.MASTERNODE_RE_ENABLED 4999000 4999100).activeState =
              MasternodeState.MASTERNODE_RE_ENABLED) →
        CMasternode.Check (sampleEnv 5000000 true)
            (sampleEntry MasternodeState.MASTERNODE_RE_ENABLED 4999000 4999100) true =
          some { sampleEntry MasternodeState.MASTERNODE_RE_ENABLED 4999000 4999100 with
                   lastTimeChecked := (sampleEnv 5000000 true).GetTime,
                   activeState := MasternodeState.MASTERNODE_PRE_ENABLED }) :=
  Check_warmup (sampleEnv 5000000 true)
    (sampleEntry MasternodeState.MASTERNODE_RE_ENABLED 4999000 4999100) (7200 + 1209600)
    (by decide) (by decide) (by decide) (by decide) (by decide) (by decide)

/-- C10: a forced `Check` is idempotent: in every well-formed environment and for every
entry, in any lifecycle state, the check returns an entry, and checking that entry again
in the same environment returns it unchanged. -/
theorem Check_idempotent (env : CheckEnv) (mn : CMasternode) (hwf : env.WellFormed) :
    ∃ mn1, CMasternode.Check env mn true = some mn1 ∧
      CMasternode.Check env mn1 true = some mn1 := by
  obtain ⟨removalTime, expirationTime, hrem, hexp, hlt⟩ := windows_defined env hwf
  obtain ⟨isX, hX⟩ := gate_answers env hwf Consensus.UPGRADE_XANDAR (le_refl _)
  obtain ⟨isM, hM⟩ := gate_answers env hwf Consensus.UPGRADE_MORAG (by decide)
  have hcol : ∃ c, env.Params.GetMasternodeCollateral (env.chainActiveHeight + 1) = some c := by
    simp [CChainParams.GetMasternodeCollateral, hM]
  obtain ⟨c, hc⟩ := hcol
  cases hsd : env.ShutdownRequested with
  | true => exact ⟨mn, by simp [CMasternode.Check, hsd], by simp [CMasternode.Check, hsd]⟩
  | false =>
  by_cases hst : mn.activeState = MasternodeState.MASTERNODE_VIN_SPENT
  · refine ⟨{ mn with lastTimeChecked := env.GetTime }, ?_, ?_⟩ <;>
      simp [CMasternode.Check, hsd, hst]
  by_cases hnull : mn.lastPing.IsNull = true
  · refine ⟨{ mn with lastTimeChecked := env.GetTime,
                      activeState := MasternodeState.MASTERNODE_REMOVE }, ?_, ?_⟩ <;>
      simp [CMasternode.Check, hsd, hst, hrem, IsPingedWithin_default, hnull]
  by_cases hR : env.GetAdjustedTime - mn.lastPing.sigTime < removalTime
  swap
  · refine ⟨{ mn with lastTimeChecked := env.GetTime,
                      activeState := MasternodeState.MASTERNODE_REMOVE }, ?_, ?_⟩ <;>
      simp [CMasternode.Check, hsd, hst, hrem, IsPingedWithin_default, hR]
  by_cases hE : env.GetAdjustedTime - mn.lastPing.sigTime < expirationTime
  swap
  · refine ⟨{ mn with lastTimeChecked := env.GetTime,
                      activeState := MasternodeState.MASTERNODE_EXPIRED }, ?_, ?_⟩ <;>
      simp [CMasternode.Check, hsd, hst, hrem, hexp, IsPingedWithin_default, hnull, hR, hE]
  by_cases hgap : mn.lastPing.sigTime - mn.sigTime < MASTERNODE_MIN_MNP_SECONDS
  · by_cases hre : isX = true ∧ mn.activeState = MasternodeState.MASTERNODE_RE_ENABLED
    · obtain ⟨h1, h2⟩ := hre
      subst h1
      refine ⟨{ mn with lastTimeChecked := env.GetTime }, ?_, ?_⟩ <;>
        simp [CMasternode.Check, hsd, hst, hrem, hexp, hX, IsPingedWithin_default, hnull, hR,
          hE, hgap, h2]
    · refine ⟨{ mn with lastTimeChecked := env.GetTime,
                        activeState := MasternodeState.MASTERNODE_PRE_ENABLED }, ?_, ?_⟩
      · cases isX with
        | false =>
          simp [CMasternode.Check, hsd, hst, hrem, hexp, hX, IsPingedWithin_default, hnull,
            hR, hE, hgap]
        | true =>
          have h2 : mn.activeState ≠ MasternodeState.MASTERNODE_RE_ENABLED :=
            fun hc => hre ⟨rfl, hc⟩
          simp [CMasternode.Check, hsd, hst, hrem, hexp, hX, IsPingedWithin_default, hnull,
            hR, hE, hgap, h2]
      · simp [CMasternode.Check, hsd, hrem, hexp, hX, IsPingedWithin_default, hnull, hR, hE,
          hgap]
  -- the collateral test and the last two rules
  have hfinish : ∀ m : CMasternode, m.lastPing = mn.lastPing → m.sigTime = mn.sigTime →
      m.activeState ≠ MasternodeState.MASTERNODE_VIN_SPENT →
      CMasternode.Check env m true =
        CMasternode.CheckCollateral env { m with lastTimeChecked := env.GetTime } isX := by
    intro m h1 h2 h3
    simp [CMasternode.Check, hsd, h3, hrem, hexp, hX, IsPingedWithin_default, h1, h2, hnull,
      hR, hE, hgap]
  by_cases hskip : mn.unitTest = false ∧ env.lockMain = false
  · obtain ⟨hut, hlock⟩ := hskip
    refine ⟨{ mn with lastTimeChecked := env.GetTime }, ?_, ?_⟩
    · rw [hfinish mn rfl rfl hst]
      simp [CMasternode.CheckCollateral, hut, hc, hM, hlock]
    · refine (hfinish { mn with lastTimeChecked := env.GetTime } rfl rfl hst).trans ?_
      simp [CMasternode.CheckCollateral, hut, hc, hM, hlock]
  by_cases hspent : mn.unitTest = false ∧
      env.AcceptableInputs mn.vin mn.pubKeyCollateralAddress c = false
  · obtain ⟨hut, hbad⟩ := hspent
    have hlock : env.lockMain = true := by
      cases h : env.lockMain
      · exact absurd ⟨hut, h⟩ hskip
      · rfl
    refine ⟨{ mn with lastTimeChecked := env.GetTime,
                      activeState := MasternodeState.MASTERNODE_VIN_SPENT }, ?_, ?_⟩
    · rw [hfinish mn rfl rfl hst]
      simp [CMasternode.CheckCollateral, hut, hc, hM, hlock, hbad]
    · simp [CMasternode.Check, hsd]
  -- from here on the collateral test is passed or skipped
  have hpass : ∀ m : CMasternode, m.unitTest = mn.unitTest → m.vin = mn.vin →
      m.pubKeyCollateralAddress = mn.pubKeyCollateralAddress → m.lastPing = mn.lastPing →
      CMasternode.CheckCollateral env m isX =
        some (if isX && !CMasternode.IsPingedWithin env mn env.Params.mnStartUnlockTime (-1)
                && decide (m.activeState ≠ MasternodeState.MASTERNODE_UNLOCKING) then
            { m with activeState := MasternodeState.MASTERNODE_UNLOCKING }
          else if m.activeState = MasternodeState.MASTERNODE_UNLOCKING then m
          else { m with activeState := MasternodeState.MASTERNODE_ENABLED }) := by
    intro m h1 h2 h3 h4
    cases hut : mn.unitTest with
    | true =>
      simp [CMasternode.CheckCollateral, h1, hut, IsPingedWithin_default, h4]
    | false =>
      have hlock : env.lockMain = true := by
        cases h : env.lockMain
        · exact absurd ⟨hut, h⟩ hskip
        · rfl
      have hok : env.AcceptableInputs mn.vin mn.pubKeyCollateralAddress c = true := by
        cases h : env.AcceptableInputs mn.vin mn.pubKeyCollateralAddress c
        · exact absurd ⟨hut, h⟩ hspent
        · rfl
      simp [CMasternode.CheckCollateral, h1, hut, hc, hM, hlock, h2, h3, hok,
        IsPingedWithin_default, h4]
  -- both runs, for an entry `m` that agrees with `mn` outside of its state
  have hrun : ∀ m : CMasternode, m.unitTest = mn.unitTest → m.vin = mn.vin →
      m.pubKeyCollateralAddress = mn.pubKeyCollateralAddress → m.lastPing = mn.lastPing →
      m.sigTime = mn.sigTime → m.activeState ≠ MasternodeState.MASTERNODE_VIN_SPENT →
      CMasternode.Check env m true =
        some (if isX && !CMasternode.IsPingedWithin env mn env.Params.mnStartUnlockTime (-1)
                && decide (m.activeState ≠ MasternodeState.MASTERNODE_UNLOCKING) then
            { m with lastTimeChecked := env.GetTime,
                     activeState := MasternodeState.MASTERNODE_UNLOCKING }
          else if m.activeState = MasternodeState.MASTERNODE_UNLOCKING then
            { m with lastTimeChecked := env.GetTime }
          else { m with lastTimeChecked := env.GetTime,
                        activeState := MasternodeState.MASTERNODE_ENABLED }) := by
    intro m h1 h2 h3 h4 h5 h6
    exact (hfinish m h4 h5 h6).trans
      (hpass { m with lastTimeChecked := env.GetTime } h1 h2 h3 h4)
  by_cases hunlock : (isX && !CMasternode.IsPingedWithin env mn env.Params.mnStartUnlockTime (-1)
      && decide (mn.activeState ≠ MasternodeState.MASTERNODE_UNLOCKING)) = true
  · refine ⟨{ mn with lastTimeChecked := env.GetTime,
                      activeState := MasternodeState.MASTERNODE_UNLOCKING }, ?_, ?_⟩
    · rw [hrun mn rfl rfl rfl rfl rfl hst]
      simp only [hunlock, if_true]
    · refine (hrun { mn with lastTimeChecked := env.GetTime,
                             activeState := MasternodeState.MASTERNODE_UNLOCKING }
        rfl rfl rfl rfl rfl (by simp)).trans ?_
      simp
  by_cases hU : mn.activeState = MasternodeState.MASTERNODE_UNLOCKING
  · refine ⟨{ mn with lastTimeChecked := env.GetTime }, ?_, ?_⟩
    · rw [hrun mn rfl rfl rfl rfl rfl hst]
      simp [hU]
    · refine (hrun { mn with lastTimeChecked := env.GetTime } rfl rfl rfl rfl rfl hst).trans ?_
      simp [hU]
  · have hcond : (isX && !CMasternode.IsPingedWithin env mn env.Params.mnStartUnlockTime (-1)) =
        false := by
      cases h : (isX && !CMasternode.IsPingedWithin env mn env.Params.mnStartUnlockTime (-1))
      · rfl
      · exfalso; apply hunlock; simp [h, hU]
    refine ⟨{ mn with lastTimeChecked := env.GetTime,
                      activeState := MasternodeState.MASTERNODE_ENABLED }, ?_, ?_⟩
    · rw [hrun mn rfl rfl rfl rfl rfl hst]
      simp [hcond, hU]
    · refine (hrun { mn with lastTimeChecked := env.GetTime,
                             activeState := MasternodeState.MASTERNODE_ENABLED }
        rfl rfl rfl rfl rfl (by simp)).trans ?_
      simp [hcond]

/-- Witness of C10: an ENABLED entry whose last ping is older than the unlock window
becomes UNLOCKING and stays so. -/
theorem Check_idempotent_witness :
    ∃ mn1, CMasternode.Check (sampleEnv 5000000 true)
        (sampleEntry MasternodeState.MASTERNODE_ENABLED 3000000 4900000) true = some mn1 ∧
      CMasternode.Check (sampleEnv 5000000 true) mn1 true = some mn1 :=
  Check_idempotent (sampleEnv 5000000 true)
    (sampleEntry MasternodeState.MASTERNODE_ENABLED 3000000 4900000) (by decide)

/-- C11 fails as stated: an ENABLED entry registered at `T = 1000000` with its embedded
ping at `T`, acceptable collateral and no further ping is PRE_ENABLED, not ENABLED, at
`t = T + 1000`, which lies between the warm-up interval (600 s) and the expiration window,
both after XANDAR and before it. -/
theorem Check_scenario_never_enabled :
    (CMasternode.Check (sampleEnv 1001000 true)
        (sampleEntry MasternodeState.MASTERNODE_ENABLED 1000000 1000000) true).map
      (fun m => m.activeState) = some MasternodeState.MASTERNODE_PRE_ENABLED ∧
    (CMasternode.Check (sampleEnvOld 1001000 true)
        (sampleEntry MasternodeState.MASTERNODE_ENABLED 1000000 1000000) true).map
      (fun m => m.activeState) = some MasternodeState.MASTERNODE_PRE_ENABLED ∧
    CMasternode.GetExpirationTime (sampleEnvOld 1001000 true) = some 7200 ∧
    (1000000 : Int) + MASTERNODE_MIN_MNP_SECONDS ≤ 1001000 ∧
    (1001000 : Int) < 1000000 + 7200 := by
  decide

/-- C11 as amended: for every entry registered at time `T` (registration signature time
`T`, embedded ping at `T`), in a state other than VIN_SPENT and RE_ENABLED, that receives
no further ping, a forced `Check` at time `t` yields PRE_ENABLED for
`t < T + expiration window`, EXPIRED for
`T + expiration window ≤ t < T + removal window`, and REMOVE for
`t ≥ T + removal window`. -/
theorem Check_scenario_without_further_ping (env : CheckEnv) (mn : CMasternode) (T : Int)
    (hwf : env.WellFormed) (hsd : env.ShutdownRequested = false)
    (hst : mn.activeState ≠ MasternodeState.MASTERNODE_VIN_SPENT)
    (hre : mn.activeState ≠ MasternodeState.MASTERNODE_RE_ENABLED)
    (hsig : mn.sigTime = T) (hping : mn.lastPing.sigTime = T)
    (hnull : mn.lastPing.IsNull = false) :
    ∃ removalTime expirationTime,
      CMasternode.GetRemovalTime env = some removalTime ∧
      CMasternode.GetExpirationTime env = some expirationTime ∧
      (env.GetAdjustedTime < T + expirationTime →
        CMasternode.Check env mn true =
          some { mn with lastTimeChecked := env.GetTime,
                         activeState := MasternodeState.MASTERNODE_PRE_ENABLED }) ∧
      (T + expirationTime ≤ env.GetAdjustedTime → env.GetAdjustedTime < T + removalTime →
        CMasternode.Check env mn true =
          some { mn with lastTimeChecked := env.GetTime,
                         activeState := MasternodeState.MASTERNODE_EXPIRED }) ∧
      (T + removalTime ≤ env.GetAdjustedTime →
        CMasternode.Check env mn true =
          some { mn with lastTimeChecked := env.GetTime,
                         activeState := MasternodeState.MASTERNODE_REMOVE }) := by
  obtain ⟨removalTime, expirationTime, hrem, hexp, hlt⟩ := windows_defined env hwf
  obtain ⟨isX, hX⟩ := gate_answers env hwf Consensus.UPGRADE_XANDAR (le_refl _)
  have hgap : mn.lastPing.sigTime - mn.sigTime < MASTERNODE_MIN_MNP_SECONDS := by
    rw [hsig, hping]; simp [MASTERNODE_MIN_MNP_SECONDS]
  refine ⟨removalTime, expirationTime, hrem, hexp, ?_, ?_, ?_⟩
  · intro ht
    have hE : env.GetAdjustedTime - mn.lastPing.sigTime < expirationTime := by omega
    have hR : env.GetAdjustedTime - mn.lastPing.sigTime < removalTime := by omega
    cases isX <;>
      simp [CMasternode.Check, hsd, hst, hrem, hexp, hX, IsPingedWithin_default, hnull, hR,
        hE, hgap, hre]
  · intro ht1 ht2
    have hE : ¬ env.GetAdjustedTime - mn.lastPing.sigTime < expirationTime := by omega
    have hR : env.GetAdjustedTime - mn.lastPing.sigTime < removalTime := by omega
    simp [CMasternode.Check, hsd, hst, hrem, hexp, IsPingedWithin_default, hnull, hR, hE]
  · intro ht
    have hR : ¬ env.GetAdjustedTime - mn.lastPing.sigTime < removalTime := by omega
    simp [CMasternode.Check, hsd, hst, hrem, IsPingedWithin_default, hR]

/-- Witness of the amended C11: the example entry registered at 1000000, checked at
1001000. -/
theorem Check_scenario_without_further_ping_witness :
    ∃ removalTime expirationTime,
      CMasternode.GetRemovalTime (sampleEnv 1001000 true) = some removalTime ∧
      CMasternode.GetExpirationTime (sampleEnv 1001000 true) = some expirationTime ∧
      ((sampleEnv 1001000 true).GetAdjustedTime < 1000000 + expirationTime →
        CMasternode.Check (sampleEnv 1001000 true)
            (sampleEntry MasternodeState.MASTERNODE_ENABLED 1000000 1000000) true =
          some { sampleEntry MasternodeState.MASTERNODE_ENABLED 1000000 1000000 with
                   lastTimeChecked := (sampleEnv 1001000 true).GetTime,
                   activeState := MasternodeState.MASTERNODE_PRE_ENABLED }) ∧
      (1000000 + expirationTime ≤ (sampleEnv 1001000 true).GetAdjustedTime →
        (sampleEnv 1001000 true).GetAdjustedTime < 1000000 + removalTime →
        CMasternode.Check (sampleEnv 1001000 true)
            (sampleEntry MasternodeState.MASTERNODE_ENABLED 1000000 1000000) true =
          some { sampleEntry MasternodeState.MASTERNODE_ENABLED 1000000 1000000 with
                   lastTimeChecked := (sampleEnv 1001000 true).GetTime,
                   activeState := MasternodeState.MASTERNODE_EXPIRED }) ∧
      (1000000 + removalTime ≤ (sampleEnv 1001000 true).GetAdjustedTime →
        CMasternode.Check (sampleEnv 1001000 true)
            (sampleEntry MasternodeState.MASTERNODE_ENABLED 1000000 1000000) true =
          some { sampleEntry MasternodeState.MASTERNODE_ENABLED 1000000 1000000 with
                   lastTimeChecked := (sampleEnv 1001000 true).GetTime,
                   activeState := MasternodeState.MASTERNODE_REMOVE }) :=
  Check_scenario_without_further_ping (sampleEnv 1001000 true)
    (sampleEntry MasternodeState.MASTERNODE_ENABLED 1000000 1000000) 1000000
    (by decide) (by decide) (by decide) (by decide) (by decide) (by decide) (by decide)

/-! ## Pings and broadcasts: lemmas -/

/-- A property of both branches holds of the conditional. -/
theorem prop_ite {α : Type} (P : α → Prop) (c : Prop) [Decidable c] (a b : α)
    (ha : P a) (hb : P b) : P (if c then a else b) := by
  by_cases h : c
  · rw [if_pos h]; exact ha
  · rw [if_neg h]; exact hb

/-- In a well-formed environment `Check` returns, and it changes at most the state and
the time of the last check. -/
theorem Check_shape (env : CheckEnv) (mn : CMasternode) (forceCheck : Bool)
    (hwf : env.WellFormed) :
    ∃ st t, CMasternode.Check env mn forceCheck =
      some { mn with activeState := st, lastTimeChecked := t } := by
  obtain ⟨removalTime, expirationTime, hrem, hexp, _⟩ := windows_defined env hwf
  obtain ⟨isX, hX⟩ := gate_answers env hwf Consensus.UPGRADE_XANDAR (le_refl _)
  obtain ⟨isM, hM⟩ := gate_answers env hwf Consensus.UPGRADE_MORAG (by decide)
  have hcol : ∃ c, env.Params.GetMasternodeCollateral (env.chainActiveHeight + 1) = some c := by
    simp [CChainParams.GetMasternodeCollateral, hM]
  obtain ⟨c, hc⟩ := hcol
  generalize hP : (fun o : Option CMasternode =>
    ∃ st t, o = some { mn with activeState := st, lastTimeChecked := t }) = P
  have base : ∀ st t, P (some { mn with activeState := st, lastTimeChecked := t }) := by
    intro st t; rw [← hP]; exact ⟨st, t, rfl⟩
  suffices h : P (CMasternode.Check env mn forceCheck) by rw [← hP] at h; exact h
  simp only [CMasternode.Check, CMasternode.CheckCollateral, hrem, hexp, hX, hM, hc]
  repeat' (first | exact base _ _ | apply prop_ite P | apply prop_ite (fun m => P (some m)))

/-- With `fCheckSigTimeOnly` the ping check returns and leaves the registry as it is. -/
theorem PingCheck_sigTimeOnly (env : RegistryEnv) (r : Registry) (ping : CMasternodePing)
    (nDos : Int) (fRequireEnabled : Bool) :
    ∃ ok d, CMasternodePing.CheckAndUpdate env r ping nDos fRequireEnabled true =
      some (ok, d, r) := by
  generalize hP : (fun o : Option (Bool × Int × Registry) => ∃ ok d, o = some (ok, d, r)) = P
  have base : ∀ ok d, P (some (ok, d, r)) := by
    intro ok d; rw [← hP]; exact ⟨ok, d, rfl⟩
  suffices h : P (CMasternodePing.CheckAndUpdate env r ping nDos fRequireEnabled true) by
    rw [← hP] at h; exact h
  simp only [CMasternodePing.CheckAndUpdate, if_true]
  repeat' (first | exact base _ _ | apply prop_ite P)

/-- The ping check returns in a well-formed environment; afterwards the registry is the
same, or the entry of the ping's collateral has the ping as last ping and a state and
check time set by `Check`. -/
theorem PingCheck_shape (env : RegistryEnv) (r : Registry) (ping : CMasternodePing)
    (nDos : Int) (fRequireEnabled fCheckSigTimeOnly : Bool) (hwf : env.toCheckEnv.WellFormed) :
    ∃ ok d r', CMasternodePing.CheckAndUpdate env r ping nDos fRequireEnabled
        fCheckSigTimeOnly = some (ok, d, r') ∧
      (r' = r ∨ ∃ mn st t, r ping.vin.prevout = some mn ∧
        r' = r.set ping.vin.prevout
          { mn with lastPing := ping, activeState := st, lastTimeChecked := t }) := by
  generalize hP : (fun o : Option (Bool × Int × Registry) =>
    ∃ ok d r', o = some (ok, d, r') ∧
      (r' = r ∨ ∃ mn st t, r ping.vin.prevout = some mn ∧
        r' = r.set ping.vin.prevout
          { mn with lastPing := ping, activeState := st, lastTimeChecked := t })) = P
  have base1 : ∀ ok d, P (some (ok, d, r)) := by
    intro ok d; rw [← hP]; exact ⟨ok, d, r, rfl, Or.inl rfl⟩
  have base2 : ∀ ok d mn st t, r ping.vin.prevout = some mn →
      P (some (ok, d, r.set ping.vin.prevout
        { mn with lastPing := ping, activeState := st, lastTimeChecked := t })) := by
    intro ok d mn st t h; rw [← hP]; exact ⟨ok, d, _, rfl, Or.inr ⟨mn, st, t, h, rfl⟩⟩
  suffices h : P (CMasternodePing.CheckAndUpdate env r ping nDos fRequireEnabled
      fCheckSigTimeOnly) by
    rw [← hP] at h; exact h
  cases hfind : r ping.vin.prevout with
  | none =>
    simp only [CMasternodePing.CheckAndUpdate, CMasternodeMan.Find, hfind]
    repeat' (first | exact base1 _ _ | apply prop_ite P)
  | some mn =>
    obtain ⟨st, t, hcheck⟩ := Check_shape env.toCheckEnv { mn with lastPing := ping } true hwf
    cases hidx : env.mapBlockIndex ping.blockHash with
    | none =>
      simp only [CMasternodePing.CheckAndUpdate, CMasternodeMan.Find, hfind, hidx]
      repeat' (first | exact base1 _ _ | apply prop_ite P)
    | some pindex =>
      simp only [CMasternodePing.CheckAndUpdate, CMasternodeMan.Find, hfind, hidx, hcheck]
      repeat' (first | exact base1 _ _ | exact base2 _ _ mn st t hfind | apply prop_ite P)

/-- Reading back the entry just stored. -/
theorem Registry_set_same (r : Registry) (k : COutPoint) (mn : CMasternode) :
    (r.set k mn) k = some mn := by
  simp [Registry.set]

/-- What `UpdateFromNewBroadcast` does to the entry stored under `k`. -/
theorem UpdateFromNewBroadcast_spec (env : RegistryEnv) (r : Registry) (k : COutPoint)
    (self mnb : CMasternode) (hwf : env.toCheckEnv.WellFormed) (hself : r k = some self) :
    (¬ mnb.sigTime > self.sigTime →
      CMasternode.UpdateFromNewBroadcast env r k mnb = some (false, r)) ∧
    (mnb.sigTime > self.sigTime →
      ∃ r' self', CMasternode.UpdateFromNewBroadcast env r k mnb = some (true, r') ∧
        r' k = some self' ∧ self'.HoldsFieldsOf mnb) := by
  constructor
  · intro h
    simp [CMasternode.UpdateFromNewBroadcast, hself, h]
  · intro h
    obtain ⟨isX, hX⟩ := gate_answers env.toCheckEnv hwf Consensus.UPGRADE_XANDAR (le_refl _)
    generalize hP : (fun o : Option (Bool × Registry) =>
      ∃ r' self', o = some (true, r') ∧ r' k = some self' ∧ self'.HoldsFieldsOf mnb) = P
    suffices hgoal : P (CMasternode.UpdateFromNewBroadcast env r k mnb) by
      rw [← hP] at hgoal; exact hgoal
    have base : ∀ r' self', r' k = some self' → self'.HoldsFieldsOf mnb → P (some (true, r')) := by
      intro r' self' h1 h2; rw [← hP]; exact ⟨r', self', rfl, h1, h2⟩
    simp only [CMasternode.UpdateFromNewBroadcast, hself, h, if_true, hX]
    -- the entry after the fields are overwritten
    generalize hs2 : (if (isX && _) = true then _ else _ : CMasternode) = self2
    have hf2 : self2.HoldsFieldsOf mnb := by
      rw [← hs2]
      split <;> exact ⟨rfl, rfl, rfl, rfl, rfl, rfl⟩
    apply prop_ite P
    · exact base _ _ (Registry_set_same _ _ _) hf2
    · obtain ⟨ok, d, r3, hping, hr3⟩ :=
        PingCheck_shape env (r.set k self2) mnb.lastPing 0 false false hwf
      rw [hping]
      have h3 : ∃ self3, r3 k = some self3 ∧ self3.HoldsFieldsOf mnb := by
        rcases hr3 with hr3 | ⟨mn, st, t, hmn, hr3⟩
        · rw [hr3]; exact ⟨self2, Registry_set_same _ _ _, hf2⟩
        · rw [hr3]
          by_cases hk : k = mnb.lastPing.vin.prevout
          · subst hk
            rw [Registry_set_same] at hmn
            cases hmn
            exact ⟨_, Registry_set_same _ _ _, hf2⟩
          · refine ⟨self2, ?_, hf2⟩
            simp [Registry.set, hk]
      obtain ⟨self3, hs3, hf3⟩ := h3
      cases ok with
      | false => exact base _ _ hs3 hf3
      | true =>
        simp only [hs3]
        exact base _ _ (Registry_set_same _ _ _) hf3

/-- A broadcast for a known entry that is not newer than the stored one is refused by
`CheckAndUpdate`, which leaves the registry as it is. -/
theorem BroadcastCheck_not_newer (env : RegistryEnv) (r : Registry) (mnb pmn : CMasternode)
    (nDos : Int) (hwf : env.toCheckEnv.WellFormed)
    (hfind : CMasternodeMan.Find r mnb.vin = some pmn) (hle : mnb.sigTime ≤ pmn.sigTime) :
    ∃ d, CMasternodeBroadcast.CheckAndUpdate env r mnb nDos = some (false, d, r) := by
  obtain ⟨isM, hM⟩ := gate_answers env.toCheckEnv hwf Consensus.UPGRADE_MORAG (by decide)
  obtain ⟨ok, d, hping⟩ := PingCheck_sigTimeOnly env r pmn.lastPing nDos false
  have hge : pmn.sigTime ≥ mnb.sigTime := hle
  generalize hP : (fun o : Option (Bool × Int × Registry) => ∃ d, o = some (false, d, r)) = P
  have base : ∀ d, P (some (false, d, r)) := by
    intro d; rw [← hP]; exact ⟨d, rfl⟩
  suffices hgoal : P (CMasternodeBroadcast.CheckAndUpdate env r mnb nDos) by
    rw [← hP] at hgoal; exact hgoal
  cases isM <;> cases hn : pmn.lastPing.IsNull <;> cases he : pmn.IsEnabled <;> cases ok <;>
    simp only [CMasternodeBroadcast.CheckAndUpdate, hfind, hM, hping, hn, he, hge, if_true,
      Bool.false_eq_true, if_false, Bool.not_true, Bool.not_false, Bool.and_true,
      Bool.and_false, Bool.and_self] <;>
    repeat' (first | exact base _ | apply prop_ite P)

/-- The timestamp test of the ping check: a ping signed more than an hour ahead of the
clock, or an hour or more behind it, is refused with `nDos = 30`. -/
theorem PingCheck_timestamp (env : RegistryEnv) (r : Registry) (ping : CMasternodePing)
    (nDos : Int) (fRequireEnabled fCheckSigTimeOnly : Bool)
    (h : ping.sigTime > env.GetAdjustedTime + 3600 ∨ ping.sigTime ≤ env.GetAdjustedTime - 3600) :
    CMasternodePing.CheckAndUpdate env r ping nDos fRequireEnabled fCheckSigTimeOnly =
      some (false, 30, r) := by
  rcases h with h | h
  · simp [CMasternodePing.CheckAndUpdate, h]
  · have h' : ¬ ping.sigTime > env.GetAdjustedTime + 60 * 60 := by omega
    have h'' : ping.sigTime ≤ env.GetAdjustedTime - 60 * 60 := by omega
    simp only [CMasternodePing.CheckAndUpdate, h', h'', if_true, if_false]

/-! ## Pings and broadcasts: claims -/

/-- C12: for every stored entry and every broadcast `mnb`, `UpdateFromNewBroadcast`
returns true iff `mnb.sigTime` is strictly greater than the entry's; when it returns false
the registry, hence every field of the entry, is unchanged; when it returns true the
entry's signature time, both public keys, signature, protocol version and address are those
of `mnb`. And `CMasternodeBroadcast::CheckAndUpdate` returns false, changing nothing, for a
broadcast whose `sigTime` is at most that of the stored entry of its collateral. -/
theorem UpdateFromNewBroadcast_iff_strictly_newer (env : RegistryEnv) (r : Registry)
    (k : COutPoint) (self mnb : CMasternode) (hwf : env.toCheckEnv.WellFormed)
    (hself : r k = some self) :
    (∃ ok r', CMasternode.UpdateFromNewBroadcast env r k mnb = some (ok, r') ∧
      (ok = true ↔ mnb.sigTime > self.sigTime) ∧
      (ok = false → r' = r) ∧
      (ok = true → ∃ self', r' k = some self' ∧ self'.HoldsFieldsOf mnb)) ∧
    (∀ pmn nDos, CMasternodeMan.Find r mnb.vin = some pmn → mnb.sigTime ≤ pmn.sigTime →
      ∃ d, CMasternodeBroadcast.CheckAndUpdate env r mnb nDos = some (false, d, r)) := by
  obtain ⟨hold, hnew⟩ := UpdateFromNewBroadcast_spec env r k self mnb hwf hself
  constructor
  · by_cases h : mnb.sigTime > self.sigTime
    · obtain ⟨r', self', h1, h2, h3⟩ := hnew h
      exact ⟨true, r', h1, by simp [h], by simp, fun _ => ⟨self', h2, h3⟩⟩
    · exact ⟨false, r, hold h, by simp [h], fun _ => rfl, by simp⟩
  · intro pmn nDos hfind hle
    exact BroadcastCheck_not_newer env r mnb pmn nDos hwf hfind hle

/-- Witness of C12: the example entry (signed at 0) and a broadcast signed at 999800. -/
theorem UpdateFromNewBroadcast_iff_strictly_newer_witness :
    (∃ ok r', CMasternode.UpdateFromNewBroadcast (sampleRegistryEnv Network.MAIN 1000000)
        (sampleRegistry MasternodeState.MASTERNODE_ENABLED 0 999900) ⟨77, 1⟩
        (sampleBroadcast 999800 999950 16113) = some (ok, r') ∧
      (ok = true ↔ (sampleBroadcast 999800 999950 16113).sigTime >
        (sampleEntry MasternodeState.MASTERNODE_ENABLED 0 999900).sigTime) ∧
      (ok = false → r' = sampleRegistry MasternodeState.MASTERNODE_ENABLED 0 999900) ∧
      (ok = true → ∃ self', r' ⟨77, 1⟩ = some self' ∧
        self'.HoldsFieldsOf (sampleBroadcast 999800 999950 16113))) ∧
    (∀ pmn nDos, CMasternodeMan.Find (sampleRegistry MasternodeState.MASTERNODE_ENABLED 0 999900)
        (sampleBroadcast 999800 999950 16113).vin = some pmn →
      (sampleBroadcast 999800 999950 16113).sigTime ≤ pmn.sigTime →
      ∃ d, CMasternodeBroadcast.CheckAndUpdate (sampleRegistryEnv Network.MAIN 1000000)
        (sampleRegistry MasternodeState.MASTERNODE_ENABLED 0 999900)
        (sampleBroadcast 999800 999950 16113) nDos =
          some (false, d, sampleRegistry MasternodeState.MASTERNODE_ENABLED 0 999900)) :=
  UpdateFromNewBroadcast_iff_strictly_newer (sampleRegistryEnv Network.MAIN 1000000)
    (sampleRegistry MasternodeState.MASTERNODE_ENABLED 0 999900) ⟨77, 1⟩
    (sampleEntry MasternodeState.MASTERNODE_ENABLED 0 999900)
    (sampleBroadcast 999800 999950 16113) (by decide) (by decide)

/-- C13 fails as stated: the stored entry is signed at 0 and ENABLED, the clock is at
1000000, `b1` is signed at 999800 and `b2` at 999900 (another address, same collateral
and key). Through `CheckAndUpdate`, `b1` then `b2` leaves the entry with the fields of `b1`
(`b2` arrives within `MASTERNODE_MIN_MNB_SECONDS` of `b1`'s signature time and is not
applied), whereas `b2` then `b1` leaves it with the fields of `b2`. -/
theorem CheckAndUpdate_order_dependent :
    ((processBroadcasts (sampleRegistryEnv Network.MAIN 1000000)
        (sampleRegistry MasternodeState.MASTERNODE_ENABLED 0 999900)
        [sampleBroadcast 999800 999950 16113, sampleBroadcast 999900 999950 81649]).bind
      (fun r => r ⟨77, 1⟩)).map (fun mn => (mn.sigTime, mn.addr)) = some (999800, 16113) ∧
    ((processBroadcasts (sampleRegistryEnv Network.MAIN 1000000)
        (sampleRegistry MasternodeState.MASTERNODE_ENABLED 0 999900)
        [sampleBroadcast 999900 999950 81649, sampleBroadcast 999800 999950 16113]).bind
      (fun r => r ⟨77, 1⟩)).map (fun mn => (mn.sigTime, mn.addr)) = some (999900, 81649) := by
  decide

/-- C13 as amended: for every existing entry with stored timestamp `t0` and every two
broadcasts `b1`, `b2` with `t0 < t1 < t2`, applying `b1` then `b2` and applying `b2` then
`b1` through `UpdateFromNewBroadcast` both leave the entry holding the fields of `b2`; in
the second order `b1` is refused and changes nothing. -/
theorem UpdateFromNewBroadcast_last_writer_wins (env1 env2 : RegistryEnv) (r : Registry)
    (k : COutPoint) (self b1 b2 : CMasternode) (hwf1 : env1.toCheckEnv.WellFormed)
    (hwf2 : env2.toCheckEnv.WellFormed) (hself : r k = some self)
    (h01 : self.sigTime < b1.sigTime) (h12 : b1.sigTime < b2.sigTime) :
    (∃ r1 r2 e, CMasternode.UpdateFromNewBroadcast env1 r k b1 = some (true, r1) ∧
      CMasternode.UpdateFromNewBroadcast env2 r1 k b2 = some (true, r2) ∧
      r2 k = some e ∧ e.HoldsFieldsOf b2) ∧
    (∃ r1 e, CMasternode.UpdateFromNewBroadcast env1 r k b2 = some (true, r1) ∧
      CMasternode.UpdateFromNewBroadcast env2 r1 k b1 = some (false, r1) ∧
      r1 k = some e ∧ e.HoldsFieldsOf b2) := by
  constructor
  · obtain ⟨r1, e1, hu1, he1, hf1⟩ :=
      (UpdateFromNewBroadcast_spec env1 r k self b1 hwf1 hself).2 h01
    have hlt : b2.sigTime > e1.sigTime := by rw [hf1.1]; exact h12
    obtain ⟨r2, e2, hu2, he2, hf2⟩ :=
      (UpdateFromNewBroadcast_spec env2 r1 k e1 b2 hwf2 he1).2 hlt
    exact ⟨r1, r2, e2, hu1, hu2, he2, hf2⟩
  · obtain ⟨r1, e1, hu1, he1, hf1⟩ :=
      (UpdateFromNewBroadcast_spec env1 r k self b2 hwf1 hself).2 (lt_trans h01 h12)
    have hnot : ¬ b1.sigTime > e1.sigTime := by rw [hf1.1]; omega
    exact ⟨r1, e1, hu1, (UpdateFromNewBroadcast_spec env2 r1 k e1 b1 hwf2 he1).1 hnot, he1, hf1⟩

/-- Witness of the amended C13 on the example entry and the two example broadcasts. -/
theorem UpdateFromNewBroadcast_last_writer_wins_witness :
    (∃ r1 r2 e, CMasternode.UpdateFromNewBroadcast (sampleRegistryEnv Network.MAIN 1000000)
        (sampleRegistry MasternodeState.MASTERNODE_ENABLED 0 999900) ⟨77, 1⟩
        (sampleBroadcast 999800 999950 16113) = some (true, r1) ∧
      CMasternode.UpdateFromNewBroadcast (sampleRegistryEnv Network.MAIN 1000000) r1 ⟨77, 1⟩
        (sampleBroadcast 999900 999950 81649) = some (true, r2) ∧
      r2 ⟨77, 1⟩ = some e ∧ e.HoldsFieldsOf (sampleBroadcast 999900 999950 81649)) ∧
    (∃ r1 e, CMasternode.UpdateFromNewBroadcast (sampleRegistryEnv Network.MAIN 1000000)
        (sampleRegistry MasternodeState.MASTERNODE_ENABLED 0 999900) ⟨77, 1⟩
        (sampleBroadcast 999900 999950 81649) = some (true, r1) ∧
      CMasternode.UpdateFromNewBroadcast (sampleRegistryEnv Network.MAIN 1000000) r1 ⟨77, 1⟩
        (sampleBroadcast 999800 999950 16113) = some (false, r1) ∧
      r1 ⟨77, 1⟩ = some e ∧ e.HoldsFieldsOf (sampleBroadcast 999900 999950 81649)) :=
  UpdateFromNewBroadcast_last_writer_wins (sampleRegistryEnv Network.MAIN 1000000)
    (sampleRegistryEnv Network.MAIN 1000000)
    (sampleRegistry MasternodeState.MASTERNODE_ENABLED 0 999900) ⟨77, 1⟩
    (sampleEntry MasternodeState.MASTERNODE_ENABLED 0 999900)
    (sampleBroadcast 999800 999950 16113) (sampleBroadcast 999900 999950 81649)
    (by decide) (by decide) (by decide) (by decide) (by decide)

/-- C14, the failing input: with the clock at 1000000, a ping signed exactly 3600 s in the
past is refused by the timestamp test (`false` with `nDos = 30`), while a ping signed
exactly 3600 s in the future, or 3599 s in the past, passes it. -/
theorem PingCheck_rejects_exactly_one_hour_old :
    (CMasternodePing.CheckAndUpdate (sampleRegistryEnv Network.MAIN 1000000)
        (sampleRegistry MasternodeState.MASTERNODE_ENABLED 0 0)
        (samplePing (1000000 - 3600)) 0 true false).map (fun x => (x.1, x.2.1)) =
      some (false, 30) ∧
    (CMasternodePing.CheckAndUpdate (sampleRegistryEnv Network.MAIN 1000000)
        (sampleRegistry MasternodeState.MASTERNODE_ENABLED 0 0)
        (samplePing (1000000 + 3600)) 0 true false).map (fun x => (x.1, x.2.1)) =
      some (true, 0) ∧
    (CMasternodePing.CheckAndUpdate (sampleRegistryEnv Network.MAIN 1000000)
        (sampleRegistry MasternodeState.MASTERNODE_ENABLED 0 0)
        (samplePing (1000000 - 3599)) 0 true false).map (fun x => (x.1, x.2.1)) =
      some (true, 0) := by
  decide

/-- C15 fails as stated: on the test network a broadcast announcing port 12345, which is
not the default port 26113 and which `CheckDefaultPort` refuses, is accepted by
`CheckAndUpdate`. -/
theorem CheckAndUpdate_accepts_other_port_on_testnet :
    CService.GetPort (sampleBroadcast 999800 999950 12345).addr = 12345 ∧
    GetDefaultPort Network.TESTNET = 26113 ∧
    CMasternodeBroadcast.CheckDefaultPort Network.TESTNET
      (sampleBroadcast 999800 999950 12345).addr = false ∧
    (CMasternodeBroadcast.CheckAndUpdate (sampleRegistryEnv Network.TESTNET 1000000)
        Registry.empty (sampleBroadcast 999800 999950 12345) 0).map (fun x => x.1) =
      some true := by
  decide

/-- C15 as amended: on the main network `CheckAndUpdate` returns false for every broadcast
whose address port differs from the default port 16113; on the test and regtest networks
it returns false for every broadcast whose address port is 16113. -/
theorem CheckAndUpdate_port_rule (env : RegistryEnv) (r : Registry) (mnb : CMasternode)
    (nDos : Int)
    (h : (env.NetworkIdFromCommandLine = Network.MAIN ∧
          CService.GetPort mnb.addr ≠ GetDefaultPort Network.MAIN) ∨
        (env.NetworkIdFromCommandLine ≠ Network.MAIN ∧ CService.GetPort mnb.addr = 16113)) :
    ∃ d, CMasternodeBroadcast.CheckAndUpdate env r mnb nDos = some (false, d, r) := by
  have hport : CMasternodeBroadcast.portRefused env.NetworkIdFromCommandLine mnb.addr = true := by
    rcases h with ⟨h1, h2⟩ | ⟨h1, h2⟩
    · simpa [CMasternodeBroadcast.portRefused, h1, GetDefaultPort] using h2
    · simp [CMasternodeBroadcast.portRefused, h1, h2]
  generalize hP : (fun o : Option (Bool × Int × Registry) => ∃ d, o = some (false, d, r)) = P
  have base : ∀ d, P (some (false, d, r)) := by
    intro d; rw [← hP]; exact ⟨d, rfl⟩
  suffices hgoal : P (CMasternodeBroadcast.CheckAndUpdate env r mnb nDos) by
    rw [← hP] at hgoal; exact hgoal
  simp only [CMasternodeBroadcast.CheckAndUpdate, hport, if_true]
  repeat' (first | exact base _ | apply prop_ite P)

/-- Witness of the amended C15: port 12345 on the main network. -/
theorem CheckAndUpdate_port_rule_witness :
    ∃ d, CMasternodeBroadcast.CheckAndUpdate (sampleRegistryEnv Network.MAIN 1000000)
      Registry.empty (sampleBroadcast 999800 999950 12345) 0 = some (false, d, Registry.empty) :=
  CheckAndUpdate_port_rule (sampleRegistryEnv Network.MAIN 1000000) Registry.empty
    (sampleBroadcast 999800 999950 12345) 0 (by decide)

/-! ## Payment votes: lemmas -/

/-- For a count `n ≥ 0`, `int(n * 1.25)` is the floor of `1.25 n`. -/
theorem timesOneAndQuarter_eq_floor (n : Int) (hn : 0 ≤ n) :
    timesOneAndQuarter n = 5 * n / 4 := by
  unfold timesOneAndQuarter
  exact Int.tdiv_eq_ediv (by omega) (by decide)

/-- A vote whose voter already has a recorded vote for the same height may not vote. -/
theorem CanVote_false_of_recorded (L : CMasternodePayments) (w : CMasternodePaymentWinner)
    (h : ∃ kv ∈ L.mapMasternodePayeeVotes,
      kv.2.vinMasternode.prevout = w.vinMasternode.prevout ∧ kv.2.nBlockHeight = w.nBlockHeight) :
    L.CanVote w.vinMasternode.prevout w.nBlockHeight = false := by
  obtain ⟨kv, hmem, h1, h2⟩ := h
  simp only [CMasternodePayments.CanVote, Bool.not_eq_false', List.any_eq_true]
  exact ⟨kv, hmem, by simp [h1, h2]⟩

/-- A vote whose voter already has a recorded vote for the same height is dropped by the
`mnw` handling. -/
theorem mnw_dropped_of_recorded (Hash : List Nat → Nat) (env : VoteEnv)
    (L : CMasternodePayments) (cache : BlockHashCache) (w : CMasternodePaymentWinner)
    (h : ∃ kv ∈ L.mapMasternodePayeeVotes,
      kv.2.vinMasternode.prevout = w.vinMasternode.prevout ∧ kv.2.nBlockHeight = w.nBlockHeight) :
    CMasternodePayments.ProcessMessage_mnw Hash env L cache w = (L, cache) := by
  have hcv := CanVote_false_of_recorded L w h
  generalize hP : (fun o : CMasternodePayments × BlockHashCache => o = (L, cache)) = P
  have base : P (L, cache) := by rw [← hP]
  suffices hgoal : P (CMasternodePayments.ProcessMessage_mnw Hash env L cache w) by
    rw [← hP] at hgoal; exact hgoal
  cases hchain : env.chain with
  | nil =>
    simp only [CMasternodePayments.ProcessMessage_mnw, hchain]
    repeat' (first | exact base | apply prop_ite P)
  | cons tip rest =>
    simp only [CMasternodePayments.ProcessMessage_mnw, hchain, hcv, Bool.not_false, if_true]
    repeat' (first | exact base | apply prop_ite P)

/-! ## Payment votes: claims -/

/-- C16: when a vote is received with tip height `H` and `n ≥ 0` enabled masternodes, and
its target height is below `H - floor(1.25 n)` or above `H + 20`, the vote map, the tallies
(and the block-hash cache) are left unchanged, whatever the verdicts of the validity and
signature checks. -/
theorem mnw_out_of_range_dropped (Hash : List Nat → Nat) (env : VoteEnv)
    (L : CMasternodePayments) (cache : BlockHashCache) (winner : CMasternodePaymentWinner)
    (tip : CBlockIndex) (rest : List CBlockIndex) (hchain : env.chain = tip :: rest)
    (hn : 0 ≤ env.CountEnabled)
    (hrange : winner.nBlockHeight < tip.nHeight - 5 * env.CountEnabled / 4 ∨
      winner.nBlockHeight > tip.nHeight + 20) :
    CMasternodePayments.ProcessMessage_mnw Hash env L cache winner = (L, cache) := by
  have hrange' : winner.nBlockHeight < tip.nHeight - timesOneAndQuarter env.CountEnabled ∨
      winner.nBlockHeight > tip.nHeight + 20 := by
    rw [timesOneAndQuarter_eq_floor _ hn]; exact hrange
  generalize hP : (fun o : CMasternodePayments × BlockHashCache => o = (L, cache)) = P
  have base : P (L, cache) := by rw [← hP]
  suffices hgoal : P (CMasternodePayments.ProcessMessage_mnw Hash env L cache winner) by
    rw [← hP] at hgoal; exact hgoal
  simp only [CMasternodePayments.ProcessMessage_mnw, hchain, hrange', if_true]
  repeat' (first | exact base | apply prop_ite P)

/-- Witness of C16: tip height 3, eight enabled masternodes, a validly signed vote for
height 24 = 3 + 21. -/
theorem mnw_out_of_range_dropped_witness :
    CMasternodePayments.ProcessMessage_mnw sampleHash sampleVoteEnv CMasternodePayments.empty
        BlockHashCache.empty (sampleVote 24 900) =
      (CMasternodePayments.empty, BlockHashCache.empty) :=
  mnw_out_of_range_dropped sampleHash sampleVoteEnv CMasternodePayments.empty
    BlockHashCache.empty (sampleVote 24 900) ⟨3, 1003⟩ [⟨2, 1002⟩, ⟨1, 1001⟩, ⟨0, 1000⟩]
    (by decide) (by decide) (by decide)

/-- C17 fails as stated: two votes of the same voter for height 5 naming the payees 900
and 901, submitted through `AddWinningMasternode`, are both accepted, both recorded, and
both counted in the tally of height 5. -/
theorem AddWinningMasternode_records_second_vote :
    (sampleVote 5 900).vinMasternode = (sampleVote 5 901).vinMasternode ∧
    (CMasternodePayments.AddWinningMasternode sampleHash chainA CMasternodePayments.empty
        BlockHashCache.empty (sampleVote 5 900)).1 = true ∧
    (CMasternodePayments.AddWinningMasternode sampleHash chainA
        (CMasternodePayments.AddWinningMasternode sampleHash chainA CMasternodePayments.empty
          BlockHashCache.empty (sampleVote 5 900)).2.1
        (CMasternodePayments.AddWinningMasternode sampleHash chainA CMasternodePayments.empty
          BlockHashCache.empty (sampleVote 5 900)).2.2 (sampleVote 5 901)).1 = true ∧
    (addVotes sampleHash chainA (CMasternodePayments.empty, BlockHashCache.empty)
        [sampleVote 5 900, sampleVote 5 901]).1.votesAt 5 =
      [sampleVote 5 901, sampleVote 5 900] ∧
    ((addVotes sampleHash chainA (CMasternodePayments.empty, BlockHashCache.empty)
        [sampleVote 5 900, sampleVote 5 901]).1.mapMasternodeBlocks 5).map
      (fun b => b.vecPayments) = some [⟨900, 1⟩, ⟨901, 1⟩] := by
  decide

/-- C17 as amended: for every voter and height, when a vote of that voter for that height
has been handled on the `mnw` path and is recorded, a second vote of the same voter for the
same height received on the `mnw` path is dropped and leaves the vote map and the tallies
unchanged. -/
theorem mnw_second_vote_dropped (Hash : List Nat → Nat) (env1 env2 : VoteEnv)
    (L : CMasternodePayments) (cache : BlockHashCache) (w1 w2 : CMasternodePaymentWinner)
    (hvoter : w1.vinMasternode.prevout = w2.vinMasternode.prevout)
    (hheight : w1.nBlockHeight = w2.nBlockHeight)
    (hrec : (w1.GetHash Hash, w1) ∈
      (CMasternodePayments.ProcessMessage_mnw Hash env1 L cache w1).1.mapMasternodePayeeVotes) :
    CMasternodePayments.ProcessMessage_mnw Hash env2
        (CMasternodePayments.ProcessMessage_mnw Hash env1 L cache w1).1
        (CMasternodePayments.ProcessMessage_mnw Hash env1 L cache w1).2 w2 =
      CMasternodePayments.ProcessMessage_mnw Hash env1 L cache w1 :=
  mnw_dropped_of_recorded Hash env2 _ _ w2 ⟨_, hrec, hvoter, hheight⟩

/-- Witness of the amended C17: the votes for the payees 900 and 901 at height 5. -/
theorem mnw_second_vote_dropped_witness :
    CMasternodePayments.ProcessMessage_mnw sampleHash sampleVoteEnv
        (CMasternodePayments.ProcessMessage_mnw sampleHash sampleVoteEnv
          CMasternodePayments.empty BlockHashCache.empty (sampleVote 5 900)).1
        (CMasternodePayments.ProcessMessage_mnw sampleHash sampleVoteEnv
          CMasternodePayments.empty BlockHashCache.empty (sampleVote 5 900)).2
        (sampleVote 5 901) =
      CMasternodePayments.ProcessMessage_mnw sampleHash sampleVoteEnv
        CMasternodePayments.empty BlockHashCache.empty (sampleVote 5 900) :=
  mnw_second_vote_dropped sampleHash sampleVoteEnv sampleVoteEnv CMasternodePayments.empty
    BlockHashCache.empty (sampleVote 5 900) (sampleVote 5 901) (by decide) (by decide)
    (by decide)

/-! ## The ledger: lemmas -/

/-- Adding a payee raises the sum of the vote counts by the increment. -/
theorem AddPayee_loop_sum (payeeIn : Nat) (nIncrement : Int) (vec : List CMasternodePayee) :
    ((AddPayee.loop payeeIn nIncrement vec).map (fun p => p.nVotes)).sum =
      (vec.map (fun p => p.nVotes)).sum + nIncrement := by
  induction vec with
  | nil => simp [AddPayee.loop]
  | cons p rest ih =>
    by_cases h : p.scriptPubKey = payeeIn
    · simp [AddPayee.loop, h]; ring
    · simp [AddPayee.loop, h, ih]; ring

/-- The two outcomes of `AddWinningMasternode`: the vote is refused and the ledger is
unchanged, or its identity hash was not recorded, the block hash was found, and the ledger
has the vote in front and the tally of its height with the payee added to the former
candidates `vec0` (none when there was no tally). -/
theorem AddWinningMasternode_cases (Hash : List Nat → Nat) (chain : List CBlockIndex)
    (L : CMasternodePayments) (cache : BlockHashCache) (w : CMasternodePaymentWinner) :
    ((L.AddWinningMasternode Hash chain cache w).1 = false ∧
      (L.AddWinningMasternode Hash chain cache w).2.1 = L) ∨
    (∃ b0 : CMasternodeBlockPayees,
      ((L.mapMasternodeBlocks w.nBlockHeight = none ∧ b0 = ⟨w.nBlockHeight, []⟩) ∨
        L.mapMasternodeBlocks w.nBlockHeight = some b0) ∧
      (L.AddWinningMasternode Hash chain cache w).1 = true ∧
      L.hasVote (w.GetHash Hash) = false ∧
      (GetBlockHash chain cache (w.nBlockHeight - 100)).1.isSome = true ∧
      (L.AddWinningMasternode Hash chain cache w).2.1 =
        { mapMasternodePayeeVotes := (w.GetHash Hash, w) :: L.mapMasternodePayeeVotes,
          mapMasternodeBlocks := fun h =>
            if h = w.nBlockHeight then
              some ⟨b0.nBlockHeight, AddPayee.loop w.payee 1 b0.vecPayments⟩
            else L.mapMasternodeBlocks h }) := by
  unfold CMasternodePayments.AddWinningMasternode
  cases hget : GetBlockHash chain cache (w.nBlockHeight - 100) with
  | mk res cache' =>
    cases res with
    | none => exact Or.inl ⟨rfl, rfl⟩
    | some hash =>
      cases hv : L.hasVote (w.GetHash Hash) with
      | true => exact Or.inl ⟨by simp, by simp⟩
      | false =>
        right
        cases hb : L.mapMasternodeBlocks w.nBlockHeight with
        | none =>
          exact ⟨⟨w.nBlockHeight, []⟩, Or.inl ⟨rfl, rfl⟩, by simp, rfl, rfl,
            by simp [CMasternodeBlockPayees.AddPayee]⟩
        | some b =>
          exact ⟨b, Or.inr rfl, by simp, rfl, rfl, by simp [CMasternodeBlockPayees.AddPayee]⟩

/-- Adding a vote keeps the ledger balanced. -/
theorem AddWinningMasternode_balanced (Hash : List Nat → Nat) (chain : List CBlockIndex)
    (L : CMasternodePayments) (cache : BlockHashCache) (w : CMasternodePaymentWinner)
    (hL : LedgerBalanced L) :
    LedgerBalanced (L.AddWinningMasternode Hash chain cache w).2.1 := by
  rcases AddWinningMasternode_cases Hash chain L cache w with ⟨_, h⟩ | ⟨b0, hb0, _, _, _, h⟩
  · rw [h]; exact hL
  · rw [h]
    intro h'
    have hold := hL h'
    unfold CMasternodePayments.tallySum CMasternodePayments.votesAt at hold ⊢
    by_cases hh : h' = w.nBlockHeight
    · subst hh
      have hsum0 : (b0.vecPayments.map (fun p => p.nVotes)).sum =
          ((List.filter (fun w' => decide (w'.nBlockHeight = w.nBlockHeight))
            (List.map (fun kv => kv.2) L.mapMasternodePayeeVotes)).length : Int) := by
        rcases hb0 with ⟨hn, hb⟩ | hs
        · rw [hn] at hold; rw [hb]; simpa using hold
        · rw [hs] at hold; exact hold
      simp only [if_true, AddPayee_loop_sum, List.map_cons, List.filter_cons, decide_True,
        List.length_cons, hsum0]
      push_cast; ring
    · have hh' : ¬ w.nBlockHeight = h' := fun hc => hh hc.symm
      simp only [hh, if_false, List.map_cons, List.filter_cons, hh', decide_False]
      exact hold

/-- The loop of `CleanPaymentList` keeps exactly the votes that are not older than the
limit. -/
theorem CleanPaymentList_loop_votes (nHeight nLimit : Int) :
    ∀ (votes : List (Nat × CMasternodePaymentWinner))
      (blocks : Int → Option CMasternodeBlockPayees),
      (CleanPaymentList.loop nHeight nLimit votes blocks).1 =
        votes.filter (fun kv => !decide (nHeight - kv.2.nBlockHeight > nLimit)) := by
  intro votes
  induction votes with
  | nil => intro blocks; rfl
  | cons kv rest ih =>
    intro blocks
    obtain ⟨hash, winner⟩ := kv
    by_cases hold : nHeight - winner.nBlockHeight > nLimit
    · simp only [CleanPaymentList.loop, hold, if_true, ih, List.filter_cons, decide_True,
        Bool.not_true, Bool.false_eq_true, if_false]
    · simp only [CleanPaymentList.loop, hold, if_false, ih, List.filter_cons, decide_False,
        Bool.not_false, if_true]

/-- The loop of `CleanPaymentList` erases exactly the tallies of the heights of the votes
it removes. -/
theorem CleanPaymentList_loop_blocks (nHeight nLimit : Int) :
    ∀ (votes : List (Nat × CMasternodePaymentWinner))
      (blocks : Int → Option CMasternodeBlockPayees) (h : Int),
      (CleanPaymentList.loop nHeight nLimit votes blocks).2 h =
        if nHeight - h > nLimit ∧ ∃ kv ∈ votes, kv.2.nBlockHeight = h then none
        else blocks h := by
  intro votes
  induction votes with
  | nil =>
    intro blocks h
    simp only [CleanPaymentList.loop, List.not_mem_nil, false_and, exists_false, and_false,
      if_false]
  | cons kv rest ih =>
    intro blocks h
    obtain ⟨hash, winner⟩ := kv
    simp only [List.mem_cons, exists_eq_or_imp]
    by_cases hold : nHeight - winner.nBlockHeight > nLimit
    · simp only [CleanPaymentList.loop, hold, if_true, ih]
      by_cases hh : h = winner.nBlockHeight
      · subst hh
        simp only [if_true, ite_self, hold, true_or, and_self]
      · have hh' : ¬ winner.nBlockHeight = h := fun hc => hh hc.symm
        simp only [hh, if_false, hh', false_or]
    · simp only [CleanPaymentList.loop, hold, if_false, ih]
      by_cases hh : h = winner.nBlockHeight
      · subst hh
        simp only [hold, false_and, if_false]
      · have hh' : ¬ winner.nBlockHeight = h := fun hc => hh hc.symm
        simp only [hh', false_or]

/-- Cleaning keeps the ledger balanced. -/
theorem CleanPaymentList_balanced (lockMain : Bool) (chain : List CBlockIndex)
    (mnodemanSize : Int) (L : CMasternodePayments) (hL : LedgerBalanced L) :
    LedgerBalanced (L.CleanPaymentList lockMain chain mnodemanSize) := by
  unfold CMasternodePayments.CleanPaymentList
  cases lockMain with
  | false => exact hL
  | true =>
    cases chain with
    | nil => exact hL
    | cons tip rest =>
      simp only [Bool.not_true, Bool.false_eq_true, if_false]
      intro h
      have hold := hL h
      unfold CMasternodePayments.tallySum CMasternodePayments.votesAt at hold ⊢
      simp only [CleanPaymentList_loop_votes, CleanPaymentList_loop_blocks]
      generalize max (timesOneAndQuarter mnodemanSize) 1000 = nLimit
      by_cases hage : tip.nHeight - h > nLimit
      · -- every vote for `h` is removed
        have hfilter : List.filter (fun w => decide (w.nBlockHeight = h))
            (List.map (fun kv => kv.2)
              (List.filter (fun kv => !decide (tip.nHeight - kv.2.nBlockHeight > nLimit))
                L.mapMasternodePayeeVotes)) = [] := by
          rw [List.filter_eq_nil_iff]
          intro w hw
          rw [List.mem_map] at hw
          obtain ⟨kv, hkv, rfl⟩ := hw
          rw [List.mem_filter] at hkv
          obtain ⟨_, hk⟩ := hkv
          intro hc
          rw [decide_eq_true_eq] at hc
          rw [hc] at hk
          simp only [hage, decide_True, Bool.not_true, Bool.false_eq_true] at hk
        rw [hfilter]
        by_cases hex : ∃ kv ∈ L.mapMasternodePayeeVotes, kv.2.nBlockHeight = h
        · simp only [hage, hex, and_self, if_true, List.length_nil, Nat.cast_zero]
        · have hnone : List.filter (fun w => decide (w.nBlockHeight = h))
              (List.map (fun kv => kv.2) L.mapMasternodePayeeVotes) = [] := by
            rw [List.filter_eq_nil_iff]
            intro w hw
            rw [List.mem_map] at hw
            obtain ⟨kv, hk, rfl⟩ := hw
            intro hc
            rw [decide_eq_true_eq] at hc
            exact hex ⟨kv, hk, hc⟩
          rw [hnone] at hold
          simp only [hage, hex, and_false, if_false]
          exact hold
      · have hsame : List.filter (fun w => decide (w.nBlockHeight = h))
            (List.map (fun kv => kv.2)
              (List.filter (fun kv => !decide (tip.nHeight - kv.2.nBlockHeight > nLimit))
                L.mapMasternodePayeeVotes)) =
            List.filter (fun w => decide (w.nBlockHeight = h))
              (List.map (fun kv => kv.2) L.mapMasternodePayeeVotes) := by
          induction L.mapMasternodePayeeVotes with
          | nil => rfl
          | cons kv rest ih =>
            by_cases hk : kv.2.nBlockHeight = h
            · have hk2 : ¬ tip.nHeight - kv.2.nBlockHeight > nLimit := by rw [hk]; exact hage
              simp only [List.filter_cons, hk2, hage, decide_False, Bool.not_false, if_true,
                List.map_cons, hk, decide_True, ih]
            · by_cases hk2 : tip.nHeight - kv.2.nBlockHeight > nLimit
              · simp only [List.filter_cons, hk2, decide_True, Bool.not_true,
                  Bool.false_eq_true, if_false, List.map_cons, hk, decide_False, ih]
              · simp only [List.filter_cons, hk2, decide_False, Bool.not_false, if_true,
                  List.map_cons, hk, Bool.false_eq_true, if_false, ih]
        rw [hsame]
        simp only [hage, false_and, if_false]
        exact hold

/-- Every sequence of operations from the empty ledger leaves the ledger balanced. -/
theorem runLedgerOps_balanced (Hash : List Nat → Nat) (cache : BlockHashCache)
    (ops : List LedgerOp) : LedgerBalanced (runLedgerOps Hash cache ops).1 := by
  unfold runLedgerOps
  suffices h : ∀ (s : CMasternodePayments × BlockHashCache), LedgerBalanced s.1 →
      LedgerBalanced (ops.foldl (LedgerOp.apply Hash) s).1 by
    apply h
    intro h'
    rfl
  induction ops with
  | nil => intro s hs; exact hs
  | cons op rest ih =>
    intro s hs
    rw [List.foldl_cons]
    apply ih
    cases op with
    | add chain winner => exact AddWinningMasternode_balanced Hash chain s.1 s.2 winner hs
    | clean lockMain chain size => exact CleanPaymentList_balanced lockMain chain size s.1 hs

/-! ## The ledger: claims -/

/-- C18 fails as stated: after `AddWinningMasternode` of two votes of the same voter for
height 5 naming the payees 900 and 901, the vote counts of the tally of height 5 sum to 2
while one voter has a recorded vote for that height. -/
theorem tallySum_exceeds_distinct_voters :
    (runLedgerOps sampleHash BlockHashCache.empty
        [LedgerOp.add chainA (sampleVote 5 900), LedgerOp.add chainA (sampleVote 5 901)]).1.tallySum
      5 = 2 ∧
    (runLedgerOps sampleHash BlockHashCache.empty
        [LedgerOp.add chainA (sampleVote 5 900),
          LedgerOp.add chainA (sampleVote 5 901)]).1.distinctVoters 5 = 1 := by
  decide

/-- C18 as amended: after every sequence of `AddWinningMasternode` and `CleanPaymentList`
calls starting from the empty ledger, for every height, the sum of the vote counts of all
candidates in the tally of that height never exceeds the number of votes recorded for that
height. -/
theorem tallySum_le_recorded_votes (Hash : List Nat → Nat) (cache : BlockHashCache)
    (ops : List LedgerOp) (h : Int) :
    (runLedgerOps Hash cache ops).1.tallySum h ≤
      (((runLedgerOps Hash cache ops).1.votesAt h).length : Int) :=
  le_of_eq (runLedgerOps_balanced Hash cache ops h)

/-! ## Tallies and payout validation: lemmas -/

/-- The first loop of `IsTransactionValid` reaches the quorum iff its start value does or
some candidate has at least `MNPAYMENTS_SIGNATURES_REQUIRED` votes. -/
theorem nMaxSignatures_foldl (vec : List CMasternodePayee) :
    ∀ m : Int,
      (vec.foldl
        (fun nMaxSignatures payee =>
          if payee.nVotes ≥ nMaxSignatures ∧ payee.nVotes ≥ MNPAYMENTS_SIGNATURES_REQUIRED then
            payee.nVotes
          else nMaxSignatures) m ≥ MNPAYMENTS_SIGNATURES_REQUIRED) ↔
      (m ≥ MNPAYMENTS_SIGNATURES_REQUIRED ∨
        ∃ p ∈ vec, p.nVotes ≥ MNPAYMENTS_SIGNATURES_REQUIRED) := by
  induction vec with
  | nil => intro m; simp
  | cons p rest ih =>
    intro m
    rw [List.foldl_cons, ih]
    simp only [List.mem_cons, exists_eq_or_imp]
    by_cases hc : p.nVotes ≥ m ∧ p.nVotes ≥ MNPAYMENTS_SIGNATURES_REQUIRED
    · rw [if_pos hc]
      constructor
      · rintro (h | h)
        · exact Or.inr (Or.inl h)
        · exact Or.inr (Or.inr h)
      · rintro (h | h | h)
        · exact Or.inl hc.2
        · exact Or.inl h
        · exact Or.inr h
    · rw [if_neg hc]
      constructor
      · rintro (h | h)
        · exact Or.inl h
        · exact Or.inr (Or.inr h)
      · rintro (h | h | h)
        · exact Or.inl h
        · left
          by_contra hm
          exact hc ⟨by omega, h⟩
        · exact Or.inr h

/-- The quorum is missed iff no candidate has `MNPAYMENTS_SIGNATURES_REQUIRED` votes. -/
theorem nMaxSignatures_lt_iff (vec : List CMasternodePayee) :
    IsTransactionValid.nMaxSignatures vec < MNPAYMENTS_SIGNATURES_REQUIRED ↔
      ∀ p ∈ vec, p.nVotes < MNPAYMENTS_SIGNATURES_REQUIRED := by
  have h := nMaxSignatures_foldl vec 0
  unfold IsTransactionValid.nMaxSignatures
  constructor
  · intro hlt p hp
    by_contra hge
    have := h.mpr (Or.inr ⟨p, hp, by omega⟩)
    omega
  · intro hall
    by_contra hge
    rcases h.mp (by omega) with h0 | ⟨p, hp, hpv⟩
    · simp [MNPAYMENTS_SIGNATURES_REQUIRED] at h0
    · have := hall p hp
      omega

/-- The inner loop finds a payment iff some output pays the candidate's script at least
the required amount. -/
theorem found_iff (requiredMasternodePayment : Int) (txNew : CTransaction)
    (payee : CMasternodePayee) :
    IsTransactionValid.found requiredMasternodePayment txNew payee = true ↔
      ∃ out ∈ txNew.vout, payee.scriptPubKey = out.scriptPubKey ∧
        out.nValue ≥ requiredMasternodePayment := by
  unfold IsTransactionValid.found
  suffices h : ∀ (vout : List CTxOut) (acc : Bool),
      vout.foldl
        (fun found out =>
          if payee.scriptPubKey = out.scriptPubKey then
            if out.nValue ≥ requiredMasternodePayment then true else found
          else found) acc = true ↔
        (acc = true ∨ ∃ out ∈ vout, payee.scriptPubKey = out.scriptPubKey ∧
          out.nValue ≥ requiredMasternodePayment) by
    rw [h]; simp
  intro vout
  induction vout with
  | nil => intro acc; simp
  | cons out rest ih =>
    intro acc
    rw [List.foldl_cons, ih]
    simp only [List.mem_cons, exists_eq_or_imp]
    by_cases h1 : payee.scriptPubKey = out.scriptPubKey
    · by_cases h2 : out.nValue ≥ requiredMasternodePayment
      · simp [h1, h2]
      · simp [h1, h2]
    · simp [h1]

/-- The second loop accepts iff some candidate with the quorum is paid. -/
theorem IsTransactionValid_loop_iff (requiredMasternodePayment : Int) (txNew : CTransaction)
    (vec : List CMasternodePayee) :
    IsTransactionValid.loop requiredMasternodePayment txNew vec = true ↔
      ∃ p ∈ vec, p.nVotes ≥ MNPAYMENTS_SIGNATURES_REQUIRED ∧
        IsTransactionValid.found requiredMasternodePayment txNew p = true := by
  induction vec with
  | nil => simp [IsTransactionValid.loop]
  | cons p rest ih =>
    simp only [IsTransactionValid.loop, List.mem_cons, exists_eq_or_imp]
    by_cases hc : p.nVotes ≥ MNPAYMENTS_SIGNATURES_REQUIRED ∧
        IsTransactionValid.found requiredMasternodePayment txNew p = true
    · rw [if_pos hc]; simp only [true_iff]; exact Or.inl hc
    · rw [if_neg hc, ih]
      constructor
      · intro h; exact Or.inr h
      · rintro (h | h)
        · exact absurd h hc
        · exact h

/-- What `CMasternodeBlockPayees::IsTransactionValid` decides. -/
theorem BlockPayees_IsTransactionValid_iff (requiredMasternodePayment : Int → Int)
    (b : CMasternodeBlockPayees) (txNew : CTransaction) :
    b.IsTransactionValid requiredMasternodePayment txNew = true ↔
      ((∀ p ∈ b.vecPayments, p.nVotes < MNPAYMENTS_SIGNATURES_REQUIRED) ∨
        ∃ p ∈ b.vecPayments, p.nVotes ≥ MNPAYMENTS_SIGNATURES_REQUIRED ∧
          IsTransactionValid.found (requiredMasternodePayment b.nBlockHeight) txNew p = true) := by
  unfold CMasternodeBlockPayees.IsTransactionValid
  by_cases h : IsTransactionValid.nMaxSignatures b.vecPayments < MNPAYMENTS_SIGNATURES_REQUIRED
  · rw [if_pos h]
    simp only [true_iff]
    exact Or.inl ((nMaxSignatures_lt_iff _).mp h)
  · rw [if_neg h, IsTransactionValid_loop_iff]
    constructor
    · intro hx; exact Or.inr hx
    · rintro (hx | hx)
      · exact absurd ((nMaxSignatures_lt_iff _).mpr hx) h
      · exact hx

/-! ## Order of the votes: lemmas -/

/-- The vote counts after `AddPayee`. -/
theorem votesFor_AddPayee (s : Nat) (inc : Int) (vec : List CMasternodePayee) (s' : Nat) :
    votesFor (AddPayee.loop s inc vec) s' =
      if s' = s then some ((votesFor vec s).getD 0 + inc) else votesFor vec s' := by
  induction vec with
  | nil =>
    by_cases h : s' = s
    · subst h; simp [AddPayee.loop, votesFor]
    · have h2 : ¬ s = s' := fun e => h e.symm
      simp [AddPayee.loop, votesFor, h, h2]
  | cons p rest ih =>
    unfold AddPayee.loop
    by_cases hp : p.scriptPubKey = s
    · rw [if_pos hp]
      by_cases h : s' = s
      · subst h; simp [votesFor, hp, List.find?_cons]
      · have h2 : ¬ p.scriptPubKey = s' := fun e => h (e.symm.trans hp)
        simp [votesFor, h, h2, List.find?_cons]
    · rw [if_neg hp]
      by_cases hq : p.scriptPubKey = s'
      · have h : ¬ s' = s := fun e => hp (hq.trans e)
        simp [votesFor, hq, h, List.find?_cons]
      · have e1 : votesFor (p :: AddPayee.loop s inc rest) s' =
            votesFor (AddPayee.loop s inc rest) s' := by
          simp [votesFor, hq, List.find?_cons]
        have e2 : votesFor (p :: rest) s' = votesFor rest s' := by
          simp [votesFor, hq, List.find?_cons]
        have e3 : votesFor (p :: rest) s = votesFor rest s := by
          simp [votesFor, hp, List.find?_cons]
        rw [e1, e2, e3, ih]

/-- The scripts of the candidates after `AddPayee`. -/
theorem scripts_AddPayee (s : Nat) (inc : Int) (vec : List CMasternodePayee) :
    (AddPayee.loop s inc vec).map (fun p => p.scriptPubKey) =
      if s ∈ vec.map (fun p => p.scriptPubKey) then vec.map (fun p => p.scriptPubKey)
      else vec.map (fun p => p.scriptPubKey) ++ [s] := by
  induction vec with
  | nil => simp [AddPayee.loop]
  | cons p rest ih =>
    unfold AddPayee.loop
    by_cases hp : p.scriptPubKey = s
    · rw [if_pos hp]; simp [hp]
    · rw [if_neg hp, List.map_cons, ih]
      have h2 : ¬ s = p.scriptPubKey := fun e => hp e.symm
      by_cases hm : s ∈ rest.map (fun p => p.scriptPubKey)
      · rw [if_pos hm, if_pos (by rw [List.map_cons]; exact List.mem_cons_of_mem _ hm)]
        rfl
      · rw [if_neg hm, if_neg (by
          rw [List.map_cons, List.mem_cons]
          rintro (e | e)
          · exact h2 e
          · exact hm e)]
        rfl

/-- `AddPayee` keeps the scripts of the candidates pairwise distinct. -/
theorem scripts_AddPayee_nodup (s : Nat) (inc : Int) (vec : List CMasternodePayee)
    (h : (vec.map (fun p => p.scriptPubKey)).Nodup) :
    ((AddPayee.loop s inc vec).map (fun p => p.scriptPubKey)).Nodup := by
  rw [scripts_AddPayee]
  by_cases hm : s ∈ vec.map (fun p => p.scriptPubKey)
  · rw [if_pos hm]; exact h
  · rw [if_neg hm]
    rw [List.nodup_append]
    refine ⟨h, List.nodup_singleton s, ?_⟩
    intro a ha hb
    rw [List.mem_singleton] at hb
    subst hb
    exact hm ha

/-- With pairwise distinct scripts, a candidate is in the tally iff the tally gives its
script its vote count. -/
theorem mem_iff_votesFor (vec : List CMasternodePayee)
    (h : (vec.map (fun p => p.scriptPubKey)).Nodup) (p : CMasternodePayee) :
    p ∈ vec ↔ votesFor vec p.scriptPubKey = some p.nVotes := by
  induction vec with
  | nil => simp [votesFor]
  | cons q rest ih =>
    rw [List.map_cons, List.nodup_cons] at h
    by_cases hq : q.scriptPubKey = p.scriptPubKey
    · have e : votesFor (q :: rest) p.scriptPubKey = some q.nVotes := by
        simp [votesFor, hq, List.find?_cons]
      rw [e, List.mem_cons]
      constructor
      · rintro (e1 | e1)
        · rw [e1]
        · exfalso
          apply h.1
          rw [hq]
          exact List.mem_map_of_mem (fun p => p.scriptPubKey) e1
      · intro e1
        left
        have e2 : q.nVotes = p.nVotes := Option.some.inj e1
        cases p; cases q
        simp only [CMasternodePayee.mk.injEq]
        exact ⟨hq.symm, e2.symm⟩
    · have e : votesFor (q :: rest) p.scriptPubKey = votesFor rest p.scriptPubKey := by
        simp [votesFor, hq, List.find?_cons]
      rw [e, List.mem_cons, ← ih h.2]
      constructor
      · rintro (e1 | e1)
        · exact absurd (by rw [e1]) hq
        · exact e1
      · intro e1; exact Or.inr e1

/-- A second call of `GetBlockHash` for the same height, on the cache the first call left,
succeeds iff the first one did. -/
theorem GetBlockHash_again (chain : List CBlockIndex) (cache : BlockHashCache) (x : Int) :
    (GetBlockHash chain (GetBlockHash chain cache x).2 x).1.isSome =
      (GetBlockHash chain cache x).1.isSome := by
  cases chain with
  | nil => rfl
  | cons tip rest =>
    by_cases h0 : tip.nHeight = 0
    · simp [GetBlockHash, h0]
    · generalize hk : (if x = 0 then tip.nHeight else x) = k
      cases hc : cache k with
      | some hash => simp [GetBlockHash, h0, hk, hc]
      | none =>
        by_cases hneg : (if k > 0 then tip.nHeight + 1 - k else 0) < 0
        · simp [GetBlockHash, h0, hk, hc, hneg]
        · cases hl : GetBlockHash.loop (if k > 0 then tip.nHeight + 1 - k else 0)
              (tip :: rest) 0 with
          | none => simp [GetBlockHash, h0, hk, hc, hneg, hl]
          | some hash => simp [GetBlockHash, h0, hk, hc, hneg, hl, BlockHashCache.insert]

/-- The ledger and the cache after `AddWinningMasternode`. -/
theorem AddWinningMasternode_step (Hash : List Nat → Nat) (chain : List CBlockIndex)
    (L : CMasternodePayments) (cache : BlockHashCache) (w : CMasternodePaymentWinner) :
    (L.AddWinningMasternode Hash chain cache w).2.2 =
        (GetBlockHash chain cache (w.nBlockHeight - 100)).2 ∧
      (L.AddWinningMasternode Hash chain cache w).2.1 =
        if ((GetBlockHash chain cache (w.nBlockHeight - 100)).1.isSome &&
            !L.hasVote (w.GetHash Hash)) = true then
          { mapMasternodePayeeVotes := (w.GetHash Hash, w) :: L.mapMasternodePayeeVotes,
            mapMasternodeBlocks := fun h =>
              if h = w.nBlockHeight then
                some ((L.tallyAt w.nBlockHeight).AddPayee w.payee 1)
              else L.mapMasternodeBlocks h }
        else L := by
  unfold CMasternodePayments.AddWinningMasternode
  rcases hg : GetBlockHash chain cache (w.nBlockHeight - 100) with ⟨r, c⟩
  cases r with
  | none => simp
  | some hash =>
    cases hv : L.hasVote (w.GetHash Hash) with
    | true => simp [hv]
    | false =>
      simp only [hv, Option.isSome_some, Bool.not_false, Bool.and_self, if_true, true_and,
        Bool.false_eq_true, if_false]
      unfold CMasternodePayments.tallyAt
      rfl

/-- The view of a height after `AddWinningMasternode` of a vote for that height. -/
theorem view_AddWinningMasternode (Hash : List Nat → Nat) (chain : List CBlockIndex)
    (L : CMasternodePayments) (cache : BlockHashCache) (w : CMasternodePaymentWinner) :
    (L.AddWinningMasternode Hash chain cache w).2.1.view w.nBlockHeight =
      (L.view w.nBlockHeight).add Hash
        (GetBlockHash chain cache (w.nBlockHeight - 100)).1.isSome w := by
  rw [(AddWinningMasternode_step Hash chain L cache w).2]
  unfold LedgerView.add
  have e : (L.view w.nBlockHeight).recorded = L.hasVote := rfl
  rw [e]
  by_cases hc : ((GetBlockHash chain cache (w.nBlockHeight - 100)).1.isSome &&
      !L.hasVote (w.GetHash Hash)) = true
  · rw [if_pos hc, if_pos hc]
    simp only [CMasternodePayments.view, CMasternodePayments.tallyAt,
      CMasternodePayments.hasVote, CMasternodeBlockPayees.AddPayee, if_true,
      Option.isSome_some, List.any_cons]
    congr 1
    funext s
    rw [votesFor_AddPayee]
    by_cases hs : s = w.payee
    · rw [if_pos hs, if_pos hs, hs]
    · rw [if_neg hs, if_neg hs]
  · rw [if_neg hc, if_neg hc]

/-- `AddWinningMasternode` keeps the scripts of the candidates of a tally pairwise
distinct. -/
theorem nodup_AddWinningMasternode (Hash : List Nat → Nat) (chain : List CBlockIndex)
    (L : CMasternodePayments) (cache : BlockHashCache) (w : CMasternodePaymentWinner)
    (h : (((L.tallyAt w.nBlockHeight).vecPayments).map (fun p => p.scriptPubKey)).Nodup) :
    ((((L.AddWinningMasternode Hash chain cache w).2.1.tallyAt w.nBlockHeight).vecPayments).map
      (fun p => p.scriptPubKey)).Nodup := by
  rw [(AddWinningMasternode_step Hash chain L cache w).2]
  by_cases hc : ((GetBlockHash chain cache (w.nBlockHeight - 100)).1.isSome &&
      !L.hasVote (w.GetHash Hash)) = true
  · rw [if_pos hc]
    simp only [CMasternodePayments.tallyAt, if_true, CMasternodeBlockPayees.AddPayee]
    exact scripts_AddPayee_nodup _ _ _ h
  · rw [if_neg hc]; exact h

/-- The view of a height after adding a list of votes for that height, and the scripts of
its candidates. -/
theorem view_addVotes (Hash : List Nat → Nat) (chain : List CBlockIndex) (h : Int) :
    ∀ (votes : List CMasternodePaymentWinner) (L : CMasternodePayments)
      (cache : BlockHashCache),
      (∀ w ∈ votes, w.nBlockHeight = h) →
      (((L.tallyAt h).vecPayments).map (fun p => p.scriptPubKey)).Nodup →
      (addVotes Hash chain (L, cache) votes).1.view h =
          votes.foldl (LedgerView.add Hash (GetBlockHash chain cache (h - 100)).1.isSome)
            (L.view h) ∧
        ((((addVotes Hash chain (L, cache) votes).1.tallyAt h).vecPayments).map
          (fun p => p.scriptPubKey)).Nodup := by
  intro votes
  induction votes with
  | nil => intro L cache _ hn; exact ⟨rfl, hn⟩
  | cons w rest ih =>
    intro L cache hh hn
    have hw : w.nBlockHeight = h := hh w (List.mem_cons_self _ _)
    have hrest : ∀ w ∈ rest, w.nBlockHeight = h := fun x hx => hh x (List.mem_cons_of_mem _ hx)
    have e : addVotes Hash chain (L, cache) (w :: rest) =
        addVotes Hash chain ((L.AddWinningMasternode Hash chain cache w).2.1,
          (L.AddWinningMasternode Hash chain cache w).2.2) rest := rfl
    rw [e]
    have hn2 := nodup_AddWinningMasternode Hash chain L cache w (by rw [hw]; exact hn)
    rw [hw] at hn2
    have := ih (L.AddWinningMasternode Hash chain cache w).2.1
      (L.AddWinningMasternode Hash chain cache w).2.2 hrest hn2
    refine ⟨?_, this.2⟩
    rw [this.1, List.foldl_cons]
    have hv := view_AddWinningMasternode Hash chain L cache w
    rw [hw] at hv
    rw [hv, (AddWinningMasternode_step Hash chain L cache w).1, hw, GetBlockHash_again]

/-- Adding two votes to a view in either order gives the same view, when votes of equal
identity hash name the same payee. -/
theorem LedgerView_add_comm (Hash : List Nat → Nat) (ok : Bool) (z : LedgerView)
    (x y : CMasternodePaymentWinner)
    (hxy : x.GetHash Hash = y.GetHash Hash → x.payee = y.payee) :
    ((z.add Hash ok x).add Hash ok y) = ((z.add Hash ok y).add Hash ok x) := by
  cases ok with
  | false => simp [LedgerView.add]
  | true =>
    by_cases he : x.GetHash Hash = y.GetHash Hash
    · have hp := hxy he
      cases hx : z.recorded (x.GetHash Hash) with
      | true =>
        have hy : z.recorded (y.GetHash Hash) = true := by rw [← he]; exact hx
        simp [LedgerView.add, hx, hy]
      | false =>
        have hy : z.recorded (y.GetHash Hash) = false := by rw [← he]; exact hx
        simp [LedgerView.add, hx, hy, he, hp]
    · have he2 : ¬ y.GetHash Hash = x.GetHash Hash := fun e => he e.symm
      cases hx : z.recorded (x.GetHash Hash) with
      | true =>
        cases hy : z.recorded (y.GetHash Hash) with
        | true => simp [LedgerView.add, hx, hy]
        | false => simp [LedgerView.add, hx, hy, he, he2]
      | false =>
        cases hy : z.recorded (y.GetHash Hash) with
        | true => simp [LedgerView.add, hx, hy, he, he2]
        | false =>
          have b1 : (x.GetHash Hash == y.GetHash Hash) = false := by simp [he]
          have b2 : (y.GetHash Hash == x.GetHash Hash) = false := by simp [he2]
          simp only [LedgerView.add, hx, hy, b1, b2, Bool.true_and, Bool.not_false, if_true,
            Bool.or_false, Bool.false_or, Bool.or_self, LedgerView.mk.injEq, true_and, and_true]
          constructor
          · funext k
            rw [← Bool.or_assoc, ← Bool.or_assoc, Bool.or_comm (y.GetHash Hash == k)]
          · funext s
            by_cases h1 : s = x.payee
            · by_cases h2 : s = y.payee
              · simp only [if_pos h1, if_pos h2, Option.getD_some]
              · simp only [if_pos h1, if_neg h2, Option.getD_some]
            · by_cases h2 : s = y.payee
              · simp only [if_neg h1, if_pos h2, Option.getD_some]
              · simp only [if_neg h1, if_neg h2]

/-- Two ledgers with the same view of a height, and pairwise distinct scripts in its
tally, get the same verdict on every transaction and have the same candidates with the
quorum. -/
theorem verdict_of_view (requiredMasternodePayment : Int → Int) (L1 L2 : CMasternodePayments)
    (h : Int) (txNew : CTransaction) (hv : L1.view h = L2.view h)
    (hn1 : (((L1.tallyAt h).vecPayments).map (fun p => p.scriptPubKey)).Nodup)
    (hn2 : (((L2.tallyAt h).vecPayments).map (fun p => p.scriptPubKey)).Nodup) :
    (L1.mapMasternodeBlocks h).map
        (fun b => b.IsTransactionValid requiredMasternodePayment txNew) =
      (L2.mapMasternodeBlocks h).map
        (fun b => b.IsTransactionValid requiredMasternodePayment txNew) ∧
    ∀ p, L1.IsQuorumCandidate h p ↔ L2.IsQuorumCandidate h p := by
  have hpres : (L1.mapMasternodeBlocks h).isSome = (L2.mapMasternodeBlocks h).isSome :=
    congrArg LedgerView.present hv
  have hheight : (L1.tallyAt h).nBlockHeight = (L2.tallyAt h).nBlockHeight :=
    congrArg LedgerView.height hv
  have hvotes : votesFor (L1.tallyAt h).vecPayments = votesFor (L2.tallyAt h).vecPayments :=
    congrArg LedgerView.votes hv
  have hmem : ∀ p, p ∈ (L1.tallyAt h).vecPayments ↔ p ∈ (L2.tallyAt h).vecPayments := by
    intro p
    rw [mem_iff_votesFor _ hn1, mem_iff_votesFor _ hn2, hvotes]
  unfold CMasternodePayments.IsQuorumCandidate
  cases h1 : L1.mapMasternodeBlocks h with
  | none =>
    cases h2 : L2.mapMasternodeBlocks h with
    | none => simp
    | some b2 => rw [h1, h2] at hpres; simp at hpres
  | some b1 =>
    cases h2 : L2.mapMasternodeBlocks h with
    | none => rw [h1, h2] at hpres; simp at hpres
    | some b2 =>
      have t1 : L1.tallyAt h = b1 := by unfold CMasternodePayments.tallyAt; rw [h1]
      have t2 : L2.tallyAt h = b2 := by unfold CMasternodePayments.tallyAt; rw [h2]
      rw [t1, t2] at hmem hheight
      constructor
      · simp only [Option.map_some']
        congr 1
        rw [Bool.eq_iff_iff, BlockPayees_IsTransactionValid_iff,
          BlockPayees_IsTransactionValid_iff, hheight]
        constructor
        · rintro (hx | ⟨p, hp, hx⟩)
          · exact Or.inl (fun p hp => hx p ((hmem p).mpr hp))
          · exact Or.inr ⟨p, (hmem p).mp hp, hx⟩
        · rintro (hx | ⟨p, hp, hx⟩)
          · exact Or.inl (fun p hp => hx p ((hmem p).mp hp))
          · exact Or.inr ⟨p, (hmem p).mpr hp, hx⟩
      · intro p
        constructor
        · rintro ⟨b, hb, hp, hq⟩
          cases hb
          exact ⟨b2, rfl, (hmem p).mp hp, hq⟩
        · rintro ⟨b, hb, hp, hq⟩
          cases hb
          exact ⟨b1, rfl, (hmem p).mpr hp, hq⟩

/-! ## Tallies and payout validation: claims -/

/-- C19: for every list of votes for one height in which votes of equal identity hash name
the same payee (as distinct votes do under a collision-free hash), and every transaction,
adding the votes to the empty ledger in any two orders yields tallies on which
`CMasternodeBlockPayees::IsTransactionValid` returns the same result (and a tally exists in
the one ledger iff it does in the other), and the same set of candidates with at least
`MNPAYMENTS_SIGNATURES_REQUIRED` votes. -/
theorem quorum_determinism (Hash : List Nat → Nat) (chain : List CBlockIndex)
    (cache : BlockHashCache) (requiredMasternodePayment : Int → Int) (h : Int)
    (l1 l2 : List CMasternodePaymentWinner) (txNew : CTransaction)
    (hperm : l1.Perm l2)
    (hh : ∀ w ∈ l1, w.nBlockHeight = h)
    (hdist : ∀ w1 ∈ l1, ∀ w2 ∈ l1, w1.GetHash Hash = w2.GetHash Hash → w1.payee = w2.payee) :
    ((addVotes Hash chain (CMasternodePayments.empty, cache) l1).1.mapMasternodeBlocks h).map
        (fun b => b.IsTransactionValid requiredMasternodePayment txNew) =
      ((addVotes Hash chain (CMasternodePayments.empty, cache) l2).1.mapMasternodeBlocks h).map
        (fun b => b.IsTransactionValid requiredMasternodePayment txNew) ∧
    ∀ p, (addVotes Hash chain (CMasternodePayments.empty, cache) l1).1.IsQuorumCandidate h p ↔
      (addVotes Hash chain (CMasternodePayments.empty, cache) l2).1.IsQuorumCandidate h p := by
  have hh2 : ∀ w ∈ l2, w.nBlockHeight = h := fun w hw => hh w (hperm.mem_iff.mpr hw)
  have hn0 : (((CMasternodePayments.empty.tallyAt h).vecPayments).map
      (fun p => p.scriptPubKey)).Nodup := List.nodup_nil
  have v1 := view_addVotes Hash chain h l1 CMasternodePayments.empty cache hh hn0
  have v2 := view_addVotes Hash chain h l2 CMasternodePayments.empty cache hh2 hn0
  apply verdict_of_view _ _ _ _ _ _ v1.2 v2.2
  rw [v1.1, v2.1]
  exact hperm.foldl_eq' (fun x hx y hy z => LedgerView_add_comm Hash _ z x y (hdist x hx y hy)) _

/-- C19 at the example votes for height 5 and their reversal, on chain A. -/
theorem quorum_determinism_witness :
    sampleVotes.Perm sampleVotes.reverse ∧
    (∀ w ∈ sampleVotes, w.nBlockHeight = 5) ∧
    (∀ w1 ∈ sampleVotes, ∀ w2 ∈ sampleVotes,
      w1.GetHash sampleHash = w2.GetHash sampleHash → w1.payee = w2.payee) ∧
    (((addVotes sampleHash chainA (CMasternodePayments.empty, BlockHashCache.empty)
          sampleVotes).1.mapMasternodeBlocks 5).map
        (fun b => b.IsTransactionValid (fun _ => 10) sampleTx) =
      ((addVotes sampleHash chainA (CMasternodePayments.empty, BlockHashCache.empty)
          sampleVotes.reverse).1.mapMasternodeBlocks 5).map
        (fun b => b.IsTransactionValid (fun _ => 10) sampleTx) ∧
    ∀ p, (addVotes sampleHash chainA (CMasternodePayments.empty, BlockHashCache.empty)
          sampleVotes).1.IsQuorumCandidate 5 p ↔
      (addVotes sampleHash chainA (CMasternodePayments.empty, BlockHashCache.empty)
          sampleVotes.reverse).1.IsQuorumCandidate 5 p) :=
  ⟨(List.reverse_perm sampleVotes).symm, by decide, by decide,
    quorum_determinism sampleHash chainA BlockHashCache.empty (fun _ => 10) 5 sampleVotes
      sampleVotes.reverse sampleTx (List.reverse_perm sampleVotes).symm (by decide)
      (by decide)⟩

/-- C20: for every height `H` and every transaction, if there is no tally for `H` or every
candidate at `H` has fewer than `MNPAYMENTS_SIGNATURES_REQUIRED` (6) votes, then
`CMasternodePayments::IsTransactionValid(tx, H)` returns true, whatever the outputs of the
transaction. -/
theorem IsTransactionValid_quorum_fallback (requiredMasternodePayment : Int → Int)
    (L : CMasternodePayments) (txNew : CTransaction) (H : Int)
    (h : L.mapMasternodeBlocks H = none ∨
      ∃ b, L.mapMasternodeBlocks H = some b ∧
        ∀ p ∈ b.vecPayments, p.nVotes < MNPAYMENTS_SIGNATURES_REQUIRED) :
    MNPAYMENTS_SIGNATURES_REQUIRED = 6 ∧
      L.IsTransactionValid requiredMasternodePayment txNew H = true := by
  refine ⟨rfl, ?_⟩
  unfold CMasternodePayments.IsTransactionValid
  rcases h with h | ⟨b, hb, hall⟩
  · rw [h]
  · rw [hb]
    exact (BlockPayees_IsTransactionValid_iff _ b txNew).mpr (Or.inl hall)

/-- C20 after three votes for height 5 were cast, for a transaction that pays nobody. -/
theorem IsTransactionValid_quorum_fallback_witness :
    ((addVotes sampleHash chainA (CMasternodePayments.empty, BlockHashCache.empty)
          (sampleVotes.take 3)).1.mapMasternodeBlocks 5 = none ∨
      ∃ b, (addVotes sampleHash chainA (CMasternodePayments.empty, BlockHashCache.empty)
          (sampleVotes.take 3)).1.mapMasternodeBlocks 5 = some b ∧
        ∀ p ∈ b.vecPayments, p.nVotes < MNPAYMENTS_SIGNATURES_REQUIRED) ∧
    (MNPAYMENTS_SIGNATURES_REQUIRED = 6 ∧
      (addVotes sampleHash chainA (CMasternodePayments.empty, BlockHashCache.empty)
          (sampleVotes.take 3)).1.IsTransactionValid (fun _ => 10) ⟨[]⟩ 5 = true) :=
  ⟨Or.inr ⟨⟨5, [⟨901, 1⟩, ⟨900, 2⟩]⟩, by decide, by decide⟩,
    IsTransactionValid_quorum_fallback (fun _ => 10)
      (addVotes sampleHash chainA (CMasternodePayments.empty, BlockHashCache.empty)
        (sampleVotes.take 3)).1 ⟨[]⟩ 5 (Or.inr ⟨⟨5, [⟨901, 1⟩, ⟨900, 2⟩]⟩, by decide, by decide⟩)⟩

/-! ## Payout validation with a quorum: claims -/

/-- C21: for every tally in which some candidate has at least
`MNPAYMENTS_SIGNATURES_REQUIRED` votes and every transaction,
`CMasternodeBlockPayees::IsTransactionValid` returns true iff there are a candidate with at
least `MNPAYMENTS_SIGNATURES_REQUIRED` votes and an output of the transaction whose script
is that candidate's and whose value is at least the required masternode payment for the
height of the tally; when every output of at least that value pays only candidates below
the quorum, the transaction is not valid. -/
theorem IsTransactionValid_iff_quorum_candidate_paid (requiredMasternodePayment : Int → Int)
    (b : CMasternodeBlockPayees) (txNew : CTransaction)
    (hq : ∃ p ∈ b.vecPayments, p.nVotes ≥ MNPAYMENTS_SIGNATURES_REQUIRED) :
    (b.IsTransactionValid requiredMasternodePayment txNew = true ↔
      ∃ p ∈ b.vecPayments, p.nVotes ≥ MNPAYMENTS_SIGNATURES_REQUIRED ∧
        ∃ out ∈ txNew.vout, out.scriptPubKey = p.scriptPubKey ∧
          out.nValue ≥ requiredMasternodePayment b.nBlockHeight) ∧
    ((∀ out ∈ txNew.vout, out.nValue ≥ requiredMasternodePayment b.nBlockHeight →
        ∀ p ∈ b.vecPayments, p.scriptPubKey = out.scriptPubKey →
          p.nVotes < MNPAYMENTS_SIGNATURES_REQUIRED) →
      b.IsTransactionValid requiredMasternodePayment txNew = false) := by
  have key : b.IsTransactionValid requiredMasternodePayment txNew = true ↔
      ∃ p ∈ b.vecPayments, p.nVotes ≥ MNPAYMENTS_SIGNATURES_REQUIRED ∧
        ∃ out ∈ txNew.vout, out.scriptPubKey = p.scriptPubKey ∧
          out.nValue ≥ requiredMasternodePayment b.nBlockHeight := by
    rw [BlockPayees_IsTransactionValid_iff]
    constructor
    · rintro (hall | ⟨p, hp, hv, hf⟩)
      · obtain ⟨p, hp, hv⟩ := hq
        have := hall p hp
        omega
      · obtain ⟨out, ho, hs, hval⟩ := (found_iff _ _ _).mp hf
        exact ⟨p, hp, hv, out, ho, hs.symm, hval⟩
    · rintro ⟨p, hp, hv, out, ho, hs, hval⟩
      exact Or.inr ⟨p, hp, hv, (found_iff _ _ _).mpr ⟨out, ho, hs.symm, hval⟩⟩
  refine ⟨key, ?_⟩
  intro hlow
  cases hres : b.IsTransactionValid requiredMasternodePayment txNew with
  | false => rfl
  | true =>
    obtain ⟨p, hp, hv, out, ho, hs, hval⟩ := key.mp hres
    have := hlow out ho hval p hp hs.symm
    omega

/-- C21 at the example tally of height 5 (payee 900 with six votes, payee 901 with one),
for a transaction that pays the required amount to the payee 901 only: it is not valid. -/
theorem IsTransactionValid_iff_quorum_candidate_paid_witness :
    (∃ p ∈ sampleTally.vecPayments, p.nVotes ≥ MNPAYMENTS_SIGNATURES_REQUIRED) ∧
    ((sampleTally.IsTransactionValid (fun _ => 10) ⟨[⟨10, 901⟩]⟩ = true ↔
      ∃ p ∈ sampleTally.vecPayments, p.nVotes ≥ MNPAYMENTS_SIGNATURES_REQUIRED ∧
        ∃ out ∈ (CTransaction.mk [⟨10, 901⟩]).vout, out.scriptPubKey = p.scriptPubKey ∧
          out.nValue ≥ (fun _ => 10) sampleTally.nBlockHeight) ∧
    ((∀ out ∈ (CTransaction.mk [⟨10, 901⟩]).vout,
        out.nValue ≥ (fun _ => 10) sampleTally.nBlockHeight →
        ∀ p ∈ sampleTally.vecPayments, p.scriptPubKey = out.scriptPubKey →
          p.nVotes < MNPAYMENTS_SIGNATURES_REQUIRED) →
      sampleTally.IsTransactionValid (fun _ => 10) ⟨[⟨10, 901⟩]⟩ = false)) :=
  ⟨by decide,
    IsTransactionValid_iff_quorum_candidate_paid (fun _ => 10) sampleTally ⟨[⟨10, 901⟩]⟩
      (by decide)⟩

/-! ## Garbage collection and consistency of the ledger: lemmas -/

/-- The votes and tallies after `CleanPaymentList` when the lock is obtained and the chain
has a tip. -/
theorem CleanPaymentList_spec (tip : CBlockIndex) (rest : List CBlockIndex)
    (mnodemanSize : Int) (L : CMasternodePayments) :
    (L.CleanPaymentList true (tip :: rest) mnodemanSize).mapMasternodePayeeVotes =
        L.mapMasternodePayeeVotes.filter
          (fun kv => !decide (tip.nHeight - kv.2.nBlockHeight >
            max (timesOneAndQuarter mnodemanSize) 1000)) ∧
      ∀ h, (L.CleanPaymentList true (tip :: rest) mnodemanSize).mapMasternodeBlocks h =
        if tip.nHeight - h > max (timesOneAndQuarter mnodemanSize) 1000 ∧
            ∃ kv ∈ L.mapMasternodePayeeVotes, kv.2.nBlockHeight = h then none
        else L.mapMasternodeBlocks h := by
  constructor
  · simp only [CMasternodePayments.CleanPaymentList, Bool.not_true, Bool.false_eq_true,
      if_false]
    exact CleanPaymentList_loop_votes _ _ _ _
  · intro h
    simp only [CMasternodePayments.CleanPaymentList, Bool.not_true, Bool.false_eq_true,
      if_false]
    exact CleanPaymentList_loop_blocks _ _ _ _ h

/-- `CleanPaymentList` leaves the tally of the height of every vote it keeps as it is. -/
theorem CleanPaymentList_keeps_tally (lockMain : Bool) (chain : List CBlockIndex)
    (mnodemanSize : Int) (L : CMasternodePayments) :
    ∀ kv ∈ (L.CleanPaymentList lockMain chain mnodemanSize).mapMasternodePayeeVotes,
      kv ∈ L.mapMasternodePayeeVotes ∧
      (L.CleanPaymentList lockMain chain mnodemanSize).mapMasternodeBlocks kv.2.nBlockHeight =
        L.mapMasternodeBlocks kv.2.nBlockHeight := by
  intro kv hkv
  cases lockMain with
  | false => exact ⟨hkv, rfl⟩
  | true =>
    cases chain with
    | nil => exact ⟨hkv, rfl⟩
    | cons tip rest =>
      have hs := CleanPaymentList_spec tip rest mnodemanSize L
      rw [hs.1, List.mem_filter] at hkv
      refine ⟨hkv.1, ?_⟩
      rw [hs.2]
      have hold : ¬ tip.nHeight - kv.2.nBlockHeight >
          max (timesOneAndQuarter mnodemanSize) 1000 := by
        have h2 := hkv.2
        simp only [Bool.not_eq_true', decide_eq_false_iff_not] at h2
        exact h2
      rw [if_neg (fun hc => hold hc.1)]

/-- `AddWinningMasternode` keeps every recorded vote with a tally. -/
theorem AddWinningMasternode_VotesHaveTallies (Hash : List Nat → Nat)
    (chain : List CBlockIndex) (L : CMasternodePayments) (cache : BlockHashCache)
    (w : CMasternodePaymentWinner) (hL : VotesHaveTallies L) :
    VotesHaveTallies (L.AddWinningMasternode Hash chain cache w).2.1 := by
  rw [(AddWinningMasternode_step Hash chain L cache w).2]
  by_cases hc : ((GetBlockHash chain cache (w.nBlockHeight - 100)).1.isSome &&
      !L.hasVote (w.GetHash Hash)) = true
  · rw [if_pos hc]
    intro kv hkv
    simp only [List.mem_cons] at hkv
    show (if kv.2.nBlockHeight = w.nBlockHeight then _ else _ : Option _).isSome = true
    by_cases hh : kv.2.nBlockHeight = w.nBlockHeight
    · rw [if_pos hh]; rfl
    · rw [if_neg hh]
      rcases hkv with e | hmem
      · exact absurd (by rw [e]) hh
      · exact hL kv hmem
  · rw [if_neg hc]; exact hL

/-- `CleanPaymentList` keeps every recorded vote with a tally. -/
theorem CleanPaymentList_VotesHaveTallies (lockMain : Bool) (chain : List CBlockIndex)
    (mnodemanSize : Int) (L : CMasternodePayments) (hL : VotesHaveTallies L) :
    VotesHaveTallies (L.CleanPaymentList lockMain chain mnodemanSize) := by
  intro kv hkv
  have h := CleanPaymentList_keeps_tally lockMain chain mnodemanSize L kv hkv
  rw [h.2]
  exact hL kv h.1

/-- Every ledger reached from the empty one has a tally for every recorded vote. -/
theorem runLedgerOps_VotesHaveTallies (Hash : List Nat → Nat) (cache : BlockHashCache)
    (ops : List LedgerOp) : VotesHaveTallies (runLedgerOps Hash cache ops).1 := by
  unfold runLedgerOps
  suffices h : ∀ (ops : List LedgerOp) (s : CMasternodePayments × BlockHashCache),
      VotesHaveTallies s.1 → VotesHaveTallies (ops.foldl (LedgerOp.apply Hash) s).1 by
    apply h
    intro kv hkv
    simp [CMasternodePayments.empty] at hkv
  intro ops
  induction ops with
  | nil => intro s hs; exact hs
  | cons op rest ih =>
    intro s hs
    rw [List.foldl_cons]
    apply ih
    cases op with
    | add chain winner => exact AddWinningMasternode_VotesHaveTallies Hash chain s.1 s.2 winner hs
    | clean lockMain chain mnodemanSize =>
      exact CleanPaymentList_VotesHaveTallies lockMain chain mnodemanSize s.1 hs

/-! ## Garbage collection and consistency of the ledger: claims -/

/-- C23 fails as stated: the registry has 2000 entries of which 100 are enabled, the tip is
at height 1505 and the ledger holds the seven example votes for height 5. Every vote has
the age 1500, above the limit `max(floor(1.25 * 100), 1000) = 1000` that the enabled count
gives, yet `CleanPaymentList` keeps every vote and the tally of height 5: the limit it uses
is `max(floor(1.25 * 2000), 1000) = 2500`, from the number of entries. -/
theorem CleanPaymentList_limit_not_from_enabled_count :
    sampleCounts.size = 2000 ∧ sampleCounts.CountEnabled = 100 ∧
    sampleLedger.mapMasternodePayeeVotes.length = 7 ∧
    (∀ kv ∈ sampleLedger.mapMasternodePayeeVotes,
      (CBlockIndex.mk 1505 7).nHeight - kv.2.nBlockHeight >
        max (5 * sampleCounts.CountEnabled / 4) 1000) ∧
    (sampleLedger.CleanPaymentListWith true [⟨1505, 7⟩] sampleCounts).mapMasternodePayeeVotes =
      sampleLedger.mapMasternodePayeeVotes ∧
    (sampleLedger.CleanPaymentListWith true [⟨1505, 7⟩] sampleCounts).mapMasternodeBlocks 5 =
      sampleLedger.mapMasternodeBlocks 5 ∧
    (sampleLedger.mapMasternodeBlocks 5).isSome = true := by
  decide

/-- C23 as amended: for every ledger, tip height `H` and number `n ≥ 0` of entries of the
registry (`mnodeman.size()`, whatever the number of enabled entries), where the limit
`max(floor(1.25 n), 1000)` and the age `H - height` of every vote are values of an `int`:
after `CleanPaymentList` (chain lock obtained) every vote with `H - height > limit` is
removed and its height has no tally; every vote with `H - height ≤ limit` is still present
and the tally of its height is unchanged; and no vote is added. -/
theorem CleanPaymentList_removes_old_votes (L : CMasternodePayments) (tip : CBlockIndex)
    (rest : List CBlockIndex) (mnodeman : MnodemanCounts) (hn : 0 ≤ mnodeman.size)
    (_hlimit : 5 * mnodeman.size / 4 < 2 ^ 31)
    (_hage : ∀ kv ∈ L.mapMasternodePayeeVotes,
      -2 ^ 31 ≤ tip.nHeight - kv.2.nBlockHeight ∧ tip.nHeight - kv.2.nBlockHeight < 2 ^ 31) :
    (∀ kv ∈ L.mapMasternodePayeeVotes,
      tip.nHeight - kv.2.nBlockHeight > max (5 * mnodeman.size / 4) 1000 →
        kv ∉ (L.CleanPaymentListWith true (tip :: rest) mnodeman).mapMasternodePayeeVotes ∧
        (L.CleanPaymentListWith true (tip :: rest) mnodeman).mapMasternodeBlocks
          kv.2.nBlockHeight = none) ∧
    (∀ kv ∈ L.mapMasternodePayeeVotes,
      tip.nHeight - kv.2.nBlockHeight ≤ max (5 * mnodeman.size / 4) 1000 →
        kv ∈ (L.CleanPaymentListWith true (tip :: rest) mnodeman).mapMasternodePayeeVotes ∧
        (L.CleanPaymentListWith true (tip :: rest) mnodeman).mapMasternodeBlocks
          kv.2.nBlockHeight = L.mapMasternodeBlocks kv.2.nBlockHeight) ∧
    (∀ kv ∈ (L.CleanPaymentListWith true (tip :: rest) mnodeman).mapMasternodePayeeVotes,
      kv ∈ L.mapMasternodePayeeVotes) := by
  unfold CMasternodePayments.CleanPaymentListWith
  have hs := CleanPaymentList_spec tip rest mnodeman.size L
  have hq : timesOneAndQuarter mnodeman.size = 5 * mnodeman.size / 4 :=
    timesOneAndQuarter_eq_floor mnodeman.size hn
  rw [hq] at hs
  refine ⟨?_, ?_, ?_⟩
  · intro kv hkv hold
    constructor
    · rw [hs.1, List.mem_filter]
      rintro ⟨_, hk⟩
      simp only [Bool.not_eq_true', decide_eq_false_iff_not] at hk
      exact hk hold
    · rw [hs.2, if_pos ⟨hold, kv, hkv, rfl⟩]
  · intro kv hkv hnew
    constructor
    · rw [hs.1, List.mem_filter]
      refine ⟨hkv, ?_⟩
      simp only [Bool.not_eq_true', decide_eq_false_iff_not]
      omega
    · rw [hs.2, if_neg (fun hc => by have := hc.1; omega)]
  · intro kv hkv
    exact (CleanPaymentList_keeps_tally true (tip :: rest) mnodeman.size L kv hkv).1

/-- C23 as amended, at the example ledger (seven votes for height 5), a registry of 2000
entries and a tip at height 3000: the limit is 2500, all votes are older and are removed
with the tally of height 5. -/
theorem CleanPaymentList_removes_old_votes_witness :
    (0 : Int) ≤ sampleCounts.size ∧ 5 * sampleCounts.size / 4 < 2 ^ 31 ∧
    (∀ kv ∈ sampleLedger.mapMasternodePayeeVotes,
      -2 ^ 31 ≤ (CBlockIndex.mk 3000 7).nHeight - kv.2.nBlockHeight ∧
        (CBlockIndex.mk 3000 7).nHeight - kv.2.nBlockHeight < 2 ^ 31) ∧
    (sampleLedger.CleanPaymentListWith true [⟨3000, 7⟩] sampleCounts).mapMasternodePayeeVotes =
      [] ∧
    (sampleLedger.CleanPaymentListWith true [⟨3000, 7⟩] sampleCounts).mapMasternodeBlocks 5 =
      none ∧
    ((∀ kv ∈ sampleLedger.mapMasternodePayeeVotes,
      (CBlockIndex.mk 3000 7).nHeight - kv.2.nBlockHeight >
          max (5 * sampleCounts.size / 4) 1000 →
        kv ∉ (sampleLedger.CleanPaymentListWith true (⟨3000, 7⟩ :: [])
          sampleCounts).mapMasternodePayeeVotes ∧
        (sampleLedger.CleanPaymentListWith true (⟨3000, 7⟩ :: [])
          sampleCounts).mapMasternodeBlocks kv.2.nBlockHeight = none) ∧
    (∀ kv ∈ sampleLedger.mapMasternodePayeeVotes,
      (CBlockIndex.mk 3000 7).nHeight - kv.2.nBlockHeight ≤
          max (5 * sampleCounts.size / 4) 1000 →
        kv ∈ (sampleLedger.CleanPaymentListWith true (⟨3000, 7⟩ :: [])
          sampleCounts).mapMasternodePayeeVotes ∧
        (sampleLedger.CleanPaymentListWith true (⟨3000, 7⟩ :: [])
          sampleCounts).mapMasternodeBlocks kv.2.nBlockHeight =
            sampleLedger.mapMasternodeBlocks kv.2.nBlockHeight) ∧
    (∀ kv ∈ (sampleLedger.CleanPaymentListWith true (⟨3000, 7⟩ :: [])
        sampleCounts).mapMasternodePayeeVotes,
      kv ∈ sampleLedger.mapMasternodePayeeVotes)) :=
  ⟨by decide, by decide, by decide, by decide, by decide,
    CleanPaymentList_removes_old_votes sampleLedger ⟨3000, 7⟩ [] sampleCounts (by decide)
      (by decide) (by decide)⟩

/-- C26: in every ledger reached from the empty one by `AddWinningMasternode` and
`CleanPaymentList` calls, every recorded vote has a tally for its height; and
`CleanPaymentList`, on any ledger, leaves the tally of the height of every vote it keeps as
it is. -/
theorem votes_have_tallies (Hash : List Nat → Nat) (cache : BlockHashCache)
    (ops : List LedgerOp) (L : CMasternodePayments) (lockMain : Bool)
    (chain : List CBlockIndex) (mnodemanSize : Int) :
    (∀ kv ∈ (runLedgerOps Hash cache ops).1.mapMasternodePayeeVotes,
      ((runLedgerOps Hash cache ops).1.mapMasternodeBlocks kv.2.nBlockHeight).isSome = true) ∧
    (∀ kv ∈ (L.CleanPaymentList lockMain chain mnodemanSize).mapMasternodePayeeVotes,
      (L.CleanPaymentList lockMain chain mnodemanSize).mapMasternodeBlocks kv.2.nBlockHeight =
        L.mapMasternodeBlocks kv.2.nBlockHeight) :=
  ⟨runLedgerOps_VotesHaveTallies Hash cache ops,
    fun kv hkv => (CleanPaymentList_keeps_tally lockMain chain mnodemanSize L kv hkv).2⟩

/-! ## The rank of the voter: claims -/

/-- C22 fails as stated: with `MNPAYMENTS_SIGNATURES_TOTAL = 10`, a vote of a known
masternode with an adequate protocol version and rank 15 (between 10 and 20) is rejected
by `IsValid`, without an error text, and the `mnw` handler does not record it; the same
vote with rank 10 is recorded. -/
theorem IsValid_rejects_rank_15 :
    ((CMasternodeMan.Find (sampleVoteEnvRank 15).registry (sampleVote 5 900).vinMasternode).map
      (fun pmn => decide (pmn.protocolVersion ≥ (sampleVoteEnvRank 15).ActiveProtocol))) =
        some true ∧
    (sampleVote 5 900).IsValid (sampleVoteEnvRank 15) = false ∧
    CMasternodePaymentWinner.IsValid.strErrorSet (sampleVoteEnvRank 15) (sampleVote 5 900) =
      false ∧
    (CMasternodePayments.ProcessMessage_mnw sampleHash (sampleVoteEnvRank 15)
      CMasternodePayments.empty BlockHashCache.empty
      (sampleVote 5 900)).1.mapMasternodePayeeVotes = [] ∧
    (CMasternodePayments.ProcessMessage_mnw sampleHash (sampleVoteEnvRank 10)
      CMasternodePayments.empty BlockHashCache.empty
      (sampleVote 5 900)).1.mapMasternodePayeeVotes.map (fun kv => kv.2) =
        [sampleVote 5 900] := by
  decide

/-- C22 as amended: for every vote from a known masternode with an adequate protocol
version whose rank `n` at height - 100 exceeds `MNPAYMENTS_SIGNATURES_TOTAL`,
`CMasternodePaymentWinner::IsValid` rejects the vote and the `mnw` handler leaves the vote
map and the tallies unchanged; the error text, hence the log entry, is produced only when
`n > 2 * MNPAYMENTS_SIGNATURES_TOTAL`. -/
theorem IsValid_rejects_rank_above_total (Hash : List Nat → Nat) (env : VoteEnv)
    (L : CMasternodePayments) (cache : BlockHashCache) (w : CMasternodePaymentWinner)
    (pmn : CMasternode)
    (hfind : CMasternodeMan.Find env.registry w.vinMasternode = some pmn)
    (hproto : pmn.protocolVersion ≥ env.ActiveProtocol)
    (hrank : env.GetMasternodeRank w.vinMasternode (w.nBlockHeight - 100) env.ActiveProtocol >
      env.MNPAYMENTS_SIGNATURES_TOTAL) :
    w.IsValid env = false ∧
    CMasternodePayments.ProcessMessage_mnw Hash env L cache w = (L, cache) ∧
    (CMasternodePaymentWinner.IsValid.strErrorSet env w = true ↔
      env.GetMasternodeRank w.vinMasternode (w.nBlockHeight - 100) env.ActiveProtocol >
        2 * env.MNPAYMENTS_SIGNATURES_TOTAL) := by
  have hp : ¬ pmn.protocolVersion < env.ActiveProtocol := by omega
  have hv : w.IsValid env = false := by
    simp only [CMasternodePaymentWinner.IsValid, hfind, if_neg hp, if_pos hrank]
  refine ⟨hv, ?_, ?_⟩
  · generalize hP : (fun o : CMasternodePayments × BlockHashCache => o = (L, cache)) = P
    have base : P (L, cache) := by rw [← hP]
    suffices h : P (CMasternodePayments.ProcessMessage_mnw Hash env L cache w) by
      rw [← hP] at h; exact h
    unfold CMasternodePayments.ProcessMessage_mnw
    simp only [hv, Bool.not_false, if_true]
    repeat' (first | exact base | apply prop_ite P)
    cases env.chain with
    | nil => exact base
    | cons tip rest =>
      simp only
      repeat' (first | exact base | apply prop_ite P)
  · simp only [CMasternodePaymentWinner.IsValid.strErrorSet, hfind, if_neg hp, if_pos hrank]
    by_cases h2 : env.GetMasternodeRank w.vinMasternode (w.nBlockHeight - 100)
        env.ActiveProtocol > env.MNPAYMENTS_SIGNATURES_TOTAL * 2
    · rw [if_pos h2]; simp only [true_iff]; omega
    · rw [if_neg h2]
      constructor
      · intro h; exact absurd h (by decide)
      · intro h; omega

/-- C22 as amended, at the example vote with rank 15 and `MNPAYMENTS_SIGNATURES_TOTAL = 10`. -/
theorem IsValid_rejects_rank_above_total_witness :
    CMasternodeMan.Find (sampleVoteEnvRank 15).registry (sampleVote 5 900).vinMasternode =
      some (sampleEntry MasternodeState.MASTERNODE_ENABLED 0 0) ∧
    (sampleVote 5 900).IsValid (sampleVoteEnvRank 15) = false ∧
    CMasternodePayments.ProcessMessage_mnw sampleHash (sampleVoteEnvRank 15) sampleLedger
      BlockHashCache.empty (sampleVote 5 900) = (sampleLedger, BlockHashCache.empty) ∧
    (CMasternodePaymentWinner.IsValid.strErrorSet (sampleVoteEnvRank 15) (sampleVote 5 900) =
        true ↔
      (sampleVoteEnvRank 15).GetMasternodeRank (sampleVote 5 900).vinMasternode
          ((sampleVote 5 900).nBlockHeight - 100) (sampleVoteEnvRank 15).ActiveProtocol >
        2 * (sampleVoteEnvRank 15).MNPAYMENTS_SIGNATURES_TOTAL) :=
  ⟨by decide,
    IsValid_rejects_rank_above_total sampleHash (sampleVoteEnvRank 15) sampleLedger
      BlockHashCache.empty (sampleVote 5 900)
      (sampleEntry MasternodeState.MASTERNODE_ENABLED 0 0) (by decide) (by decide)
      (by decide)⟩

/-! ## Rejected pings: claims -/

/-- C29 fails as stated: the stored entry is ENABLED, registered and last pinged at 999000;
with the clock at 1000000 a ping signed at 999550 passes every test and is stored, the
forced `Check` then finds the warm-up gap of 550 s too short and sets PRE_ENABLED, and
`CheckAndUpdate` returns false: the entry has a new last ping and a new state. -/
theorem PingCheck_false_after_update :
    ((sampleRegistry MasternodeState.MASTERNODE_ENABLED 999000 999000) ⟨77, 1⟩).map
        (fun mn => (mn.lastPing.sigTime, mn.activeState)) =
      some (999000, MasternodeState.MASTERNODE_ENABLED) ∧
    (CMasternodePing.CheckAndUpdate (sampleRegistryEnv Network.MAIN 1000000)
        (sampleRegistry MasternodeState.MASTERNODE_ENABLED 999000 999000)
        (samplePing 999550) 0 true false).map
      (fun x => (x.1, (x.2.2 ⟨77, 1⟩).map (fun mn => (mn.lastPing.sigTime, mn.activeState)))) =
      some (false, some (999550, MasternodeState.MASTERNODE_PRE_ENABLED)) := by
  decide

/-- C29 as amended: in an environment where `Check` can consult the gate,
`CMasternodePing::CheckAndUpdate` returns, and whenever it returns false either the
registry is as before the call, or the ping was stored before the result was decided: the
entry of the ping's CollateralRef is the result of a forced `Check` of the entry with the
ping as its last ping, and that result is not ENABLED. -/
theorem PingCheck_false_cases (env : RegistryEnv) (r : Registry) (ping : CMasternodePing)
    (nDos : Int) (fRequireEnabled fCheckSigTimeOnly : Bool)
    (hwf : env.toCheckEnv.WellFormed) :
    ∃ ok d r', CMasternodePing.CheckAndUpdate env r ping nDos fRequireEnabled
        fCheckSigTimeOnly = some (ok, d, r') ∧
      (ok = false →
        (r' = r ∨ ∃ mn mn', r ping.vin.prevout = some mn ∧
          CMasternode.Check env.toCheckEnv { mn with lastPing := ping } true = some mn' ∧
          mn'.IsEnabled = false ∧ r' = r.set ping.vin.prevout mn')) := by
  generalize hP : (fun o : Option (Bool × Int × Registry) =>
    ∃ ok d r', o = some (ok, d, r') ∧
      (ok = false →
        (r' = r ∨ ∃ mn mn', r ping.vin.prevout = some mn ∧
          CMasternode.Check env.toCheckEnv { mn with lastPing := ping } true = some mn' ∧
          mn'.IsEnabled = false ∧ r' = r.set ping.vin.prevout mn'))) = P
  have base1 : ∀ ok d, P (some (ok, d, r)) := by
    intro ok d; rw [← hP]; exact ⟨ok, d, r, rfl, fun _ => Or.inl rfl⟩
  have base2 : ∀ d r', P (some (true, d, r')) := by
    intro d r'; rw [← hP]; exact ⟨true, d, r', rfl, fun h => absurd h (by decide)⟩
  suffices h : P (CMasternodePing.CheckAndUpdate env r ping nDos fRequireEnabled
      fCheckSigTimeOnly) by
    rw [← hP] at h; exact h
  cases hfind : r ping.vin.prevout with
  | none =>
    simp only [CMasternodePing.CheckAndUpdate, CMasternodeMan.Find, hfind]
    repeat' (first | exact base1 _ _ | apply prop_ite P)
  | some mn =>
    obtain ⟨st, t, hcheck⟩ := Check_shape env.toCheckEnv { mn with lastPing := ping } true hwf
    cases hidx : env.mapBlockIndex ping.blockHash with
    | none =>
      simp only [CMasternodePing.CheckAndUpdate, CMasternodeMan.Find, hfind, hidx]
      repeat' (first | exact base1 _ _ | apply prop_ite P)
    | some pindex =>
      cases hen : CMasternode.IsEnabled
          { { mn with lastPing := ping } with activeState := st, lastTimeChecked := t } with
      | true =>
        simp only [CMasternodePing.CheckAndUpdate, CMasternodeMan.Find, hfind, hidx, hcheck,
          hen, Bool.not_true, Bool.false_eq_true, if_false]
        repeat' (first | exact base1 _ _ | exact base2 _ _ | apply prop_ite P)
      | false =>
        have base3 : ∀ d, P (some (false, d, r.set ping.vin.prevout
            { { mn with lastPing := ping } with activeState := st, lastTimeChecked := t })) := by
          intro d; rw [← hP]
          exact ⟨false, d, _, rfl, fun _ => Or.inr ⟨mn, _, hfind, hcheck, hen, rfl⟩⟩
        simp only [CMasternodePing.CheckAndUpdate, CMasternodeMan.Find, hfind, hidx, hcheck,
          hen, Bool.not_false, if_true]
        repeat' (first | exact base1 _ _ | exact base3 _ | apply prop_ite P)

/-- C29 as amended, at the example: the ping signed at 999550 for the entry registered at
999000, clock at 1000000. -/
theorem PingCheck_false_cases_witness :
    (sampleRegistryEnv Network.MAIN 1000000).toCheckEnv.WellFormed ∧
    ∃ ok d r', CMasternodePing.CheckAndUpdate (sampleRegistryEnv Network.MAIN 1000000)
        (sampleRegistry MasternodeState.MASTERNODE_ENABLED 999000 999000)
        (samplePing 999550) 0 true false = some (ok, d, r') ∧
      (ok = false →
        (r' = sampleRegistry MasternodeState.MASTERNODE_ENABLED 999000 999000 ∨
          ∃ mn mn', (sampleRegistry MasternodeState.MASTERNODE_ENABLED 999000 999000)
              (samplePing 999550).vin.prevout = some mn ∧
            CMasternode.Check (sampleRegistryEnv Network.MAIN 1000000).toCheckEnv
              { mn with lastPing := samplePing 999550 } true = some mn' ∧
            mn'.IsEnabled = false ∧
            r' = (sampleRegistry MasternodeState.MASTERNODE_ENABLED 999000 999000).set
              (samplePing 999550).vin.prevout mn')) :=
  ⟨by decide,
    PingCheck_false_cases (sampleRegistryEnv Network.MAIN 1000000)
      (sampleRegistry MasternodeState.MASTERNODE_ENABLED 999000 999000) (samplePing 999550) 0
      true false (by decide)⟩

/-! ## The minimum protocol version: claims -/

/-- C28: `GetMinMasternodePaymentsProto` returns the base version when the chain lock is
not obtained or there is no tip; with a tip of height `h ≥ 0` and a table that has the
stages up to XANDAR it returns the MORAG version when MORAG is active at `h`, the XANDAR
version when XANDAR is active at `h` and MORAG is not, and the base version otherwise; and
for a table in which XANDAR activates no earlier than MORAG the result is the MORAG version
or the base version: the XANDAR branch is never taken. -/
theorem GetMinMasternodePaymentsProto_spec (v : PeerProtoVersions) (locked : Bool)
    (tip : CBlockIndex) (rest : List CBlockIndex) (params : Consensus.Params)
    (hh : 0 ≤ tip.nHeight)
    (hlen : Consensus.UPGRADE_XANDAR < Consensus.MAX_NETWORK_UPGRADES params) :
    CMasternodePayments.GetMinMasternodePaymentsProto v false (tip :: rest) params =
      some v.MIN_PEER_PROTO_VERSION_ENFORCEMENT ∧
    CMasternodePayments.GetMinMasternodePaymentsProto v locked [] params =
      some v.MIN_PEER_PROTO_VERSION_ENFORCEMENT ∧
    (ReachedAt tip.nHeight params Consensus.UPGRADE_MORAG →
      CMasternodePayments.GetMinMasternodePaymentsProto v true (tip :: rest) params =
        some v.MIN_PEER_PROTO_VERSION_ENFORCEMENT_MORAG) ∧
    (¬ ReachedAt tip.nHeight params Consensus.UPGRADE_MORAG →
      ReachedAt tip.nHeight params Consensus.UPGRADE_XANDAR →
      CMasternodePayments.GetMinMasternodePaymentsProto v true (tip :: rest) params =
        some v.MIN_PEER_PROTO_VERSION_ENFORCEMENT_XANDAR) ∧
    (¬ ReachedAt tip.nHeight params Consensus.UPGRADE_MORAG →
      ¬ ReachedAt tip.nHeight params Consensus.UPGRADE_XANDAR →
      CMasternodePayments.GetMinMasternodePaymentsProto v true (tip :: rest) params =
        some v.MIN_PEER_PROTO_VERSION_ENFORCEMENT) ∧
    (XandarNotBeforeMorag params →
      CMasternodePayments.GetMinMasternodePaymentsProto v true (tip :: rest) params =
          some v.MIN_PEER_PROTO_VERSION_ENFORCEMENT_MORAG ∨
        CMasternodePayments.GetMinMasternodePaymentsProto v true (tip :: rest) params =
          some v.MIN_PEER_PROTO_VERSION_ENFORCEMENT) := by
  have hlenM : Consensus.UPGRADE_MORAG < Consensus.MAX_NETWORK_UPGRADES params := by
    have : Consensus.UPGRADE_MORAG < Consensus.UPGRADE_XANDAR := by decide
    omega
  have hM := NetworkUpgradeActive_true_iff tip.nHeight params Consensus.UPGRADE_MORAG hh
  have hM' := NetworkUpgradeActive_false_iff tip.nHeight params Consensus.UPGRADE_MORAG hh hlenM
  have hX := NetworkUpgradeActive_true_iff tip.nHeight params Consensus.UPGRADE_XANDAR hh
  have hX' := NetworkUpgradeActive_false_iff tip.nHeight params Consensus.UPGRADE_XANDAR hh hlen
  have c1 : ReachedAt tip.nHeight params Consensus.UPGRADE_MORAG →
      CMasternodePayments.GetMinMasternodePaymentsProto v true (tip :: rest) params =
        some v.MIN_PEER_PROTO_VERSION_ENFORCEMENT_MORAG := by
    intro h
    simp only [CMasternodePayments.GetMinMasternodePaymentsProto, hM.mpr h, Bool.not_true,
      Bool.false_eq_true, if_false]
  have c2 : ¬ ReachedAt tip.nHeight params Consensus.UPGRADE_MORAG →
      ReachedAt tip.nHeight params Consensus.UPGRADE_XANDAR →
      CMasternodePayments.GetMinMasternodePaymentsProto v true (tip :: rest) params =
        some v.MIN_PEER_PROTO_VERSION_ENFORCEMENT_XANDAR := by
    intro h1 h2
    simp only [CMasternodePayments.GetMinMasternodePaymentsProto, hM'.mpr h1, hX.mpr h2,
      Bool.not_true, Bool.false_eq_true, if_false]
  have c3 : ¬ ReachedAt tip.nHeight params Consensus.UPGRADE_MORAG →
      ¬ ReachedAt tip.nHeight params Consensus.UPGRADE_XANDAR →
      CMasternodePayments.GetMinMasternodePaymentsProto v true (tip :: rest) params =
        some v.MIN_PEER_PROTO_VERSION_ENFORCEMENT := by
    intro h1 h2
    simp only [CMasternodePayments.GetMinMasternodePaymentsProto, hM'.mpr h1, hX'.mpr h2,
      Bool.not_true, Bool.false_eq_true, if_false]
  refine ⟨rfl, ?_, c1, c2, c3, ?_⟩
  · cases locked <;> rfl
  · intro hord
    by_cases h1 : ReachedAt tip.nHeight params Consensus.UPGRADE_MORAG
    · exact Or.inl (c1 h1)
    · right
      apply c3 h1
      rintro ⟨aX, hax, hne, hle⟩
      obtain ⟨u, hu⟩ : ∃ u, params.vUpgrades[Consensus.UPGRADE_MORAG]? = some u := by
        have : Consensus.UPGRADE_MORAG < params.vUpgrades.length := hlenM
        exact ⟨_, List.getElem?_eq_getElem this⟩
      have haM : activationHeight params Consensus.UPGRADE_MORAG = some u.nActivationHeight := by
        simp [activationHeight, hu]
      unfold XandarNotBeforeMorag at hord
      rw [haM, hax] at hord
      have := hord hne
      exact h1 ⟨_, haM, this.1, by omega⟩

/-- C28 on the main-network table (XANDAR at 2844000 after MORAG at 2167200) with a tip at
height 3000000. -/
theorem GetMinMasternodePaymentsProto_spec_witness :
    (0 : Int) ≤ (CBlockIndex.mk 3000000 7).nHeight ∧
    Consensus.UPGRADE_XANDAR < Consensus.MAX_NETWORK_UPGRADES mainParams ∧
    XandarNotBeforeMorag mainParams ∧
    CMasternodePayments.GetMinMasternodePaymentsProto sampleVersions true [⟨3000000, 7⟩]
      mainParams = some 170011 ∧
    (CMasternodePayments.GetMinMasternodePaymentsProto sampleVersions false
        (⟨3000000, 7⟩ :: []) mainParams =
      some sampleVersions.MIN_PEER_PROTO_VERSION_ENFORCEMENT ∧
    CMasternodePayments.GetMinMasternodePaymentsProto sampleVersions true [] mainParams =
      some sampleVersions.MIN_PEER_PROTO_VERSION_ENFORCEMENT ∧
    (ReachedAt (CBlockIndex.mk 3000000 7).nHeight mainParams Consensus.UPGRADE_MORAG →
      CMasternodePayments.GetMinMasternodePaymentsProto sampleVersions true
          (⟨3000000, 7⟩ :: []) mainParams =
        some sampleVersions.MIN_PEER_PROTO_VERSION_ENFORCEMENT_MORAG) ∧
    (¬ ReachedAt (CBlockIndex.mk 3000000 7).nHeight mainParams Consensus.UPGRADE_MORAG →
      ReachedAt (CBlockIndex.mk 3000000 7).nHeight mainParams Consensus.UPGRADE_XANDAR →
      CMasternodePayments.GetMinMasternodePaymentsProto sampleVersions true
          (⟨3000000, 7⟩ :: []) mainParams =
        some sampleVersions.MIN_PEER_PROTO_VERSION_ENFORCEMENT_XANDAR) ∧
    (¬ ReachedAt (CBlockIndex.mk 3000000 7).nHeight mainParams Consensus.UPGRADE_MORAG →
      ¬ ReachedAt (CBlockIndex.mk 3000000 7).nHeight mainParams Consensus.UPGRADE_XANDAR →
      CMasternodePayments.GetMinMasternodePaymentsProto sampleVersions true
          (⟨3000000, 7⟩ :: []) mainParams =
        some sampleVersions.MIN_PEER_PROTO_VERSION_ENFORCEMENT) ∧
    (XandarNotBeforeMorag mainParams →
      CMasternodePayments.GetMinMasternodePaymentsProto sampleVersions true
            (⟨3000000, 7⟩ :: []) mainParams =
          some sampleVersions.MIN_PEER_PROTO_VERSION_ENFORCEMENT_MORAG ∨
        CMasternodePayments.GetMinMasternodePaymentsProto sampleVersions true
            (⟨3000000, 7⟩ :: []) mainParams =
          some sampleVersions.MIN_PEER_PROTO_VERSION_ENFORCEMENT)) :=
  ⟨by decide, by decide, by decide, by decide,
    GetMinMasternodePaymentsProto_spec sampleVersions true ⟨3000000, 7⟩ [] mainParams
      (by decide) (by decide)⟩

/-! ## The snapshot file: lemmas -/

/-- A size below `2^31` is held by an `int` as it is. -/
theorem toInt32_of_lt (n : Nat) (h : n < 2 ^ 31) : toInt32 (n : Int) = n := by
  unfold toInt32
  have h1 : ((n : Int) + 2 ^ 31) % 2 ^ 32 = (n : Int) + 2 ^ 31 := by
    apply Int.emod_eq_of_lt <;> omega
  rw [h1]; omega

/-- How `Read` splits a file of fewer than `2^31` bytes that ends with 32 bytes: the bytes
before them are the data, the 32 bytes are the stored checksum. -/
theorem Read_split (env : SnapshotEnv) (data chk : List Nat) (objToLoad : CMasternodePayments)
    (fDryRun : Bool) (hchk : chk.length = 32) (hsize : (data ++ chk).length < 2 ^ 31) :
    CMasternodePaymentDB.Read env (some (data ++ chk)) objToLoad fDryRun =
      if chk ≠ env.Hash data then (CMasternodePaymentDB.ReadResult.IncorrectHash, objToLoad)
      else
        match env.readString data with
        | none => (CMasternodePaymentDB.ReadResult.IncorrectFormat, objToLoad.Clear)
        | some (strMagicMessageTmp, ssObj1) =>
          if CMasternodePaymentDB.strMagicMessage ≠ strMagicMessageTmp then
            (CMasternodePaymentDB.ReadResult.IncorrectMagicMessage, objToLoad)
          else if ssObj1.length < 4 then
            (CMasternodePaymentDB.ReadResult.IncorrectFormat, objToLoad.Clear)
          else
            if ssObj1.take 4 ≠ MessageStart env.network then
              (CMasternodePaymentDB.ReadResult.IncorrectMagicNumber, objToLoad)
            else
              match env.readLedger (ssObj1.drop 4) with
              | none => (CMasternodePaymentDB.ReadResult.IncorrectFormat, objToLoad.Clear)
              | some (loaded, _) =>
                if !fDryRun then
                  (CMasternodePaymentDB.ReadResult.Ok,
                    loaded.CleanPaymentList env.lockMain env.chain env.mnodemanSize)
                else (CMasternodePaymentDB.ReadResult.Ok, loaded) := by
  have hlen : (data ++ chk).length = data.length + 32 := by rw [List.length_append, hchk]
  have h1 : toInt32 ((data ++ chk).length : Int) = (data.length : Int) + 32 := by
    rw [toInt32_of_lt _ hsize, hlen]; push_cast; rfl
  have h2 : ((data.length : Int) + 32 - 32) = (data.length : Int) := by omega
  have h3 : ¬ ((data.length : Int) < 0) := by omega
  have h4 : ¬ (chk.length < 32) := by omega
  have h5 : List.take 32 chk = chk := by rw [← hchk]; exact List.take_length chk
  unfold CMasternodePaymentDB.Read
  simp only [h1, h2, if_neg h3, Int.toNat_ofNat, List.take_left', List.drop_left',
    List.take_left, List.drop_left, if_neg h4, h5]

/-- The network magic has four bytes. -/
theorem MessageStart_length (net : Network) : (MessageStart net).length = 4 := by
  cases net <;> rfl

/-! ## The snapshot file: claims -/

/-- C24 fails as stated: the example ledger (seven votes for height 5) is written and read
back on the same network while the tip is at height 2000; serialization is inverted, the
read returns `Ok`, and the ledger loaded by `Read` with `fDryRun = false` has no vote and
no tally for height 5. -/
theorem Read_after_Write_drops_old_votes :
    (sampleReadLedger (sampleWriteLedger sampleLedger)).map
        (fun x => (x.1.mapMasternodePayeeVotes, x.1.mapMasternodeBlocks 5)) =
      some (sampleLedger.mapMasternodePayeeVotes, sampleLedger.mapMasternodeBlocks 5) ∧
    sampleLedger.mapMasternodePayeeVotes.length = 7 ∧
    (sampleLedger.mapMasternodeBlocks 5).isSome = true ∧
    (CMasternodePaymentDB.Write (sampleSnapshotEnv 2000) none sampleLedger).1 = true ∧
    (CMasternodePaymentDB.Read (sampleSnapshotEnv 2000)
        (CMasternodePaymentDB.Write (sampleSnapshotEnv 2000) none sampleLedger).2
        CMasternodePayments.empty false).1 = CMasternodePaymentDB.ReadResult.Ok ∧
    (CMasternodePaymentDB.Read (sampleSnapshotEnv 2000)
        (CMasternodePaymentDB.Write (sampleSnapshotEnv 2000) none sampleLedger).2
        CMasternodePayments.empty false).2.mapMasternodePayeeVotes = [] ∧
    (CMasternodePaymentDB.Read (sampleSnapshotEnv 2000)
        (CMasternodePaymentDB.Write (sampleSnapshotEnv 2000) none sampleLedger).2
        CMasternodePayments.empty false).2.mapMasternodeBlocks 5 = none := by
  decide

/-- C24 as amended: for every ledger `L` whose snapshot has fewer than `2^31` bytes, when
the file can be opened, the hash has 32 bytes and the readers of the magic message and of
the ledger invert the writers, `Write(L)` produces magic message, network magic,
serialized `L` and the hash of everything preceding, and `Read` of those bytes on the same
network returns `Ok` and loads `L` itself in a dry run, and `L` after `CleanPaymentList`
otherwise. -/
theorem Read_after_Write (env : SnapshotEnv) (file : Option (List Nat))
    (L objToLoad : CMasternodePayments)
    (hopen : env.fopenWrite = true)
    (hHash : ∀ d, (env.Hash d).length = 32)
    (hStr : ∀ rest, env.readString
        (env.writeString CMasternodePaymentDB.strMagicMessage ++ rest) =
      some (CMasternodePaymentDB.strMagicMessage, rest))
    (hLed : ∃ rest, env.readLedger (env.writeLedger L) = some (L, rest))
    (hsize : (CMasternodePaymentDB.Write.ssObj env L).length < 2 ^ 31) :
    CMasternodePaymentDB.Write env file L =
      (true, some (env.writeString CMasternodePaymentDB.strMagicMessage ++
        MessageStart env.network ++ env.writeLedger L ++
        env.Hash (env.writeString CMasternodePaymentDB.strMagicMessage ++
          MessageStart env.network ++ env.writeLedger L))) ∧
    CMasternodePaymentDB.Read env (CMasternodePaymentDB.Write env file L).2 objToLoad true =
      (CMasternodePaymentDB.ReadResult.Ok, L) ∧
    CMasternodePaymentDB.Read env (CMasternodePaymentDB.Write env file L).2 objToLoad false =
      (CMasternodePaymentDB.ReadResult.Ok,
        L.CleanPaymentList env.lockMain env.chain env.mnodemanSize) := by
  obtain ⟨rest, hLed⟩ := hLed
  have hw : CMasternodePaymentDB.Write env file L =
      (true, some (env.writeString CMasternodePaymentDB.strMagicMessage ++
        MessageStart env.network ++ env.writeLedger L ++
        env.Hash (env.writeString CMasternodePaymentDB.strMagicMessage ++
          MessageStart env.network ++ env.writeLedger L))) := by
    simp only [CMasternodePaymentDB.Write, hopen, Bool.not_true, Bool.false_eq_true, if_false,
      CMasternodePaymentDB.Write.ssObj]
  have hsize2 : ((env.writeString CMasternodePaymentDB.strMagicMessage ++
        MessageStart env.network ++ env.writeLedger L) ++
        env.Hash (env.writeString CMasternodePaymentDB.strMagicMessage ++
          MessageStart env.network ++ env.writeLedger L)).length < 2 ^ 31 := hsize
  have hread : ∀ fDryRun,
      CMasternodePaymentDB.Read env (CMasternodePaymentDB.Write env file L).2 objToLoad
        fDryRun =
        if !fDryRun then
          (CMasternodePaymentDB.ReadResult.Ok,
            L.CleanPaymentList env.lockMain env.chain env.mnodemanSize)
        else (CMasternodePaymentDB.ReadResult.Ok, L) := by
    intro fDryRun
    rw [hw]
    simp only
    rw [Read_split env _ _ objToLoad fDryRun (hHash _) hsize2]
    have hm := MessageStart_length env.network
    have e1 : env.readString (env.writeString CMasternodePaymentDB.strMagicMessage ++
        MessageStart env.network ++ env.writeLedger L) =
        some (CMasternodePaymentDB.strMagicMessage,
          MessageStart env.network ++ env.writeLedger L) := by
      rw [List.append_assoc]; exact hStr _
    have e2 : ¬ (MessageStart env.network ++ env.writeLedger L).length < 4 := by
      rw [List.length_append, hm]; omega
    have e3 : List.take 4 (MessageStart env.network ++ env.writeLedger L) =
        MessageStart env.network := by
      rw [← hm]; exact List.take_left _ _
    have e4 : List.drop 4 (MessageStart env.network ++ env.writeLedger L) =
        env.writeLedger L := by
      rw [← hm]; exact List.drop_left _ _
    simp only [ne_eq, not_true_eq_false, if_false, e1, if_neg e2, e3, e4, hLed]
  refine ⟨hw, ?_, ?_⟩
  · rw [hread]; rfl
  · rw [hread]; rfl

/-- C24 as amended, at the example ledger on the main network with a tip at height 2000. -/
theorem Read_after_Write_witness :
    (sampleSnapshotEnv 2000).fopenWrite = true ∧
    (CMasternodePaymentDB.Write.ssObj (sampleSnapshotEnv 2000) sampleLedger).length <
      2 ^ 31 ∧
    (CMasternodePaymentDB.Write (sampleSnapshotEnv 2000) none sampleLedger =
      (true, some ((sampleSnapshotEnv 2000).writeString CMasternodePaymentDB.strMagicMessage ++
        MessageStart (sampleSnapshotEnv 2000).network ++
        (sampleSnapshotEnv 2000).writeLedger sampleLedger ++
        (sampleSnapshotEnv 2000).Hash
          ((sampleSnapshotEnv 2000).writeString CMasternodePaymentDB.strMagicMessage ++
            MessageStart (sampleSnapshotEnv 2000).network ++
            (sampleSnapshotEnv 2000).writeLedger sampleLedger))) ∧
    CMasternodePaymentDB.Read (sampleSnapshotEnv 2000)
        (CMasternodePaymentDB.Write (sampleSnapshotEnv 2000) none sampleLedger).2
        CMasternodePayments.empty true =
      (CMasternodePaymentDB.ReadResult.Ok, sampleLedger) ∧
    CMasternodePaymentDB.Read (sampleSnapshotEnv 2000)
        (CMasternodePaymentDB.Write (sampleSnapshotEnv 2000) none sampleLedger).2
        CMasternodePayments.empty false =
      (CMasternodePaymentDB.ReadResult.Ok,
        sampleLedger.CleanPaymentList (sampleSnapshotEnv 2000).lockMain
          (sampleSnapshotEnv 2000).chain (sampleSnapshotEnv 2000).mnodemanSize)) :=
  ⟨by decide, by decide,
    Read_after_Write (sampleSnapshotEnv 2000) none sampleLedger CMasternodePayments.empty
      (by decide) (by intro d; simp [sampleSnapshotEnv, sampleDigest])
      (by
        intro rest
        have e : sampleWriteString CMasternodePaymentDB.strMagicMessage =
            [18, 77, 97, 115, 116, 101, 114, 110, 111, 100, 101, 80, 97, 121, 109, 101, 110,
              116, 115] := by decide
        simp only [sampleSnapshotEnv, e, List.cons_append, sampleReadString]
        simp
        decide)
      ⟨[], rfl⟩ (by decide)⟩

/-- C25: for every snapshot file of fewer than `2^31` bytes whose trailing 32 bytes differ
from the hash of the bytes that precede them, `Read` returns `IncorrectHash` and leaves
the target ledger as it is, whatever the readers of the magic message and of the ledger
would do and with or without `fDryRun`. -/
theorem Read_IncorrectHash (env : SnapshotEnv) (data chk : List Nat)
    (objToLoad : CMasternodePayments) (fDryRun : Bool) (hchk : chk.length = 32)
    (hsize : (data ++ chk).length < 2 ^ 31) (hbad : chk ≠ env.Hash data) :
    CMasternodePaymentDB.Read env (some (data ++ chk)) objToLoad fDryRun =
      (CMasternodePaymentDB.ReadResult.IncorrectHash, objToLoad) := by
  rw [Read_split env data chk objToLoad fDryRun hchk hsize, if_pos hbad]

/-- C25 at the written snapshot of the example ledger with the first checksum byte
altered. -/
theorem Read_IncorrectHash_witness :
    sampleBadChecksum.length = 32 ∧
    (CMasternodePaymentDB.Write (sampleSnapshotEnv 2000) none sampleLedger).2 =
      some (sampleSnapshotData ++ sampleDigest sampleSnapshotData) ∧
    sampleBadChecksum ≠ (sampleSnapshotEnv 2000).Hash sampleSnapshotData ∧
    CMasternodePaymentDB.Read (sampleSnapshotEnv 2000)
        (some (sampleSnapshotData ++ sampleBadChecksum)) sampleLedger false =
      (CMasternodePaymentDB.ReadResult.IncorrectHash, sampleLedger) :=
  ⟨by decide, by decide, by decide,
    Read_IncorrectHash (sampleSnapshotEnv 2000) sampleSnapshotData sampleBadChecksum
      sampleLedger false (by decide) (by decide) (by decide)⟩

/-- A stage of the table has an activation height. -/
theorem activationHeight_some (params : Consensus.Params) (idx : Nat)
    (h : idx < Consensus.MAX_NETWORK_UPGRADES params) :
    ∃ a, activationHeight params idx = some a := by
  have h2 : idx < params.vUpgrades.length := h
  refine ⟨(params.vUpgrades.get ⟨idx, h2⟩).nActivationHeight, ?_⟩
  simp [activationHeight, List.getElem?_eq_getElem h2]

/-- The gate answers at a height that is not negative for a stage of the table. -/
theorem NetworkUpgradeActive_some (nHeight : Int) (params : Consensus.Params) (idx : Nat)
    (hn : 0 ≤ nHeight) (h : idx < Consensus.MAX_NETWORK_UPGRADES params) :
    ∃ b, NetworkUpgradeActive nHeight params idx = some b := by
  have hs := (NetworkUpgradeState_some_iff nHeight params idx).mpr ⟨hn, h⟩
  unfold NetworkUpgradeActive
  cases hst : NetworkUpgradeState nHeight params idx with
  | none => rw [hst] at hs; simp at hs
  | some st => exact ⟨_, rfl⟩

/-- Paying an amount out of output 0 keeps the sum of the values. -/
theorem pay_total (s : CTxOut × List CTxOut) (amount : Int) (script : Nat) :
    FillBlockPayee.total (FillBlockPayee.pay s amount script) = FillBlockPayee.total s := by
  simp only [FillBlockPayee.total, FillBlockPayee.pay, List.map_append, List.sum_append,
    List.map_cons, List.map_nil, List.sum_cons, List.sum_nil]
  omega

/-- The founders amount is defined when the table has the stages up to MORAG. -/
theorem vFoundersReward_some (env : RewardEnv) (nHeight blockValue : Int)
    (hlen : Consensus.UPGRADE_MORAG < Consensus.MAX_NETWORK_UPGRADES env.consensus) :
    ∃ r, FillBlockPayee.vFoundersReward env nHeight blockValue = some r := by
  obtain ⟨aO, haO⟩ := activationHeight_some env.consensus Consensus.UPGRADE_OVERWINTER
    (by have : Consensus.UPGRADE_OVERWINTER < Consensus.UPGRADE_MORAG := by decide
        omega)
  obtain ⟨aK, haK⟩ := activationHeight_some env.consensus Consensus.UPGRADE_KNOWHERE
    (by have : Consensus.UPGRADE_KNOWHERE < Consensus.UPGRADE_MORAG := by decide
        omega)
  obtain ⟨aM, haM⟩ := activationHeight_some env.consensus Consensus.UPGRADE_MORAG hlen
  simp only [FillBlockPayee.vFoundersReward, haO, haK, haM]
  repeat' (first | exact ⟨_, rfl⟩ | apply prop_ite (fun o : Option Int => ∃ r, o = some r))

/-- The treasury amount is defined when the gate answers. -/
theorem vTreasuryReward_some (env : RewardEnv) (nHeight blockValue aKnowhere : Int)
    (hn : 0 ≤ nHeight)
    (hlen : Consensus.UPGRADE_MORAG < Consensus.MAX_NETWORK_UPGRADES env.consensus) :
    ∃ r, FillBlockPayee.vTreasuryReward env nHeight blockValue aKnowhere = some r := by
  obtain ⟨bM, hbM⟩ := NetworkUpgradeActive_some nHeight env.consensus Consensus.UPGRADE_MORAG
    hn hlen
  obtain ⟨bA, hbA⟩ := NetworkUpgradeActive_some nHeight env.consensus
    Consensus.UPGRADE_ATLANTIS hn
    (by have : Consensus.UPGRADE_ATLANTIS < Consensus.UPGRADE_MORAG := by decide
        omega)
  cases bM <;> cases bA <;>
    simp only [FillBlockPayee.vTreasuryReward, hbM, hbA] <;>
    repeat' (first | exact ⟨_, rfl⟩ | apply prop_ite (fun o : Option Int => ∃ r, o = some r))

/-- The founders block returns and keeps the sum of the values. -/
theorem founders_total (env : RewardEnv) (nHeight blockValue : Int) (s : CTxOut × List CTxOut)
    (hn : 0 ≤ nHeight)
    (hlen : Consensus.UPGRADE_MORAG < Consensus.MAX_NETWORK_UPGRADES env.consensus) :
    ∃ s', FillBlockPayee.founders env nHeight blockValue s = some s' ∧
      FillBlockPayee.total s' = FillBlockPayee.total s := by
  obtain ⟨bM, hbM⟩ := NetworkUpgradeActive_some nHeight env.consensus Consensus.UPGRADE_MORAG
    hn hlen
  obtain ⟨r, hr⟩ := vFoundersReward_some env nHeight blockValue hlen
  generalize hP : (fun o : Option (CTxOut × List CTxOut) =>
    ∃ s', o = some s' ∧ FillBlockPayee.total s' = FillBlockPayee.total s) = P
  have base1 : P (some s) := by rw [← hP]; exact ⟨s, rfl, rfl⟩
  have base2 : ∀ a sc, P (some (FillBlockPayee.pay s a sc)) := by
    intro a sc; rw [← hP]; exact ⟨_, rfl, pay_total s a sc⟩
  suffices h : P (FillBlockPayee.founders env nHeight blockValue s) by
    rw [← hP] at h; exact h
  cases bM <;>
    simp only [FillBlockPayee.founders, hbM, hr] <;>
    repeat' (first | exact base1 | exact base2 _ _ | apply prop_ite P)

/-- The treasury block returns and keeps the sum of the values. -/
theorem treasury_total (env : RewardEnv) (nHeight blockValue : Int) (s : CTxOut × List CTxOut)
    (hn : 0 ≤ nHeight)
    (hlen : Consensus.UPGRADE_MORAG < Consensus.MAX_NETWORK_UPGRADES env.consensus) :
    ∃ s', FillBlockPayee.treasury env nHeight blockValue s = some s' ∧
      FillBlockPayee.total s' = FillBlockPayee.total s := by
  obtain ⟨aK, haK⟩ := activationHeight_some env.consensus Consensus.UPGRADE_KNOWHERE
    (by have : Consensus.UPGRADE_KNOWHERE < Consensus.UPGRADE_MORAG := by decide
        omega)
  obtain ⟨aM, haM⟩ := activationHeight_some env.consensus Consensus.UPGRADE_MORAG hlen
  obtain ⟨r, hr⟩ := vTreasuryReward_some env nHeight blockValue aK hn hlen
  generalize hP : (fun o : Option (CTxOut × List CTxOut) =>
    ∃ s', o = some s' ∧ FillBlockPayee.total s' = FillBlockPayee.total s) = P
  have base1 : P (some s) := by rw [← hP]; exact ⟨s, rfl, rfl⟩
  have base2 : ∀ a sc, P (some (FillBlockPayee.pay s a sc)) := by
    intro a sc; rw [← hP]; exact ⟨_, rfl, pay_total s a sc⟩
  suffices h : P (FillBlockPayee.treasury env nHeight blockValue s) by
    rw [← hP] at h; exact h
  simp only [FillBlockPayee.treasury, RewardEnv.GetLastTreasuryRewardBlockHeight, haM, haK, hr,
    Option.map_some']
  repeat' (first | exact base1 | exact base2 _ _ | apply prop_ite P)

/-- The developers block returns and keeps the sum of the values. -/
theorem developers_total (env : RewardEnv) (nHeight blockValue : Int)
    (s : CTxOut × List CTxOut) (hn : 0 ≤ nHeight)
    (hlen : Consensus.UPGRADE_MORAG < Consensus.MAX_NETWORK_UPGRADES env.consensus) :
    ∃ s', FillBlockPayee.developers env nHeight blockValue s = some s' ∧
      FillBlockPayee.total s' = FillBlockPayee.total s := by
  obtain ⟨bM, hbM⟩ := NetworkUpgradeActive_some nHeight env.consensus Consensus.UPGRADE_MORAG
    hn hlen
  cases bM with
  | false => exact ⟨s, by simp only [FillBlockPayee.developers, hbM], rfl⟩
  | true =>
    by_cases h : nHeight ≤ env.GetLastDevelopersRewardBlockHeight
    · exact ⟨FillBlockPayee.pay s (env.GetDevelopersPayment nHeight blockValue)
          (env.GetDevelopersRewardScriptAtHeight nHeight),
        by simp only [FillBlockPayee.developers, hbM, if_pos h], pay_total _ _ _⟩
    · exact ⟨s, by simp only [FillBlockPayee.developers, hbM, if_neg h], rfl⟩

/-- The premine block returns and keeps the sum of the values. -/
theorem premine_total (env : RewardEnv) (nHeight : Int) (s : CTxOut × List CTxOut)
    (hlen : Consensus.UPGRADE_MORAG < Consensus.MAX_NETWORK_UPGRADES env.consensus) :
    ∃ s', FillBlockPayee.premine env nHeight s = some s' ∧
      FillBlockPayee.total s' = FillBlockPayee.total s := by
  obtain ⟨aM, haM⟩ := activationHeight_some env.consensus Consensus.UPGRADE_MORAG hlen
  by_cases h : nHeight = aM
  · exact ⟨FillBlockPayee.pay s (env.GetPremineAmountAtHeight nHeight)
        (env.GetDevelopersRewardScriptAtHeight nHeight),
      by simp only [FillBlockPayee.premine, haM, if_pos h], pay_total _ _ _⟩
  · exact ⟨s, by simp only [FillBlockPayee.premine, haM, if_neg h], rfl⟩

/-- With a tip of height at least `-1`, a table with the stages up to MORAG and a
transaction with an output 0, `FillBlockPayee` returns, and the values of the outputs sum
to `blockValue + nFees` plus the values of the outputs that followed output 0 on entry. -/
theorem FillBlockPayee_total (env : RewardEnv) (L : CMasternodePayments) (tip : CBlockIndex)
    (rest : List CBlockIndex) (out0 : CTxOut) (others : List CTxOut) (nFees : Int)
    (payee : Nat) (hh : -1 ≤ tip.nHeight)
    (hlen : Consensus.UPGRADE_MORAG < Consensus.MAX_NETWORK_UPGRADES env.consensus) :
    ∃ tx payee', L.FillBlockPayee env (tip :: rest) ⟨out0 :: others⟩ nFees payee =
        some (tx, payee') ∧
      tx.valueSum = env.GetBlockSubsidy (tip.nHeight + 1) + nFees +
        (others.map (fun o => o.nValue)).sum := by
  have hn : 0 ≤ tip.nHeight + 1 := by omega
  obtain ⟨s1, h1, t1⟩ := founders_total env (tip.nHeight + 1)
    (env.GetBlockSubsidy (tip.nHeight + 1))
    ({ out0 with nValue := env.GetBlockSubsidy (tip.nHeight + 1) + nFees }, others) hn hlen
  obtain ⟨s2, h2, t2⟩ := treasury_total env (tip.nHeight + 1)
    (env.GetBlockSubsidy (tip.nHeight + 1)) s1 hn hlen
  obtain ⟨s3, h3, t3⟩ := developers_total env (tip.nHeight + 1)
    (env.GetBlockSubsidy (tip.nHeight + 1)) s2 hn hlen
  obtain ⟨s4, h4, t4⟩ := premine_total env (tip.nHeight + 1) s3 hlen
  have t0 : FillBlockPayee.total
      ({ out0 with nValue := env.GetBlockSubsidy (tip.nHeight + 1) + nFees }, others) =
      env.GetBlockSubsidy (tip.nHeight + 1) + nFees + (others.map (fun o => o.nValue)).sum :=
    rfl
  have hsum : ∀ s : CTxOut × List CTxOut,
      (CTransaction.mk (s.1 :: s.2)).valueSum = FillBlockPayee.total s := by
    intro s
    simp [CTransaction.valueSum, FillBlockPayee.total]
  simp only [CMasternodePayments.FillBlockPayee, h1, h2, h3, h4]
  refine ⟨_, _, rfl, ?_⟩
  rw [hsum]
  rw [← t0, ← t1, ← t2, ← t3, ← t4]
  apply prop_ite (fun s => FillBlockPayee.total s = FillBlockPayee.total s4)
  · exact pay_total _ _ _
  · rfl

/-! ## The outputs of the coinbase transaction: claims -/

/-- C27: for every chain with a tip (of height at least `-1`, with a table that has the
stages up to MORAG), every fee amount and every coinbase transaction that has exactly one
output on entry, `CMasternodePayments::FillBlockPayee` returns and the values of all
outputs of the transaction sum to `blockValue + nFees`, where `blockValue` is the block
subsidy of the height after the tip. -/
theorem FillBlockPayee_conserves_value (env : RewardEnv) (L : CMasternodePayments)
    (tip : CBlockIndex) (rest : List CBlockIndex) (out0 : CTxOut) (nFees : Int) (payee : Nat)
    (hh : -1 ≤ tip.nHeight)
    (hlen : Consensus.UPGRADE_MORAG < Consensus.MAX_NETWORK_UPGRADES env.consensus) :
    ∃ tx payee', L.FillBlockPayee env (tip :: rest) ⟨[out0]⟩ nFees payee = some (tx, payee') ∧
      tx.valueSum = env.GetBlockSubsidy (tip.nHeight + 1) + nFees := by
  obtain ⟨tx, payee', h, hs⟩ := FillBlockPayee_total env L tip rest out0 [] nFees payee hh hlen
  exact ⟨tx, payee', h, by simpa using hs⟩

/-- C27 on the main-network table with the tip one block below the activation of MORAG
(developers, premine and masternode outputs are appended), fees of 30, and a ledger whose
tally of the next height names the payee 555: the masternode output pays 555. -/
theorem FillBlockPayee_conserves_value_witness :
    (-1 : Int) ≤ (CBlockIndex.mk 2167199 7).nHeight ∧
    Consensus.UPGRADE_MORAG < Consensus.MAX_NETWORK_UPGRADES sampleRewardEnv.consensus ∧
    (CMasternodePayments.FillBlockPayee sampleRewardEnv sampleScheduleLedger
        [⟨2167199, 7⟩] ⟨[⟨0, 1⟩]⟩ 30 0).map (fun x => (x.1.vout, x.2)) =
      some ([⟨830, 1⟩, ⟨200, 13⟩, ⟨500, 13⟩, ⟨500, 555⟩], 555) ∧
    ∃ tx payee', CMasternodePayments.FillBlockPayee sampleRewardEnv sampleScheduleLedger
        (⟨2167199, 7⟩ :: []) ⟨[⟨0, 1⟩]⟩ 30 0 = some (tx, payee') ∧
      tx.valueSum = sampleRewardEnv.GetBlockSubsidy ((CBlockIndex.mk 2167199 7).nHeight + 1) +
        30 :=
  ⟨by decide, by decide, by decide,
    FillBlockPayee_conserves_value sampleRewardEnv sampleScheduleLedger ⟨2167199, 7⟩ []
      ⟨0, 1⟩ 30 0 (by decide) (by decide)⟩
